import Mathlib

/-!
# 3D-print marketplace: order, pricing and status workflow

A shallow embedding of the order/pricing part of `backend/server.js` (the Express
route handlers for orders, settings, products, favorites, portfolio, custom requests
and users) and of the cart, order, settings and request components of the React client
(`Cart.jsx`, `ProductCard.jsx`, `OrderView.jsx`, `Settings.jsx`, `CustomRequest.jsx`).

Modelling conventions.

* JavaScript values are the terms of `JsVal`.  JavaScript numbers are rationals
  (`JsVal.num`) plus `JsVal.nan`; infinities are not represented.  An arithmetic
  result is an `Option ℚ`, `none` being `NaN`.
* Binary rounding is represented where it decides an integer: the price formula
  `Math.round((price / 5.25) * coefficient)` is evaluated in binary64 arithmetic
  (`double`, `doubleDiv`, `doubleMul`), because `Math.round` turns a rounding error
  next to a half into a difference of one.  The other sums, products and comparisons
  are exact; they are exact in the source too on integers below `2 ^ 53`, and differ
  from it by the representation error only elsewhere.
* A database row, a request body and a JSON object are association lists of
  attribute names and values, in insertion order.
* TEXT columns hold the text they were given; `JSON.stringify` and `JSON.parse`
  are implemented on character lists.
* The store keeps rows in creation order.  The `created_date` / `updated_date`
  columns are not represented; "newest first" is the reverse of creation order.
  A row of the model is therefore the row of the database without its time stamps:
  two stores that are equal here can differ in `updated_date`, which Sequelize
  rewrites on every update.
* Whether Sequelize and PostgreSQL accept a write (column types, not-null and
  foreign-key constraints) is outside the repository: it is the parameter
  `accepts` of the handlers that write.
* An uploaded file is what `multer` records of it (stored name, MIME type, size); the
  password hash and the id a sequence gives to a new user are parameters.
-/

namespace Marketplace

/-! ## JavaScript values -/

/-- A JavaScript value as it occurs in JSON bodies, rows and client state. -/
inductive JsVal where
  | undefined
  | null
  | bool (b : Bool)
  | num (q : ℚ)
  | nan
  | str (s : String)
  | arr (xs : List JsVal)
  | obj (kvs : List (String × JsVal))

/-- An object: attribute names with their values, in insertion order. -/
abbrev Obj := List (String × JsVal)

namespace JsVal

instance : Inhabited JsVal := ⟨undefined⟩

/-- Truthiness (`ToBoolean`): `undefined`, `null`, `false`, `0`, `NaN` and `""`
are falsy, everything else (every array and object included) is truthy. -/
def truthy : JsVal → Bool
  | undefined => false
  | null => false
  | .bool b => b
  | num q => decide (q ≠ 0)
  | nan => false
  | str s => decide (s ≠ "")
  | arr _ => true
  | obj _ => true

/-- The test `typeof v === 'string'`. -/
def isString : JsVal → Bool
  | str _ => true
  | _ => false

/-- The operator `a || b`: `a` when it is truthy, else `b`. -/
def or (a b : JsVal) : JsVal := if a.truthy then a else b

/-- A JavaScript number as a value: `none` is `NaN`. -/
def ofNumber : Option ℚ → JsVal
  | some q => num q
  | none => nan

end JsVal

open JsVal

/-! ## Objects -/

/-- Property read on an association list: the value of the first entry named `k`,
`undefined` when there is none. -/
def Obj.get : Obj → String → JsVal
  | [], _ => undefined
  | (k', v) :: rest, k => if k' = k then v else Obj.get rest k

/-- Does the object have an own property `k`? -/
def Obj.has : Obj → String → Bool
  | [], _ => false
  | (k', _) :: rest, k => if k' = k then true else Obj.has rest k

/-- Property write: replaces the value in place when `k` exists, appends otherwise. -/
def Obj.set : Obj → String → JsVal → Obj
  | [], k, v => [(k, v)]
  | (k', v') :: rest, k, v => if k' = k then (k, v) :: rest else (k', v') :: Obj.set rest k v

/-- The statement `delete o[k]`. -/
def Obj.delete (o : Obj) (k : String) : Obj := o.filter (fun kv => decide (kv.1 ≠ k))

/-- Property read `v.k` for the attribute names the handlers and components use:
an object answers from its entries, any other value has no such property.  Every
read of a value that may be `null` or `undefined` is guarded or optional (`v?.k`) in
the source, where it gives `undefined` too. -/
def JsVal.get : JsVal → String → JsVal
  | obj kvs, k => Obj.get kvs k
  | _, _ => undefined

/-! ## Numbers as text -/

/-- The double quote character. -/
def dquote : Char := Char.ofNat 34
/-- The backslash character. -/
def backslash : Char := Char.ofNat 92
/-- The opening brace. -/
def lbrace : Char := Char.ofNat 123
/-- The closing brace. -/
def rbrace : Char := Char.ofNat 125

/-- Decimal digits of a natural number, most significant first
(`fuel` bounds the number of digits). -/
def natDigits : Nat → Nat → List Char → List Char
  | 0, _, acc => acc
  | fuel + 1, n, acc =>
    if n < 10 then Nat.digitChar n :: acc
    else natDigits fuel (n / 10) (Nat.digitChar (n % 10) :: acc)

/-- Decimal text of a natural number. -/
def natToChars (n : Nat) : List Char := natDigits (n + 1) n []

/-- Digits of the fractional part `r / d` (with `r < d`), at most `fuel` of them. -/
def fracDigits : Nat → Nat → Nat → List Char
  | 0, _, _ => []
  | fuel + 1, r, d =>
    if r = 0 then [] else Nat.digitChar (r * 10 / d) :: fracDigits fuel (r * 10 % d) d

/-- Text of a number (`Number::toString` on the values the model represents):
an integer prints its digits, another rational its decimal expansion, cut after 17
fractional digits. -/
def numToChars (q : ℚ) : List Char :=
  let sign : List Char := if q < 0 then [ '-'] else []
  let n := q.num.natAbs
  if q.den = 1 then sign ++ natToChars n
  else sign ++ natToChars (n / q.den) ++ [ '.'] ++ fracDigits 17 (n % q.den) q.den

/-- Value of a decimal digit character. -/
def digitVal (c : Char) : Nat := c.toNat - 48

/-- Reads a maximal run of decimal digits: the accumulated value, how many digits
were read, and the rest of the input. -/
def readDigits : List Char → Nat → Nat → Nat × Nat × List Char
  | [], acc, k => (acc, k, [])
  | c :: cs, acc, k =>
    if c.isDigit then readDigits cs (acc * 10 + digitVal c) (k + 1) else (acc, k, c :: cs)

/-- Reads an optional exponent part `e[+-]ddd`; without digits nothing is read. -/
def readExponent (cs : List Char) : Option Int × List Char :=
  match cs with
  | c :: rest =>
    if c = 'e' ∨ c = 'E' then
      match rest with
      | s :: rest' =>
        if s = '-' then
          match readDigits rest' 0 0 with
          | (_, 0, _) => (none, cs)
          | (e, _, r) => (some (-(e : Int)), r)
        else if s = '+' then
          match readDigits rest' 0 0 with
          | (_, 0, _) => (none, cs)
          | (e, _, r) => (some (e : Int), r)
        else
          match readDigits rest 0 0 with
          | (_, 0, _) => (none, cs)
          | (e, _, r) => (some (e : Int), r)
      | [] => (none, cs)
    else (none, cs)
  | [] => (none, cs)

/-- The mantissa `m` with an optional decimal exponent applied: `m * 10 ^ e`. -/
def scale10 (m : ℚ) : Option Int → ℚ
  | none => m
  | some e => m * (10 : ℚ) ^ e

/-- Reads an unsigned decimal literal `ddd[.ddd][e±dd]`.  With `strict` (the JSON
grammar) the integer part is required, has no leading zero and a dot must be
followed by a digit; without it (`parseFloat`, `Number`) the forms `.5` and `5.`
are read too. -/
def readUnsigned (strict : Bool) (cs : List Char) : Option (ℚ × List Char) :=
  match readDigits cs 0 0 with
  | (i, ki, rest) =>
    if strict && (ki = 0 || (ki > 1 && cs.head? = some '0')) then none
    else
      match rest with
      | '.' :: rest' =>
        match readDigits rest' 0 0 with
        | (f, kf, rest'') =>
          if kf = 0 then
            if strict || ki = 0 then none
            else some (scale10 (i : ℚ) (readExponent rest').1, (readExponent rest').2)
          else
            some (scale10 ((i : ℚ) + (f : ℚ) / (10 : ℚ) ^ kf) (readExponent rest'').1,
              (readExponent rest'').2)
      | _ =>
        if ki = 0 then none
        else some (scale10 (i : ℚ) (readExponent rest).1, (readExponent rest).2)

/-- Reads a JSON number: an optional minus sign and a strict unsigned literal. -/
def readJsonNumber (cs : List Char) : Option (ℚ × List Char) :=
  match cs with
  | '-' :: rest => (readUnsigned true rest).map (fun p => (-p.1, p.2))
  | _ => readUnsigned true cs

/-- Reads a signed decimal literal as `parseFloat` and `Number` do. -/
def readSigned (cs : List Char) : Option (ℚ × List Char) :=
  match cs with
  | '-' :: rest => (readUnsigned false rest).map (fun p => (-p.1, p.2))
  | '+' :: rest => readUnsigned false rest
  | _ => readUnsigned false cs

/-- JSON white space. -/
def isWs (c : Char) : Bool := c = ' ' || c = '\t' || c = '\n' || c = '\r'

/-- Drops leading white space. -/
def skipWs : List Char → List Char
  | [] => []
  | c :: cs => if isWs c then skipWs cs else c :: cs

/-! ## Conversions between values and text -/

/-- Text constant as characters. -/
def lit (s : String) : List Char := s.toList

/-- Joins texts with commas. -/
def joinComma : List (List Char) → List Char
  | [] => []
  | [x] => x
  | x :: y :: rest => x ++ ',' :: joinComma (y :: rest)

mutual
/-- The conversion `String(v)` (`ToString`). -/
def toStringChars : JsVal → List Char
  | undefined => lit "undefined"
  | null => lit "null"
  | .bool true => lit "true"
  | .bool false => lit "false"
  | num q => numToChars q
  | nan => lit "NaN"
  | str s => s.toList
  | arr xs => joinComma (elemStrings xs)
  | obj _ => lit "[object Object]"
/-- The element texts of `Array.prototype.join`: `null` and `undefined` are empty. -/
def elemStrings : List JsVal → List (List Char)
  | [] => []
  | undefined :: xs => [] :: elemStrings xs
  | null :: xs => [] :: elemStrings xs
  | x :: xs => toStringChars x :: elemStrings xs
end

/-- Drops trailing white space. -/
def trimEnd (cs : List Char) : List Char := (skipWs cs.reverse).reverse

/-- The conversion from text to number (`StringToNumber`): blank text is `0`, a
decimal literal its value, anything else `NaN`.  Hexadecimal, octal and binary
literals and `Infinity` are not represented and read as `NaN`; white space is the
JSON white space. -/
def stringToNumber (cs : List Char) : Option ℚ :=
  match trimEnd (skipWs cs) with
  | [] => some 0
  | t =>
    match readSigned t with
    | some (q, []) => some q
    | _ => none

/-- The function `parseFloat` on text: the longest decimal literal at the start,
after leading white space. -/
def parseFloatChars (cs : List Char) : Option ℚ :=
  (readSigned (skipWs cs)).map (fun p => p.1)

/-- The conversion `Number(v)` (`ToNumber`), used by the arithmetic operators. -/
def toNumber : JsVal → Option ℚ
  | undefined => none
  | null => some 0
  | .bool b => some (if b then 1 else 0)
  | num q => some q
  | nan => none
  | v => stringToNumber (toStringChars v)

/-- The function `parseFloat(v)`: a number is returned as it is, any other value
is read through its text. -/
def parseFloat : JsVal → Option ℚ
  | num q => some q
  | nan => none
  | v => parseFloatChars (toStringChars v)

/-! ## Binary floating point -/

/-- Rounding to the nearest integer, a half going to the even neighbour. -/
def roundHalfEven (x : ℚ) : ℤ :=
  if x - ⌊x⌋ < 1 / 2 then ⌊x⌋
  else if 1 / 2 < x - ⌊x⌋ then ⌊x⌋ + 1
  else if ⌊x⌋ % 2 = 0 then ⌊x⌋
  else ⌊x⌋ + 1

/-- The IEEE 754 binary64 number (the JavaScript number) nearest to `q`, a tie going to
the even significand.  With `e = Int.log 2 |q|`, the greatest integer such that
`2 ^ e ≤ |q|`, the numbers near `q` are the multiples of `2 ^ (e - 52)` (53 significant
bits), and the multiples of `2 ^ (-1074)` below the normal range.  A result of magnitude
`2 ^ 1024` or more, which is an infinity in JavaScript, is outside the model. -/
def double (q : ℚ) : ℚ :=
  if q = 0 then 0
  else
    (roundHalfEven (q / 2 ^ (max (Int.log 2 |q| - 52) (-1074))) : ℚ) *
      2 ^ (max (Int.log 2 |q| - 52) (-1074))

/-- The operator `a / b` on two binary64 numbers, `b` not zero: the exact quotient,
rounded once. -/
def doubleDiv (a b : ℚ) : ℚ := double (a / b)

/-- The operator `a * b` on two binary64 numbers: the exact product, rounded once. -/
def doubleMul (a b : ℚ) : ℚ := double (a * b)

/-- The function `Math.round` at a finite binary64 number `x`: the nearest integer,
halves rounding up.  The function itself is exact (its result is an integer that needs no
more bits than `x`), so at a binary64 number it is `⌊x + 1 / 2⌋`; the rounding error of
the arithmetic that produces `x` is in `double`.  It is also the rounding to the nearest
integer that the specification's formula names. -/
def Math.round (x : ℚ) : ℚ := ((⌊x + 1 / 2⌋ : ℤ) : ℚ)

/-! ## JSON text -/

/-- Four hexadecimal digits of a code unit. -/
def hex4 (n : Nat) : List Char :=
  [Nat.digitChar (n / 4096 % 16), Nat.digitChar (n / 256 % 16),
   Nat.digitChar (n / 16 % 16), Nat.digitChar (n % 16)]

/-- A character inside a JSON string literal, escaped as `JSON.stringify` does. -/
def escapeChar (c : Char) : List Char :=
  if c = dquote then [backslash, dquote]
  else if c = backslash then [backslash, backslash]
  else if c = '\n' then [backslash, 'n']
  else if c = '\r' then [backslash, 'r']
  else if c = '\t' then [backslash, 't']
  else if c = Char.ofNat 8 then [backslash, 'b']
  else if c = Char.ofNat 12 then [backslash, 'f']
  else if c.toNat < 32 then backslash :: 'u' :: hex4 c.toNat
  else [c]

/-- A quoted JSON string literal. -/
def quoteChars (s : List Char) : List Char :=
  dquote :: (s.flatMap escapeChar ++ [dquote])

mutual
/-- The text `JSON.stringify` writes for a value inside an array or object
(`undefined` and `NaN` are written `null` in an array). -/
def jsonChars : JsVal → List Char
  | undefined => lit "null"
  | null => lit "null"
  | .bool true => lit "true"
  | .bool false => lit "false"
  | num q => numToChars q
  | nan => lit "null"
  | str s => quoteChars s.toList
  | arr xs => '[' :: (joinComma (jsonElems xs) ++ [ ']'])
  | obj kvs => lbrace :: (joinComma (jsonMembers kvs) ++ [rbrace])
/-- Texts of the elements of an array. -/
def jsonElems : List JsVal → List (List Char)
  | [] => []
  | x :: xs => jsonChars x :: jsonElems xs
/-- Texts of the members of an object; a member whose value is `undefined` is
left out. -/
def jsonMembers : List (String × JsVal) → List (List Char)
  | [] => []
  | (_, undefined) :: kvs => jsonMembers kvs
  | (k, v) :: kvs => (quoteChars k.toList ++ ':' :: jsonChars v) :: jsonMembers kvs
end

/-- The function `JSON.stringify(v)`: a string, or `undefined` for `undefined`. -/
def JSON.stringify : JsVal → JsVal
  | undefined => undefined
  | v => str (String.mk (jsonChars v))

/-- Value of a hexadecimal digit. -/
def hexVal (c : Char) : Option Nat :=
  if c.isDigit then some (c.toNat - 48)
  else if 'a'.toNat ≤ c.toNat ∧ c.toNat ≤ 'f'.toNat then some (c.toNat - 87)
  else if 'A'.toNat ≤ c.toNat ∧ c.toNat ≤ 'F'.toNat then some (c.toNat - 55)
  else none

/-- Reads a JSON string literal after its opening quote, up to and including the
closing quote.  A `\uXXXX` escape gives the character with that code; surrogate
pairs are not combined. -/
def readString : List Char → List Char → Option (String × List Char)
  | [], _ => none
  | c :: cs, acc =>
    if c = dquote then some (String.mk acc.reverse, cs)
    else if c = backslash then
      match cs with
      | [] => none
      | e :: cs' =>
        if e = dquote then readString cs' (dquote :: acc)
        else if e = backslash then readString cs' (backslash :: acc)
        else if e = '/' then readString cs' ('/' :: acc)
        else if e = 'b' then readString cs' (Char.ofNat 8 :: acc)
        else if e = 'f' then readString cs' (Char.ofNat 12 :: acc)
        else if e = 'n' then readString cs' ('\n' :: acc)
        else if e = 'r' then readString cs' ('\r' :: acc)
        else if e = 't' then readString cs' ('\t' :: acc)
        else if e = 'u' then
          match cs' with
          | h1 :: h2 :: h3 :: h4 :: cs'' =>
            match hexVal h1, hexVal h2, hexVal h3, hexVal h4 with
            | some a, some b, some c', some d =>
              readString cs'' (Char.ofNat (a * 4096 + b * 256 + c' * 16 + d) :: acc)
            | _, _, _, _ => none
          | _ => none
        else none
    else if c.toNat < 32 then none
    else readString cs (c :: acc)

/-- Drops the literal `l` from the start of the input, if it is there. -/
def dropLit : List Char → List Char → Option (List Char)
  | [], cs => some cs
  | _ :: _, [] => none
  | l :: ls, c :: cs => if l = c then dropLit ls cs else none

mutual
/-- Reads one JSON value (after optional white space) and returns the rest of the
input.  `fuel` bounds the depth of the recursion; the length of the input is
enough. -/
def readValue : Nat → List Char → Option (JsVal × List Char)
  | 0, _ => none
  | fuel + 1, cs =>
    match skipWs cs with
    | [] => none
    | c :: rest =>
      if c = '[' then
        match skipWs rest with
        | ']' :: r => some (arr [], r)
        | _ => (readElems fuel rest).map (fun p => (arr p.1, p.2))
      else if c = lbrace then
        match skipWs rest with
        | [] => none
        | c' :: r =>
          if c' = rbrace then some (obj [], r)
          else (readMembers fuel rest).map (fun p => (obj p.1, p.2))
      else if c = dquote then (readString rest []).map (fun p => (str p.1, p.2))
      else if c = 'n' then (dropLit (lit "ull") rest).map (fun r => (null, r))
      else if c = 't' then (dropLit (lit "rue") rest).map (fun r => (JsVal.bool true, r))
      else if c = 'f' then (dropLit (lit "alse") rest).map (fun r => (JsVal.bool false, r))
      else (readJsonNumber (c :: rest)).map (fun p => (num p.1, p.2))
/-- Reads the elements of a non-empty array, up to and including `]`. -/
def readElems : Nat → List Char → Option (List JsVal × List Char)
  | 0, _ => none
  | fuel + 1, cs =>
    match readValue fuel cs with
    | none => none
    | some (v, rest) =>
      match skipWs rest with
      | [] => none
      | c :: r =>
        if c = ',' then (readElems fuel r).map (fun p => (v :: p.1, p.2))
        else if c = ']' then some ([v], r)
        else none
/-- Reads the members of a non-empty object, up to and including the closing
brace.  A repeated name keeps its first position and takes the last value. -/
def readMembers : Nat → List Char → Option (Obj × List Char)
  | 0, _ => none
  | fuel + 1, cs =>
    match skipWs cs with
    | [] => none
    | q :: afterQuote =>
      if q = dquote then
        match readString afterQuote [] with
        | none => none
        | some (k, rest) =>
          match skipWs rest with
          | [] => none
          | colon :: rest' =>
            if colon = ':' then
              match readValue fuel rest' with
              | none => none
              | some (v, rest'') =>
                match skipWs rest'' with
                | [] => none
                | c :: r =>
                  if c = ',' then
                    (readMembers fuel r).map
                      (fun p => ((k, if Obj.has p.1 k then Obj.get p.1 k else v) ::
                        Obj.delete p.1 k, p.2))
                  else if c = rbrace then some ([(k, v)], r)
                  else none
            else none
      else none
end

/-- Parses a whole JSON text: one value, white space around it allowed. -/
def parseJson (cs : List Char) : Option JsVal :=
  match readValue (cs.length + 1) cs with
  | some (v, rest) => if skipWs rest = [] then some v else none
  | none => none

/-- The function `JSON.parse(v)`: the argument is converted to text and parsed;
`none` stands for the `SyntaxError` it throws. -/
def JSON.parse (v : JsVal) : Option JsVal := parseJson (toStringChars v)

/-! ## Operators -/

/-- Is the value `undefined`? -/
def JsVal.isUndefined : JsVal → Bool
  | undefined => true
  | _ => false

/-- Is the value `null` or `undefined`? -/
def JsVal.isNullish : JsVal → Bool
  | undefined => true
  | null => true
  | _ => false

/-- The test `v === s` against a string constant. -/
def JsVal.isStr (v : JsVal) (s : String) : Bool :=
  match v with
  | str t => decide (t = s)
  | _ => false

/-- Strict equality `a === b`.  Two arrays or objects are equal only when they are
the same object, which values read from different JSON texts never are. -/
def strictEq : JsVal → JsVal → Bool
  | undefined, undefined => true
  | null, null => true
  | .bool a, .bool b => decide (a = b)
  | num a, num b => decide (a = b)
  | str a, str b => decide (a = b)
  | _, _ => false

/-- Property write `v.k = x` on a value. -/
def JsVal.set : JsVal → String → JsVal → JsVal
  | obj kvs, k, x => obj (Obj.set kvs k x)
  | v, _, _ => v

/-- Own enumerable entries of a value, as the spread `{ ...v }` copies them. -/
def spread : JsVal → Obj
  | obj kvs => kvs
  | arr xs => xs.enum.map (fun p => (String.mk (natToChars p.1), p.2))
  | str s => s.toList.enum.map (fun p => (String.mk (natToChars p.1), str (String.singleton p.2)))
  | _ => []

/-- Product of two numbers (`NaN` is absorbing). -/
def Num.mul (a b : Option ℚ) : Option ℚ :=
  match a, b with
  | some x, some y => some (x * y)
  | _, _ => none

/-- Sum of two numbers. -/
def Num.add (a b : Option ℚ) : Option ℚ :=
  match a, b with
  | some x, some y => some (x + y)
  | _, _ => none

/-- Difference of two numbers. -/
def Num.sub (a b : Option ℚ) : Option ℚ :=
  match a, b with
  | some x, some y => some (x - y)
  | _, _ => none

/-- The function `Math.min` of two numbers. -/
def Num.min (a b : Option ℚ) : Option ℚ :=
  match a, b with
  | some x, some y => some (if x ≤ y then x else y)
  | _, _ => none

/-- The function `Math.max` of two numbers. -/
def Num.max (a b : Option ℚ) : Option ℚ :=
  match a, b with
  | some x, some y => some (if x ≤ y then y else x)
  | _, _ => none

/-- The comparison `a <= 0` (false for `NaN`). -/
def Num.nonpos : Option ℚ → Bool
  | some x => decide (x ≤ 0)
  | none => false

/-- The expression `Math.round((price / 5.25) * coefficient)`, the price formula
that `server.js`, `Cart.jsx` and `ProductCard.jsx` all write out, evaluated as
JavaScript evaluates it: the two operands are binary64 numbers (the nearest ones to the
numbers the model holds), the quotient by 5.25 is rounded to binary64, the product with
the coefficient is rounded to binary64, and `Math.round` is applied to that product.
A `NaN` operand gives `NaN`. -/
def scaledPrice (price coefficient : JsVal) : Option ℚ :=
  match toNumber price, toNumber coefficient with
  | some p, some c => some (Math.round (doubleMul (doubleDiv (double p) 5.25) (double c)))
  | _, _ => none

/-- The operator `a + b`: text concatenation when either operand is a string, an
array or an object, numeric addition otherwise. -/
def jsPlus (a b : JsVal) : JsVal :=
  let textual : JsVal → Bool := fun v =>
    match v with
    | str _ => true
    | arr _ => true
    | obj _ => true
    | _ => false
  if textual a || textual b then str (String.mk (toStringChars a ++ toStringChars b))
  else ofNumber (Num.add (toNumber a) (toNumber b))

/-! ## The store -/

/-- The tables of the database the order workflow reads and writes. -/
structure Db where
  /-- Rows of `users`. -/
  users : List Obj
  /-- Rows of `products`, oldest first. -/
  products : List Obj
  /-- Rows of `orders`, oldest first. -/
  orders : List Obj
  /-- Rows of `settings`. -/
  settings : List Obj
  /-- Next value of the `orders.id` sequence. -/
  nextOrderId : Nat
  /-- Next value of the `settings.id` sequence. -/
  nextSettingsId : Nat
  /-- Rows of `user_favorites` (`user_id`, `product_id`). -/
  favorites : List Obj := []
  /-- Next value of the `user_favorites.id` sequence. -/
  nextFavoriteId : Nat := 1
  /-- Rows of `portfolio` (`user_id`, `image_path`), oldest first. -/
  portfolio : List Obj := []
  /-- Next value of the `portfolio.id` sequence. -/
  nextPortfolioId : Nat := 1
  /-- Rows of `custom_requests`, oldest first. -/
  customRequests : List Obj := []
  /-- Next value of the `custom_requests.id` sequence. -/
  nextCustomRequestId : Nat := 1

/-- An HTTP answer: status code and JSON body. -/
structure Response where
  /-- Status code. -/
  status : Nat
  /-- Body passed to `res.json`. -/
  body : JsVal

/-- The query string of a request: parameter names and their text. -/
abbrev Query := List (String × String)

/-- A query parameter as the handler sees it: its text, or `undefined`. -/
def Query.get (q : Query) (k : String) : JsVal :=
  match q.lookup k with
  | some s => str s
  | none => undefined

/-- The columns of the `Order` model (time stamps apart). -/
def orderAttributes : List String :=
  ["id", "user_id", "products", "total_price", "status", "notes", "admin_notes",
   "assigned_executors"]

/-- Does the row have primary key `id`? -/
def idIs (row : Obj) (id : Nat) : Bool :=
  match row.get "id" with
  | num q => decide (q = (id : ℚ))
  | _ => false

/-- Equality of two integer columns, as a join compares them. -/
def numEq : JsVal → JsVal → Bool
  | num a, num b => decide (a = b)
  | _, _ => false

/-- Text given for an integer column in a `WHERE` clause, as PostgreSQL reads it:
an optionally signed run of digits, blanks around it allowed, within the range of
`integer`; `none` is the error it raises otherwise. -/
def pgInteger (s : String) : Option Int :=
  let body := trimEnd (skipWs s.toList)
  let signed : Bool × List Char :=
    match body with
    | '-' :: rest => (true, rest)
    | '+' :: rest => (false, rest)
    | _ => (false, body)
  match readDigits signed.2 0 0 with
  | (n, k, []) =>
    if k = 0 ∨ 2147483647 < n then none
    else some (if signed.1 then -(n : Int) else (n : Int))
  | _ => none

/-- The included `User` (attributes `id` and `username`) of an order row, `null`
when no user row matches. -/
def includeUser (db : Db) (order : Obj) : JsVal :=
  match db.users.find? (fun u => numEq (u.get "id") (order.get "user_id")) with
  | some u => obj [("id", u.get "id"), ("username", u.get "username")]
  | none => null

/-- The call `Order.create(values)`: the new row gets the next id and `NULL` in the
columns that were not given.  `none` when the datastore refuses the values. -/
def Order.create (accepts : Db → Obj → Bool) (db : Db) (values : Obj) : Option (Obj × Db) :=
  if accepts db values then
    let row : Obj := ("id", num (db.nextOrderId : ℚ)) :: values ++
      [("admin_notes", null), ("assigned_executors", null)]
    some (row, { db with orders := db.orders ++ [row], nextOrderId := db.nextOrderId + 1 })
  else none

/-- One row after `Order.update(values, ...)`: every model attribute that `values`
carries (with a value other than `undefined`) is overwritten, the others stay. -/
def updateRow (values : JsVal) (row : Obj) : Obj :=
  orderAttributes.foldl
    (fun r a => if (values.get a).isUndefined then r else Obj.set r a (values.get a)) row

/-- The call `Order.update(values, { where: { id } })`: the number of rows with that
id and the table after the update.  Sequelize also sets the `updated_date` column of
the updated rows from the clock; that column is not represented (see the conventions),
so what is said of the rows after an update is said of the attributes of
`orderAttributes` only. -/
def Order.update (db : Db) (values : JsVal) (id : Nat) : Nat × Db :=
  ((db.orders.filter (fun r => idIs r id)).length,
   { db with orders := db.orders.map (fun r => if idIs r id then updateRow values r else r) })

/-- The call `Order.findByPk(id, { include: User })` as `res.json` prints it. -/
def Order.findByPk (db : Db) (id : Nat) : JsVal :=
  match db.orders.find? (fun r => idIs r id) with
  | some r => obj (r ++ [("User", includeUser db r)])
  | none => null

/-! ## Order handlers of `server.js` -/

/-- The values `app.post('/api/orders')` hands to `Order.create`. -/
def createValues (body : JsVal) : Obj :=
  [("user_id", body.get "user_id"),
   ("products", JSON.stringify (body.get "products")),
   ("total_price", body.get "total_price"),
   ("notes", (body.get "notes").or (str "")),
   ("status", str "создан заказ")]

/-- The handler `app.post('/api/orders')`. -/
def postOrders (accepts : Db → Obj → Bool) (db : Db) (body : JsVal) : Response × Db :=
  if !(body.get "user_id").truthy || !(body.get "products").truthy
      || !(body.get "total_price").truthy then
    (⟨400, obj [("error", str "缺少必要参数")]⟩, db)
  else
    match Order.create accepts db (createValues body) with
    | some (order, db') => (⟨201, obj order⟩, db')
    | none => (⟨500, obj [("error", str "创建订单失败")]⟩, db)

/-- The body `app.put('/api/orders/:id')` passes to `Order.update`: a truthy
`assigned_executors` that is not a string is replaced by its JSON text. -/
def putOrderData (body : JsVal) : JsVal :=
  if (body.get "assigned_executors").truthy && !(body.get "assigned_executors").isString then
    body.set "assigned_executors" (JSON.stringify (body.get "assigned_executors"))
  else body

/-- The handler `app.put('/api/orders/:id')`; `id` is the path parameter, an
order number. -/
def putOrder (accepts : Db → Obj → Bool) (db : Db) (id : Nat) (body : JsVal) : Response × Db :=
  let updateData := putOrderData body
  if accepts db (spread updateData) then
    let (updatedRowsCount, db') := Order.update db updateData id
    if updatedRowsCount = 0 then (⟨404, obj [("error", str "Заказ не найден")]⟩, db')
    else (⟨200, Order.findByPk db' id⟩, db')
  else (⟨500, obj [("error", str "更新订单状态失败")]⟩, db)

/-- A TEXT column holding a JSON list, as the read handlers decode it: a truthy
value is parsed, a parse error gives the empty list; a falsy value stays. -/
def parseColumn (o : Obj) (k : String) : Obj :=
  if (o.get k).truthy then
    match JSON.parse (o.get k) with
    | some v => o.set k v
    | none => o.set k (arr [])
  else o

/-- One entry of the order list: the row with its `User`, `products` and
`assigned_executors` decoded. -/
def processOrder (db : Db) (order : Obj) : JsVal :=
  obj (parseColumn (parseColumn (order ++ [("User", includeUser db order)]) "products")
    "assigned_executors")

/-- The `where` clause of `app.get('/api/orders')` applied to one row; `none` when
the text given for an integer column is not an integer. -/
def orderMatches (q : Query) (row : Obj) : Option Bool :=
  let byUser : Option Bool :=
    if !(q.get "admin").truthy && (q.get "user_id").truthy then
      match q.lookup "user_id" with
      | some s => (pgInteger s).map (fun n => numEq (row.get "user_id") (num (n : ℚ)))
      | none => some true
    else some true
  let bySearch : Option Bool :=
    if (q.get "search").truthy then
      match q.lookup "search" with
      | some s => (pgInteger s).map (fun n => numEq (row.get "id") (num (n : ℚ)))
      | none => some true
    else some true
  let byStatus : Bool :=
    if (q.get "status").truthy then strictEq (row.get "status") (q.get "status") else true
  match byUser, bySearch with
  | some a, some b => some (a && b && byStatus)
  | _, _ => none

/-- Filters rows with a test that may fail: `none` as soon as one test fails. -/
def filterRows (test : Obj → Option Bool) : List Obj → Option (List Obj)
  | [] => some []
  | r :: rs =>
    match test r, filterRows test rs with
    | some keep, some rest => some (if keep then r :: rest else rest)
    | _, _ => none

/-- The handler `app.get('/api/orders')`: matching orders, newest first. -/
def getOrders (db : Db) (q : Query) : Response :=
  match filterRows (orderMatches q) db.orders with
  | some rows => ⟨200, arr (rows.reverse.map (processOrder db))⟩
  | none => ⟨500, obj [("error", str "获取订单列表失败")]⟩

/-! ## Settings and catalog handlers of `server.js` -/

/-- The settings row created when the table is empty. -/
def defaultSettings : Obj :=
  [("payment_info", str ("Реквизиты для оплаты:\nБанковская карта: 1234 5678 9012 3456\n" ++
      "Яндекс.Деньги: 410011234567890\nQIWI: +79001234567")),
   ("price_coefficient", num 5.25),
   ("discount_rules", str "[]"),
   ("show_discount_on_products", JsVal.bool false)]

/-- The call `Settings.create(values)`. -/
def Settings.create (db : Db) (values : Obj) : Obj × Db :=
  let row : Obj := ("id", num (db.nextSettingsId : ℚ)) :: values
  (row, { db with settings := db.settings ++ [row], nextSettingsId := db.nextSettingsId + 1 })

/-- The handler `app.get('/api/settings')`: the first row, created with the
defaults when there is none, with `discount_rules` decoded. -/
def getSettings (db : Db) : Response × Db :=
  match db.settings.head? with
  | some settings => (⟨200, obj (parseColumn settings "discount_rules")⟩, db)
  | none =>
    let (settings, db') := Settings.create db defaultSettings
    (⟨200, obj (parseColumn settings "discount_rules")⟩, db')

/-- The values `app.put('/api/settings')` writes. -/
def settingsUpdateData (body : JsVal) : Obj :=
  [("payment_info", (body.get "payment_info").or (str "")),
   ("price_coefficient", (ofNumber (parseFloat (body.get "price_coefficient"))).or (num 5.25)),
   ("discount_rules", JSON.stringify ((body.get "discount_rules").or (arr []))),
   ("show_discount_on_products", JsVal.bool (body.get "show_discount_on_products").truthy)]

/-- The handler `app.put('/api/settings')`. -/
def putSettings (accepts : Db → Obj → Bool) (db : Db) (body : JsVal) : Response × Db :=
  let updateData := settingsUpdateData body
  if accepts db updateData then
    match db.settings with
    | settings :: rest =>
      let settings' := updateData.foldl (fun r kv => Obj.set r kv.1 kv.2) settings
      (⟨200, obj [("message", str "设置更新成功"), ("settings", obj settings')]⟩,
        { db with settings := settings' :: rest })
    | [] =>
      let (settings, db') := Settings.create db updateData
      (⟨200, obj [("message", str "设置更新成功"), ("settings", obj settings)]⟩, db')
  else (⟨500, obj [("error", str "更新系统设置失败")]⟩, db)

/-- The coefficient the catalog listing uses:
`settings ? settings.price_coefficient : 5.25`. -/
def currentCoefficient (db : Db) : JsVal :=
  match db.settings.head? with
  | some settings => settings.get "price_coefficient"
  | none => num 5.25

/-- One price option of the catalog listing: a copy of the stored option, without
`resin_ml` unless `admin` is the text `true`, and with a truthy `price` replaced by
`Math.round((price / 5.25) * priceCoefficient)`. -/
def processOption (admin priceCoefficient option : JsVal) : JsVal :=
  let copied := spread option
  let stripped := if !admin.isStr "true" then Obj.delete copied "resin_ml" else copied
  if (stripped.get "price").truthy then
    obj (stripped.set "price" (ofNumber (scaledPrice (stripped.get "price") priceCoefficient)))
  else obj stripped

/-- One product of the catalog listing: `price_options` decoded and processed (the
empty list when the column is empty, is not JSON or is not a list) and
`additional_images` decoded. -/
def processProduct (admin priceCoefficient : JsVal) (product : Obj) : Obj :=
  let withOptions : Obj :=
    if (product.get "price_options").truthy then
      match JSON.parse (product.get "price_options") with
      | some (arr priceOptions) =>
        product.set "price_options" (arr (priceOptions.map (processOption admin priceCoefficient)))
      | _ => product.set "price_options" (arr [])
    else product.set "price_options" (arr [])
  if (withOptions.get "additional_images").truthy then
    match JSON.parse (withOptions.get "additional_images") with
    | some v => withOptions.set "additional_images" v
    | none => withOptions.set "additional_images" (arr [])
  else withOptions.set "additional_images" (arr [])

/-- The `where` clause of `app.get('/api/products')` applied to one row.  `iLike`
is PostgreSQL's case-insensitive pattern operator (value, pattern). -/
def productMatches (iLike : String → String → Bool) (q : Query) (row : Obj) : Option Bool :=
  let visible : Bool :=
    if !(q.get "admin").truthy then strictEq (row.get "is_visible") (JsVal.bool true) else true
  let like : JsVal → String → Bool := fun v pattern =>
    match v with
    | str s => iLike s pattern
    | _ => false
  match q.lookup "search" with
  | some search =>
    if (str search).truthy then
      if (q.get "filter").isStr "description" then
        some (visible && like (row.get "description") ("%" ++ search ++ "%"))
      else if (q.get "filter").isStr "id" then
        (pgInteger search).map (fun n => visible && numEq (row.get "id") (num (n : ℚ)))
      else some (visible && like (row.get "name") ("%" ++ search ++ "%"))
    else some visible
  | none => some visible

/-- The handler `app.get('/api/products')`: matching products, newest first, each
processed with the current coefficient. -/
def getProducts (iLike : String → String → Bool) (db : Db) (q : Query) : Response :=
  match filterRows (productMatches iLike q) db.products with
  | some rows =>
    ⟨200, arr (rows.reverse.map
      (fun product => obj (processProduct (q.get "admin") (currentCoefficient db) product)))⟩
  | none => ⟨500, obj [("error", str "获取商品列表失败")]⟩

/-! ## The cart (`Cart.jsx`) -/

/-- The expression `item.selectedSize?.price || item.price || 0`. -/
def basePrice (item : Obj) : JsVal :=
  (((item.get "selectedSize").get "price").or (item.get "price")).or (num 0)

/-- The expression `settings.price_coefficient || 5.25`. -/
def cartCoefficient (settings : Obj) : JsVal :=
  (settings.get "price_coefficient").or (num 5.25)

/-- The function `calculateItemTotal` of `Cart.jsx`. -/
def calculateItemTotal (settings item : Obj) : Option ℚ :=
  let finalPrice := scaledPrice (basePrice item) (cartCoefficient settings)
  Num.mul finalPrice (toNumber (item.get "quantity"))

/-- The function `calculateSubtotal` of `Cart.jsx`. -/
def calculateSubtotal (settings : Obj) (cartItems : List Obj) : Option ℚ :=
  cartItems.foldl (fun total item => Num.add total (calculateItemTotal settings item)) (some 0)

/-- The function `calculateDiscount` of `Cart.jsx`; `discounts` are the applicable
rules. -/
def calculateDiscount (settings : Obj) (cartItems discounts : List Obj) : Option ℚ :=
  let subtotal := calculateSubtotal settings cartItems
  let totalDiscount : JsVal := discounts.foldl
    (fun total discount =>
      if (discount.get "type").isStr "percentage" then
        jsPlus total
          (ofNumber (Num.mul subtotal ((toNumber (discount.get "value")).map (fun v => v / 100))))
      else if (discount.get "type").isStr "fixed" then jsPlus total (discount.get "value")
      else total)
    (num 0)
  Num.min (toNumber totalDiscount) subtotal

/-- The function `calculateTotal` of `Cart.jsx`. -/
def calculateTotal (settings : Obj) (cartItems discounts : List Obj) : Option ℚ :=
  let subtotal := calculateSubtotal settings cartItems
  let discount := calculateDiscount settings cartItems discounts
  Num.max (some 0) (Num.sub subtotal discount)

/-- What `confirmPayment` ends in before the server is involved: an alert, or the
order data it posts to `/api/orders`. -/
inductive Checkout where
  | alert (message : String)
  | post (orderData : JsVal)

/-- The body of the `cartItems.map` callback of `confirmPayment`: the order line
for one cart item, or the message of the error it throws. -/
def validateItem (settings item : Obj) : Except String JsVal :=
  if !(item.get "id").truthy || !(item.get "name").truthy
      || Num.nonpos (toNumber (item.get "quantity")) then
    .error ("Неверные данные товара: " ++
      String.mk (toStringChars ((item.get "name").or (str "неизвестный товар"))))
  else if Num.nonpos (toNumber (basePrice item)) then
    .error ("Неверная цена товара: " ++ String.mk (toStringChars (item.get "name")))
  else
    .ok (obj [("id", item.get "id"), ("name", item.get "name"),
      ("quantity", item.get "quantity"),
      ("price", ofNumber (scaledPrice (basePrice item) (cartCoefficient settings))),
      ("selectedSize", (item.get "selectedSize").or null)])

/-- The call `cartItems.map(...)` of `confirmPayment`: the order lines, or the
message of the first error thrown. -/
def validateItems (settings : Obj) : List Obj → Except String (List JsVal)
  | [] => .ok []
  | item :: rest =>
    match validateItem settings item with
    | .error message => .error message
    | .ok line =>
      match validateItems settings rest with
      | .error message => .error message
      | .ok lines => .ok (line :: lines)

/-- The function `confirmPayment` of `Cart.jsx`, up to the request it sends. -/
def confirmPayment (currentUser settings : Obj) (cartItems discounts : List Obj)
    (orderNotes : String) : Checkout :=
  if !(currentUser.get "id").truthy then .alert "Необходимо войти в систему"
  else if cartItems.length = 0 then .alert "Корзина пуста"
  else
    match validateItems settings cartItems with
    | .error message => .alert message
    | .ok validatedProducts =>
      let totalPrice := calculateTotal settings cartItems discounts
      if Num.nonpos totalPrice then .alert "Неверная общая сумма заказа"
      else
        .post (obj [("user_id", currentUser.get "id"),
          ("products", arr validatedProducts),
          ("total_price", ofNumber totalPrice),
          ("notes", (str orderNotes.trim).or (str ""))])

/-! ## Adding to the cart (`ProductCard.jsx`) -/

/-- Adds one to the quantity of the first cart item that passes `test`; `none`
when no item does (`findIndex` gave `-1`). -/
def bumpQuantity (test : Obj → Bool) : List Obj → Option (List Obj)
  | [] => none
  | item :: rest =>
    if test item then some (item.set "quantity" (jsPlus (item.get "quantity") (num 1)) :: rest)
    else (bumpQuantity test rest).map (fun rest' => item :: rest')

/-- The function `handleAddToCart` of `ProductCard.jsx`: the cart it leaves in
local storage (`now` is the time stamp written to `addedAt`). -/
def handleAddToCart (now : String) (currentUser product : Obj) (selectedPriceOption : JsVal)
    (existingCart : List Obj) : List Obj :=
  if !(currentUser.get "id").truthy then existingCart
  else if !selectedPriceOption.truthy then existingCart
  else
    let basePrice := (ofNumber (parseFloat (selectedPriceOption.get "price"))).or (num 0)
    if Num.nonpos (toNumber basePrice) then existingCart
    else
      let cartItem : Obj :=
        [("id", product.get "id"), ("name", product.get "name"),
         ("main_image", product.get "main_image"), ("price", basePrice),
         ("selectedSize", obj (Obj.set (spread selectedPriceOption) "price" basePrice)),
         ("quantity", num 1), ("addedAt", str now)]
      match bumpQuantity
          (fun item => strictEq (item.get "id") (product.get "id") &&
            strictEq ((item.get "selectedSize").get "size") (selectedPriceOption.get "size"))
          existingCart with
      | some cart => cart
      | none => existingCart ++ [cartItem]

/-! ## Order administration (`OrderView.jsx`) -/

/-- The list `statusOptions` of `OrderView.jsx`. -/
def statusOptions : List String :=
  ["создан заказ", "принят к исполнению", "не оплачено", "печатается", "красится",
   "упаковывается", "отменен", "задерживается", "готово"]

/-- The body `assignExecutors` of `OrderView.jsx` sends to `PUT /api/orders/:id`. -/
def assignExecutorsBody (currentUser : Obj) (executorIds : JsVal) : JsVal :=
  obj [("assigned_executors", JSON.stringify executorIds),
       ("status", str "принят к исполнению"),
       ("admin_id", currentUser.get "id")]

/-! ## The specification's formulas and sample data -/

/-- The pure function `computeChargedPrice` of the specification,
`round(basePrice / 5.25 * coefficient)`, on exact numbers. -/
def computeChargedPrice (basePrice coefficient : ℚ) : ℚ :=
  Math.round (basePrice / 5.25 * coefficient)

/-- The order total of sections 3 and 8 of the specification: the sum over the
line items (base price, quantity) of `round(basePrice / 5.25 * coefficient) * quantity`. -/
def specOrderTotal (coefficient : ℚ) (lines : List (ℚ × ℚ)) : ℚ :=
  (lines.map (fun l => Math.round (l.1 / 5.25 * coefficient) * l.2)).sum

/-- The transition table of section 4.1 of the specification, on the status texts
of `statusOptions` (created, accepted, unpaid, printing, coloring, packaging,
cancelled, delayed, ready). -/
def transitionTable : List (String × List String) :=
  [("создан заказ", ["принят к исполнению", "не оплачено", "отменен"]),
   ("принят к исполнению", ["печатается", "задерживается", "отменен"]),
   ("печатается", ["красится", "задерживается", "отменен"]),
   ("красится", ["упаковывается", "задерживается", "отменен"]),
   ("упаковывается", ["готово", "задерживается", "отменен"]),
   ("задерживается", ["печатается", "красится", "упаковывается", "отменен"]),
   ("готово", []),
   ("отменен", [])]

/-- Is the pair (current status, new status) in the transition table? -/
def allowedTransition (current next : String) : Bool :=
  match transitionTable.lookup current with
  | some targets => targets.contains next
  | none => false

/-- A datastore that accepts every write. -/
def acceptAll : Db → Obj → Bool := fun _ _ => true

/-- A cart line as `handleAddToCart` stores it: product `id` and `name`, the price
of the chosen size and the quantity. -/
def cartLine (id : ℚ) (name size : String) (price quantity : ℚ) : Obj :=
  [("id", num id), ("name", str name), ("main_image", null), ("price", num price),
   ("selectedSize", obj [("size", str size), ("price", num price)]),
   ("quantity", num quantity), ("addedAt", str "2024-01-01T00:00:00.000Z")]

/-- An order row in a given status, owned by user 2. -/
def sampleOrder (id : Nat) (status : String) : Obj :=
  [("id", num (id : ℚ)), ("user_id", num 2), ("products", str "[]"), ("total_price", num 1300),
   ("status", str status), ("notes", str ""), ("admin_notes", null),
   ("assigned_executors", null)]

/-- A store with the administrator, one buyer, the default settings row and one
order (id 1) in the given status. -/
def sampleDb (status : String) : Db :=
  { users := [[("id", num 1), ("username", str "admin"), ("role", str "admin")],
              [("id", num 2), ("username", str "buyer"), ("role", str "buyer")]],
    products := [],
    orders := [sampleOrder 1 status],
    settings := [("id", num 1) :: defaultSettings],
    nextOrderId := 2,
    nextSettingsId := 2 }

/-- A create-order body for user 2 with the given line items and total. -/
def orderBody (products : List JsVal) (total_price : ℚ) : JsVal :=
  obj [("user_id", num 2), ("products", arr products), ("total_price", num total_price),
       ("notes", str ""), ("status", str "готово")]

/-- An order line as `confirmPayment` posts it: two pieces of a product whose
chosen size has base price 500. -/
def sampleLine : JsVal :=
  obj [("id", num 3), ("name", str "Ваза"), ("quantity", num 2), ("price", num 500),
       ("selectedSize", obj [("size", str "10 см"), ("price", num 500)])]

/-- A stored product with one price option: size "10 см", base price 1000 and 40 ml
of resin. -/
def sampleProduct : Obj :=
  [("id", num 3), ("name", str "Ваза"), ("description", null), ("main_image", null),
   ("additional_images", str "[]"),
   ("price_options", str "[\x7b\"size\":\"10 см\",\"price\":1000,\"resin_ml\":40\x7d]"),
   ("is_visible", JsVal.bool true)]

/-- The sample store with `sampleProduct` in the catalog and the given price
coefficient in the settings row. -/
def catalogDb (coefficient : ℚ) : Db :=
  { sampleDb "создан заказ" with
    products := [sampleProduct],
    settings := [[("id", num 1), ("payment_info", str ""), ("price_coefficient", num coefficient),
      ("discount_rules", str "[]"), ("show_discount_on_products", JsVal.bool false)]] }

/-- A stored product with one price option: size "5 см", base price 51. -/
def smallProduct : Obj :=
  [("id", num 4), ("name", str "Брелок"), ("description", null), ("main_image", null),
   ("additional_images", str "[]"),
   ("price_options", str "[\x7b\"size\":\"5 см\",\"price\":51\x7d]"),
   ("is_visible", JsVal.bool true)]

/-- The sample store with `smallProduct` as its catalog and the given price coefficient
in the settings row. -/
def smallCatalogDb (coefficient : ℚ) : Db :=
  { catalogDb coefficient with products := [smallProduct] }

/-- A cart line with numeric fields: the price of the selected size when a size is
selected, the item's own price, and the quantity. -/
structure Line where
  /-- Price of the selected size; `none` when no size is selected. -/
  sizePrice : Option ℚ
  /-- The item's own price. -/
  price : ℚ
  /-- Quantity. -/
  quantity : ℚ

/-- The cart item of a line (product 3). -/
def Line.item (l : Line) : Obj :=
  match l.sizePrice with
  | some s =>
    [("id", num 3), ("name", str "Ваза"), ("price", num l.price),
     ("selectedSize", obj [("size", str "10 см"), ("price", num s)]),
     ("quantity", num l.quantity)]
  | none =>
    [("id", num 3), ("name", str "Ваза"), ("price", num l.price), ("quantity", num l.quantity)]

/-- The base price of a line: the selected size's price unless it is zero or no
size is selected, then the item's price. -/
def Line.base (l : Line) : ℚ :=
  match l.sizePrice with
  | some s => if s ≠ 0 then s else l.price
  | none => l.price

/-- The line gives the numeric fields of the cart item: its quantity, its own price
and the price of its selected size (no size selected: `selectedSize` is `null` or
missing). -/
def Line.describes (l : Line) (item : Obj) : Prop :=
  item.get "quantity" = num l.quantity ∧ item.get "price" = num l.price ∧
  match l.sizePrice with
  | some s => (item.get "selectedSize").get "price" = num s
  | none => (item.get "selectedSize").isNullish = true

/-- The base price of a line in the words of the specification: the selected
size's price, or the item's price when no size is selected. -/
def Line.selected (l : Line) : ℚ :=
  match l.sizePrice with
  | some s => s
  | none => l.price

/-- A request to the part of the server the model covers. -/
inductive Request where
  | createOrder (body : JsVal)
  | updateOrder (id : Nat) (body : JsVal)
  | listOrders (q : Query)
  | getSettings
  | updateSettings (body : JsVal)
  | listProducts (q : Query)

/-- The handler that serves a request. -/
def handle (accepts : Db → Obj → Bool) (iLike : String → String → Bool) (db : Db) :
    Request → Response × Db
  | .createOrder body => postOrders accepts db body
  | .updateOrder id body => putOrder accepts db id body
  | .listOrders q => (getOrders db q, db)
  | .getSettings => getSettings db
  | .updateSettings body => putSettings accepts db body
  | .listProducts q => (getProducts iLike db q, db)

/-- Is the request an order update whose body contains `total_price`? -/
def Request.overridesTotal : Request → Bool
  | .updateOrder _ body => !(body.get "total_price").isUndefined
  | _ => false

/-! ## Further handlers and components -/

/-- The handler `app.get('/api/favorites/:user_id')`: the products of the favorite
rows of that user (an inner join: a favorite without its product gives no entry),
with `price_options` and `additional_images` decoded. -/
def getFavorites (db : Db) (user_id : String) : Response :=
  match pgInteger user_id with
  | none => ⟨500, obj [("error", str "获取收藏列表失败")]⟩
  | some u =>
    ⟨200, arr ((db.favorites.filter
        (fun fav => numEq (fav.get "user_id") (num (u : ℚ)))).filterMap
      (fun fav =>
        (db.products.find? (fun p => numEq (p.get "id") (fav.get "product_id"))).map
          (fun product =>
            obj (parseColumn (parseColumn product "price_options") "additional_images"))))⟩

/-- What `updateOrderStatus` ends in: an alert, or the request
`PUT /api/orders/:orderId` with the update data. -/
inductive StatusUpdate where
  | alert (message : String)
  | put (orderId : JsVal) (updateData : JsVal)

/-- The function `updateOrderStatus` of `OrderView.jsx`, up to the request it
sends. -/
def updateOrderStatus (currentUser : Obj) (orderId newStatus : JsVal) : StatusUpdate :=
  if !orderId.truthy || !newStatus.truthy then
    .alert "Некорректные данные для обновления статуса"
  else if !(currentUser.get "id").truthy || !strictEq (currentUser.get "id") (num 1) then
    .alert "Недостаточно прав для изменения статуса"
  else
    .put orderId
      (obj (if strictEq (currentUser.get "id") (num 1) then
        [("status", newStatus), ("admin_id", currentUser.get "id")]
      else [("status", newStatus)]))

/-- A discount rule with a numeric value. -/
structure Rule where
  /-- The `type` of the rule: `percentage`, `fixed` or anything else. -/
  type : String
  /-- The `value` of the rule. -/
  value : ℚ

/-- The rule gives the type and the numeric value of the discount object. -/
def Rule.describes (r : Rule) (discount : Obj) : Prop :=
  discount.get "type" = str r.type ∧ discount.get "value" = num r.value

/-- A discount object of a rule, without conditions. -/
def Rule.discount (r : Rule) : Obj :=
  [("name", str "Скидка"), ("type", str r.type), ("value", num r.value),
   ("conditions", obj [])]

/-- What a rule contributes for a subtotal, in the words of section 4.3 of the
specification: `subtotal * value / 100` for a percentage rule, the flat `value`
for a fixed rule, nothing for another type. -/
def Rule.amount (subtotal : ℚ) (r : Rule) : ℚ :=
  if r.type = "percentage" then subtotal * (r.value / 100)
  else if r.type = "fixed" then r.value
  else 0

/-- The sum of the contributions of the rules. -/
def ruleSum (subtotal : ℚ) (rules : List Rule) : ℚ :=
  (rules.map (Rule.amount subtotal)).sum

/-- The clamp of `x` into the interval `[0, hi]` of section 4.3 of the
specification. -/
def clamp (x hi : ℚ) : ℚ := if x < 0 then 0 else if hi < x then hi else x

/-- The sample store with a favorite of user 2 for `sampleProduct`, at the given
price coefficient. -/
def favoritesDb (coefficient : ℚ) : Db :=
  { catalogDb coefficient with
    favorites := [[("id", num 1), ("user_id", num 2), ("product_id", num 3)]] }

/-! ## Discount rules between the settings page and the cart -/

/-- The test of `calculateApplicableDiscounts` on one rule: the rule is dropped when
`rule.conditions.role` is truthy and differs from the current user's role.  `none` is
the `TypeError` of reading `role` from a missing `conditions`. -/
def applicableRule (currentUser : Obj) (rule : JsVal) : Option Bool :=
  if rule.isNullish || (rule.get "conditions").isNullish then none
  else
    some (!(((rule.get "conditions").get "role").truthy &&
      !strictEq ((rule.get "conditions").get "role") (currentUser.get "role")))

/-- The method `Array.prototype.filter` with a test that may throw. -/
def filterRules (test : JsVal → Option Bool) : List JsVal → Option (List JsVal)
  | [] => some []
  | r :: rs =>
    match test r with
    | some keep =>
      match filterRules test rs with
      | some rest => some (if keep then r :: rest else rest)
      | none => none
    | none => none

/-- The function `calculateApplicableDiscounts` of `Cart.jsx`.  Only an array has the
method `filter`; `none` is the `TypeError` raised for any other argument or by the
test. -/
def calculateApplicableDiscounts (currentUser : Obj) (discountRules : JsVal) :
    Option (List JsVal) :=
  match discountRules with
  | arr rules => filterRules (applicableRule currentUser) rules
  | _ => none

/-- The state `discounts` of the cart after `loadSettings` has received `data` from
`GET /api/settings`: the applicable rules, or the initial empty list when
`discount_rules` is falsy or `calculateApplicableDiscounts` throws (the error is caught
and logged). -/
def loadSettings (currentUser : Obj) (data : JsVal) : List JsVal :=
  if (data.get "discount_rules").truthy then
    match calculateApplicableDiscounts currentUser (data.get "discount_rules") with
    | some applicableDiscounts => applicableDiscounts
    | none => []
  else []

/-- The test `Array.isArray(v)`. -/
def isArray : JsVal → Bool
  | arr _ => true
  | _ => false

/-- The body `updateSettings` of `Settings.jsx` sends to `PUT /api/settings`. -/
def validatedData (updatedSettings : JsVal) : JsVal :=
  obj [("payment_info",
          str (String.mk (toStringChars ((updatedSettings.get "payment_info").or (str ""))))),
       ("price_coefficient",
          (ofNumber (parseFloat (updatedSettings.get "price_coefficient"))).or (num 5.25)),
       ("discount_rules",
          JSON.stringify (if isArray (updatedSettings.get "discount_rules")
            then updatedSettings.get "discount_rules" else arr [])),
       ("show_discount_on_products",
          JsVal.bool (updatedSettings.get "show_discount_on_products").truthy)]

/-- A discount rule as `addDiscount` of `Settings.jsx` builds it, with the given name,
type, value, role and minimal order amount; the other conditions are empty, and the
`id` the component takes from the clock is left out. -/
def discountRule (name type : String) (value : ℚ) (role : String) (min_order_amount : ℚ) :
    JsVal :=
  obj [("name", str name), ("type", str type), ("value", num value),
       ("conditions", obj [("min_total_spent", num 0), ("role", str role),
         ("registration_date_after", str ""), ("min_order_amount", num min_order_amount),
         ("monthly_orders_count", num 0), ("monthly_spent_amount", num 0),
         ("start_date", str ""), ("end_date", str ""), ("user_id", str ""),
         ("product_ids", arr [])])]

/-- Serving a sequence of requests one after another: the store at the end. -/
def serve (accepts : Db → Obj → Bool) (iLike : String → String → Bool) (db : Db)
    (requests : List Request) : Db :=
  requests.foldl (fun d r => (handle accepts iLike d r).2) db

/-- Is the request `GET /api/settings` or `PUT /api/settings`? -/
def Request.isSettings : Request → Bool
  | .getSettings => true
  | .updateSettings _ => true
  | _ => false

/-! ## Text helpers of the further handlers -/

/-- White space as `String.prototype.trim` and `parseInt` see it: the code points of
`WhiteSpace` and `LineTerminator`. -/
def isJsSpace (c : Char) : Bool :=
  c.toNat ∈ [9, 10, 11, 12, 13, 32, 160, 5760, 8192, 8193, 8194, 8195, 8196, 8197, 8198, 8199,
    8200, 8201, 8202, 8232, 8233, 8239, 8287, 12288, 65279]

/-- The method `String.prototype.trim`. -/
def jsTrim (s : String) : String :=
  String.mk ((s.toList.dropWhile isJsSpace).reverse.dropWhile isJsSpace).reverse

/-- The property `length` of a string: its number of UTF-16 code units. -/
def utf16Length (s : String) : Nat :=
  (s.toList.map (fun c => if c.toNat < 65536 then 1 else 2)).sum

/-- Reads a maximal run of hexadecimal digits: the accumulated value, how many digits
were read. -/
def readHexDigits : List Char → Nat → Nat → Nat × Nat
  | [], acc, k => (acc, k)
  | c :: cs, acc, k =>
    match hexVal c with
    | some d => readHexDigits cs (acc * 16 + d) (k + 1)
    | none => (acc, k)

/-- The function `parseInt(v)` without a radix: leading white space is skipped, a sign
is read, then the longest run of decimal digits (hexadecimal digits after `0x`);
`none` is `NaN`. -/
def parseInt (v : JsVal) : Option Int :=
  let body := (toStringChars v).dropWhile isJsSpace
  let signed : Bool × List Char :=
    match body with
    | '-' :: rest => (true, rest)
    | '+' :: rest => (false, rest)
    | _ => (false, body)
  let magnitude : Nat × Nat :=
    match signed.2 with
    | '0' :: 'x' :: rest => readHexDigits rest 0 0
    | '0' :: 'X' :: rest => readHexDigits rest 0 0
    | digits => ((readDigits digits 0 0).1, (readDigits digits 0 0).2.1)
  if magnitude.2 = 0 then none
  else some (if signed.1 then -(magnitude.1 : Int) else (magnitude.1 : Int))

/-- Is the number in the range of a PostgreSQL `integer`? -/
def inIntegerRange (n : Int) : Bool := decide (-2147483648 ≤ n ∧ n ≤ 2147483647)

/-- A JSON scalar given for an integer column, as the datastore reads it: an integral
number or the text of an integer, in the range of `integer`; `none` is the error raised
otherwise (for a fraction, by the validation of the insert).  Arrays and objects, which
Sequelize reads as operators of a `where` clause, are not represented and give `none`. -/
def columnInteger : JsVal → Option Int
  | num q => if q.den = 1 ∧ inIntegerRange q.num then some q.num else none
  | str s => pgInteger s
  | _ => none

/-! ## The favorites toggle of `server.js` -/

/-- The SQL expression `column + delta`: `NULL` stays `NULL`. -/
def sqlAdd (delta : ℚ) : JsVal → JsVal
  | num q => num (q + delta)
  | v => v

/-- The calls `Product.increment('favorites_count', { where: { id } })` (`delta` 1) and
`Product.decrement` (`delta` -1). -/
def Product.increment (db : Db) (delta : ℚ) (id : Int) : Db :=
  { db with products := db.products.map (fun p =>
      if numEq (p.get "id") (num (id : ℚ)) then
        Obj.set p "favorites_count" (sqlAdd delta (p.get "favorites_count"))
      else p) }

/-- The table without the first row that passes the test: `findOne` followed by
`destroy` of the row found. -/
def removeFirst (test : Obj → Bool) : List Obj → List Obj
  | [] => []
  | r :: rs => if test r then rs else r :: removeFirst test rs

/-- The handler `app.post('/api/favorites/toggle')`. -/
def postFavoritesToggle (accepts : Db → Obj → Bool) (db : Db) (body : JsVal) : Response × Db :=
  if !(body.get "user_id").truthy || !(body.get "product_id").truthy then
    (⟨400, obj [("error", str "缺少必要参数")]⟩, db)
  else
    match columnInteger (body.get "user_id"), columnInteger (body.get "product_id") with
    | some user_id, some product_id =>
      let isPair : Obj → Bool := fun fav =>
        numEq (fav.get "user_id") (num (user_id : ℚ)) &&
          numEq (fav.get "product_id") (num (product_id : ℚ))
      match db.favorites.find? isPair with
      | some _ =>
        (⟨200, obj [("is_favorite", JsVal.bool false), ("message", str "已取消收藏")]⟩,
          Product.increment { db with favorites := removeFirst isPair db.favorites } (-1)
            product_id)
      | none =>
        if accepts db [("user_id", body.get "user_id"), ("product_id", body.get "product_id")]
        then
          (⟨200, obj [("is_favorite", JsVal.bool true), ("message", str "已添加到收藏")]⟩,
            Product.increment
              { db with
                favorites := db.favorites ++
                  [[("id", num (db.nextFavoriteId : ℚ)), ("user_id", num (user_id : ℚ)),
                    ("product_id", num (product_id : ℚ))]],
                nextFavoriteId := db.nextFavoriteId + 1 }
              1 product_id)
        else (⟨500, obj [("error", str "操作失败")]⟩, db)
    | _, _ => (⟨500, obj [("error", str "操作失败")]⟩, db)

/-- The number of favorite rows for a product id. -/
def favoriteRows (db : Db) (productId : JsVal) : Nat :=
  (db.favorites.filter (fun fav => numEq (fav.get "product_id") productId)).length

/-- The counters agree with the rows: every product's `favorites_count` is the number
of favorite rows for it. -/
def CountsAgree (db : Db) : Prop :=
  ∀ p ∈ db.products, p.get "favorites_count" = num (favoriteRows db (p.get "id") : ℚ)

/-- Is the value a JSON scalar (not an array, not an object)? -/
def isScalar : JsVal → Bool
  | arr _ => false
  | obj _ => false
  | _ => true

/-- Serving a sequence of toggle requests one after another: the store at the end. -/
def toggleAll (accepts : Db → Obj → Bool) (db : Db) (bodies : List JsVal) : Db :=
  bodies.foldl (fun d body => (postFavoritesToggle accepts d body).2) db

/-! ## Uploads: portfolio and custom requests -/

/-- An uploaded file as `multer` hands it to a handler: the name it was stored under,
its MIME type and its size in bytes. -/
structure File where
  /-- Name given by the storage engine. -/
  filename : String
  /-- MIME type sent with the file. -/
  mimetype : String
  /-- Size in bytes. -/
  size : Nat

/-- The middleware `upload.array('images', maxCount)`: it lets the request through when
there are at most `maxCount` files, each of a type that starts with `image/` and of at
most 5 MB; otherwise it raises an error, which the global error handler answers. -/
def multerArray (maxCount : Nat) (files : List File) : Bool :=
  decide (files.length ≤ maxCount) &&
    files.all (fun f => (f.mimetype.toList.take 6 == "image/".toList) &&
      decide (f.size ≤ 5 * 1024 * 1024))

/-- The answer of the global error handler. -/
def globalError : Response := ⟨500, obj [("error", str "服务器内部错误")]⟩

/-- The handler `app.post('/api/portfolio')` behind `portfolioUpload.array('images', 20)`. -/
def postPortfolio (accepts : Db → Obj → Bool) (db : Db) (body : JsVal) (files : List File) :
    Response × Db :=
  if !multerArray 20 files then (globalError, db)
  else
    match (if (body.get "user_id").truthy then parseInt (body.get "user_id") else none) with
    | none => (⟨400, obj [("error", str "Некорректный ID пользователя")]⟩, db)
    | some user_id =>
      if files.length = 0 then
        (⟨400, obj [("error", str "Не выбраны файлы для загрузки")]⟩, db)
      else if !inIntegerRange user_id then
        (⟨500, obj [("error", str "Ошибка при загрузке изображений")]⟩, db)
      else
        match db.users.find? (fun u => numEq (u.get "id") (num (user_id : ℚ))) with
        | none =>
          (⟨403, obj [("error", str "Только исполнители могут загружать работы в портфолио")]⟩,
            db)
        | some user =>
          if !strictEq (user.get "role") (str "executor") then
            (⟨403,
              obj [("error", str "Только исполнители могут загружать работы в портфолио")]⟩, db)
          else
            let currentPortfolioCount := (db.portfolio.filter
              (fun e => numEq (e.get "user_id") (num (user_id : ℚ)))).length
            if currentPortfolioCount + files.length > 20 then
              (⟨400, obj [("error", str "Максимум 20 изображений в портфолио")]⟩, db)
            else
              let portfolioEntries : List Obj := files.map (fun file =>
                [("user_id", num (user_id : ℚ)),
                 ("image_path", str ("/uploads/portfolio/" ++ file.filename))])
              if portfolioEntries.all (accepts db) then
                let createdEntries : List Obj := portfolioEntries.enum.map (fun p =>
                  ("id", num ((db.nextPortfolioId + p.1 : Nat) : ℚ)) :: p.2)
                (⟨201, obj [("success", JsVal.bool true),
                    ("message", str "Изображения успешно загружены"),
                    ("uploaded", num (createdEntries.length : ℚ)),
                    ("images", arr (createdEntries.map obj))]⟩,
                  { db with portfolio := db.portfolio ++ createdEntries,
                            nextPortfolioId := db.nextPortfolioId + createdEntries.length })
              else (⟨500, obj [("error", str "Ошибка при загрузке изображений")]⟩, db)

/-- The values `app.post('/api/custom-requests')` hands to `CustomRequest.create`;
`none` is the `TypeError` of calling `trim` on a value that is not a string. -/
def requestData (body : JsVal) (files : List File) : Option Obj :=
  match body.get "product_name" with
  | str product_name =>
    let additional_name : Option JsVal :=
      if (body.get "additional_name").truthy then
        match body.get "additional_name" with
        | str s => some (str (jsTrim s))
        | _ => none
      else some null
    additional_name.map (fun additional =>
      [("user_id", ofNumber ((parseInt (body.get "user_id")).map (fun n => (n : ℚ)))),
       ("product_name", str (jsTrim product_name)),
       ("additional_name", additional),
       ("product_id",
          if (body.get "product_id").truthy then
            ofNumber ((parseInt (body.get "product_id")).map (fun n => (n : ℚ)))
          else null),
       ("model_links", (body.get "model_links").or null),
       ("required_heights", (body.get "required_heights").or null),
       ("images",
          if files.length > 0 then
            JSON.stringify (arr (files.map (fun file => str ("/uploads/" ++ file.filename))))
          else null),
       ("status", str "в обработке")])
  | _ => none

/-- The handler `app.post('/api/custom-requests')` behind `upload.array('images', 3)`. -/
def postCustomRequests (accepts : Db → Obj → Bool) (db : Db) (body : JsVal)
    (files : List File) : Response × Db :=
  if !multerArray 3 files then (globalError, db)
  else if !(body.get "user_id").truthy || !(body.get "product_name").truthy then
    (⟨400, obj [("error", str "缺少必要参数")]⟩, db)
  else
    match body.get "product_name" with
    | str product_name =>
      if !(str (jsTrim product_name)).truthy then
        (⟨400, obj [("error", str "缺少必要参数")]⟩, db)
      else
        match requestData body files with
        | some values =>
          if accepts db values then
            let row : Obj := ("id", num (db.nextCustomRequestId : ℚ)) :: values ++
              [("admin_notes", null)]
            (⟨201, obj row⟩,
              { db with customRequests := db.customRequests ++ [row],
                        nextCustomRequestId := db.nextCustomRequestId + 1 })
          else (⟨500, obj [("error", str "创建请求失败")]⟩, db)
        | none => (⟨500, obj [("error", str "创建请求失败")]⟩, db)
    | _ => (⟨500, obj [("error", str "创建请求失败")]⟩, db)

/-- The elements of an array value (no element for another value). -/
def elements : JsVal → List JsVal
  | arr xs => xs
  | _ => []

/-- The function `addArrayField` of `CustomRequest.jsx` on the form state: an alert, or
the form with one more empty entry in the field. -/
def addArrayField (formData : Obj) (field : String) : Except String Obj :=
  if field = "model_links" ∧ (elements (formData.get "model_links")).length ≥ 5 then
    .error "Максимум 5 ссылок на модели"
  else if field = "required_heights" ∧
      (elements (formData.get "required_heights")).length ≥ 5 then
    .error "Максимум 5 размеров высоты"
  else .ok (Obj.set formData field (arr (elements (formData.get field) ++ [str ""])))

/-- The body `submitRequest` of `CustomRequest.jsx` sends for a form: blank links and
heights are dropped and the lists are sent as JSON text. -/
def submitData (currentUser formData : Obj) : JsVal :=
  let nonBlank : JsVal → Bool := fun v =>
    match v with
    | str s => (str (jsTrim s)).truthy
    | _ => false
  obj [("user_id", str (String.mk (toStringChars (currentUser.get "id")))),
       ("product_name", str (String.mk (toStringChars (formData.get "product_name")))),
       ("additional_name", str (String.mk (toStringChars (formData.get "additional_name")))),
       ("product_id", str (String.mk (toStringChars (formData.get "product_id")))),
       ("model_links",
          JSON.stringify (arr ((elements (formData.get "model_links")).filter nonBlank))),
       ("required_heights",
          JSON.stringify (arr ((elements (formData.get "required_heights")).filter nonBlank)))]

/-- The number of portfolio rows of a user. -/
def portfolioCount (db : Db) (user_id : Int) : Nat :=
  (db.portfolio.filter (fun e => numEq (e.get "user_id") (num (user_id : ℚ)))).length

/-- An image of 1 kB stored under the given name. -/
def sampleImage (filename : String) : File := ⟨filename, "image/png", 1024⟩

/-- The sample store with an executor (user 3) who has `count` portfolio entries. -/
def portfolioDb (count : Nat) : Db :=
  { sampleDb "создан заказ" with
    users := (sampleDb "создан заказ").users ++
      [[("id", num 3), ("username", str "master"), ("role", str "executor")]],
    portfolio := (List.range count).map (fun i =>
      [("id", num ((i + 1 : Nat) : ℚ)), ("user_id", num 3),
       ("image_path", str "/uploads/portfolio/work.png")]),
    nextPortfolioId := count + 1 }

/-! ## Registration and deletion of users -/

/-- The error `User.create` may raise, as far as the handler tells them apart. -/
inductive CreateError where
  | uniqueConstraint
  | validation (messages : List String)
  | other

/-- The test `password.length < 6`: on the length of a string or an array, on the
number an object's `length` converts to; any other value has no `length`, and
`undefined < 6` is false. -/
def shorterThanSix : JsVal → Bool
  | str s => decide (utf16Length s < 6)
  | arr xs => decide (xs.length < 6)
  | obj kvs =>
    match toNumber (Obj.get kvs "length") with
    | some q => decide (q < 6)
    | none => false
  | _ => false

/-- The texts of a list joined with `, `. -/
def joinMessages : List String → String
  | [] => ""
  | [m] => m
  | m :: ms => m ++ ", " ++ joinMessages ms

/-- The role a registration gives: `admin` to the first user, otherwise the requested
role when it is `buyer` or `executor`, and `buyer` when it is anything else. -/
def userRole (isFirstUser : Bool) (role : JsVal) : JsVal :=
  if isFirstUser then str "admin"
  else if role.truthy && (role.isStr "buyer" || role.isStr "executor") then role
  else str "buyer"

/-- The values a registration hands to `User.create`; the first user is given the id 1. -/
def userData (isFirstUser : Bool) (cleanUsername hashedPassword : String) (role : JsVal) :
    Obj :=
  [("username", str cleanUsername), ("password", str hashedPassword),
   ("role", userRole isFirstUser role), ("initial_username", str cleanUsername)] ++
  (if isFirstUser then [("id", num 1)] else [])

/-- The handler `app.post('/api/register')`.  `hash` is `bcrypt.hashSync(password, 10)`,
`newId` the value the sequence of `users.id` gives to a row inserted without an id, and
`createError` the error `User.create` raises for the values, if any.  Of a user row only
the columns the handler writes are kept. -/
def postRegister (hash : String → String) (newId : Db → Nat)
    (createError : Db → Obj → Option CreateError) (db : Db) (body : JsVal) : Response × Db :=
  let serverError : Response :=
    ⟨500, obj [("error", str "Произошла ошибка при регистрации пользователя")]⟩
  if !(body.get "username").truthy then
    (⟨400, obj [("error", str "Имя пользователя обязательно")]⟩, db)
  else
    match body.get "username" with
    | str username =>
      if !(str (jsTrim username)).truthy then
        (⟨400, obj [("error", str "Имя пользователя обязательно")]⟩, db)
      else if !(body.get "password").truthy || shorterThanSix (body.get "password") then
        (⟨400, obj [("error", str "Пароль должен содержать минимум 6 символов")]⟩, db)
      else
        let cleanUsername := jsTrim username
        if utf16Length cleanUsername < 3 ∨ utf16Length cleanUsername > 50 then
          (⟨400,
            obj [("error", str "Имя пользователя должно содержать от 3 до 50 символов")]⟩, db)
        else if (db.users.find? (fun u => strictEq (u.get "username") (str cleanUsername))).isSome
        then
          (⟨400, obj [("error", str "Пользователь с таким именем уже существует")]⟩, db)
        else
          let isFirstUser : Bool := decide (db.users.length = 0)
          match body.get "password" with
          | str password =>
            match createError db
              (userData isFirstUser cleanUsername (hash password) (body.get "role")) with
            | none =>
              let id : JsVal := if isFirstUser then num 1 else num (newId db : ℚ)
              let user : Obj :=
                [("id", id), ("username", str cleanUsername), ("password", str (hash password)),
                 ("role", userRole isFirstUser (body.get "role")),
                 ("initial_username", str cleanUsername)]
              (⟨201, obj [("message", str ("Пользователь успешно зарегистрирован" ++
                    (if isFirstUser then " как администратор" else ""))),
                  ("user", obj [("id", id), ("username", str cleanUsername),
                    ("role", userRole isFirstUser (body.get "role"))])]⟩,
                { db with users := db.users ++ [user] })
            | some .uniqueConstraint =>
              (⟨400, obj [("error", str "Пользователь с таким именем уже существует")]⟩, db)
            | some (.validation messages) =>
              (⟨400, obj [("error", str ("Ошибка валидации: " ++ joinMessages messages))]⟩, db)
            | some .other => (serverError, db)
          | _ => (serverError, db)
    | _ => (serverError, db)

/-- The handler `app.delete('/api/users/:id')`; `id` is the text of the path parameter
and `allows` tells whether the datastore lets the rows go (no order or other row still
refers to them). -/
def deleteUser (allows : Db → Int → Bool) (db : Db) (id : String) : Response × Db :=
  match parseInt (str id) with
  | some 1 => (⟨403, obj [("error", str "Невозможно удалить администратора")]⟩, db)
  | some n =>
    if inIntegerRange n && allows db n then
      if (db.users.filter (fun u => numEq (u.get "id") (num (n : ℚ)))).length = 0 then
        (⟨404, obj [("error", str "Пользователь не найден")]⟩, db)
      else
        (⟨200, obj [("message", str "Пользователь успешно удален")]⟩,
          { db with users := db.users.filter (fun u => !numEq (u.get "id") (num (n : ℚ))) })
    else (⟨500, obj [("error", str "Ошибка удаления пользователя")]⟩, db)
  | none => (⟨500, obj [("error", str "Ошибка удаления пользователя")]⟩, db)

/-- A registration or a deletion of a user. -/
inductive UserCall where
  | register (body : JsVal)
  | delete (id : String)

/-- The handler that serves a registration or deletion. -/
def UserCall.serve (hash : String → String) (newId : Db → Nat)
    (createError : Db → Obj → Option CreateError) (allows : Db → Int → Bool) (db : Db) :
    UserCall → Response × Db
  | .register body => postRegister hash newId createError db body
  | .delete id => deleteUser allows db id

/-- Serving a sequence of registrations and deletions one after another: the answers,
in order, and the store at the end. -/
def serveUsers (hash : String → String) (newId : Db → Nat)
    (createError : Db → Obj → Option CreateError) (allows : Db → Int → Bool) :
    Db → List UserCall → List Response × Db
  | db, [] => ([], db)
  | db, call :: calls =>
    let first := UserCall.serve hash newId createError allows db call
    let others := serveUsers hash newId createError allows first.2 calls
    (first.1 :: others.1, others.2)

/-- Is the user row an administrator? -/
def isAdmin (user : Obj) : Bool := strictEq (user.get "role") (str "admin")

/-- The user store is empty, or its first user is the administrator with id 1 and no
other user is an administrator. -/
def SingleAdmin (db : Db) : Prop :=
  db.users = [] ∨
  ∃ admin rest, db.users = admin :: rest ∧ isAdmin admin = true ∧ admin.get "id" = num 1 ∧
    ∀ u ∈ rest, isAdmin u = false

/-- A store without rows. -/
def emptyDb : Db :=
  { users := [], products := [], orders := [], settings := [], nextOrderId := 1,
    nextSettingsId := 1 }

/-! ## Objects and rows -/

theorem Obj.get_set_same (o : Obj) (k : String) (v : JsVal) : (Obj.set o k v).get k = v := by
  induction o with
  | nil => simp [Obj.set, Obj.get]
  | cons kv rest ih =>
    obtain ⟨k', v'⟩ := kv
    by_cases h : k' = k
    · simp [Obj.set, Obj.get, h]
    · simp [Obj.set, Obj.get, h, ih]

theorem Obj.get_set_other (o : Obj) (k k' : String) (v : JsVal) (h : k' ≠ k) :
    (Obj.set o k v).get k' = o.get k' := by
  induction o with
  | nil => simp [Obj.set, Obj.get, Ne.symm h]
  | cons kv rest ih =>
    obtain ⟨k'', v''⟩ := kv
    by_cases h2 : k'' = k
    · subst h2
      simp [Obj.set, Obj.get, Ne.symm h]
    · by_cases h3 : k'' = k'
      · subst h3
        simp [Obj.set, Obj.get, h2]
      · simp [Obj.set, Obj.get, h2, h3, ih]

theorem JsVal.get_set_ne (b : JsVal) (k k' : String) (v : JsVal) (h : k' ≠ k) :
    (b.set k v).get k' = b.get k' := by
  cases b <;> simp [JsVal.set, JsVal.get, Obj.get_set_other _ _ _ _ h]

theorem Obj.get_delete_other (o : Obj) (k k' : String) (h : k' ≠ k) :
    (Obj.delete o k).get k' = o.get k' := by
  induction o with
  | nil => rfl
  | cons kv rest ih =>
    obtain ⟨k'', v''⟩ := kv
    unfold Obj.delete at ih ⊢
    by_cases h2 : k'' = k
    · subst h2
      simp only [List.filter, Obj.get, Ne.symm h, ne_eq, not_true_eq_false, decide_False]
      exact ih
    · by_cases h3 : k'' = k'
      · subst h3
        simp [List.filter, Obj.get, h2]
      · simp only [List.filter, Obj.get, h2, h3, ne_eq, not_false_eq_true, decide_True,
          if_false]
        exact ih

theorem foldl_update_get (values : JsVal) (attrs : List String) (row : Obj) (a : String) :
    (attrs.foldl
      (fun r a' => if (values.get a').isUndefined then r else Obj.set r a' (values.get a'))
      row).get a =
      if a ∈ attrs ∧ (values.get a).isUndefined = false then values.get a else row.get a := by
  induction attrs generalizing row with
  | nil => simp
  | cons a' rest ih =>
    rw [List.foldl_cons, ih]
    by_cases hu : (values.get a).isUndefined = false
    · by_cases hr : a ∈ rest
      · simp [hr, hu]
      · by_cases ha : a' = a
        · subst ha
          simp [hr, hu, Obj.get_set_same]
        · have ha' : a ≠ a' := fun h => ha h.symm
          simp only [hr, hu, List.mem_cons, ha', false_or, false_and, if_false]
          split
          · rfl
          · exact Obj.get_set_other _ _ _ _ ha'
    · have hu' : (values.get a).isUndefined = true := by simpa using hu
      simp only [hu', and_false, if_false, Bool.true_eq_false]
      by_cases ha : a' = a
      · subst ha; simp [hu']
      · split
        · rfl
        · exact Obj.get_set_other _ _ _ _ (fun h => ha h.symm)

/-- An updated row answers a model attribute from the body when the body carries
it, from the old row otherwise. -/
theorem updateRow_get (values : JsVal) (row : Obj) (a : String) (ha : a ∈ orderAttributes) :
    (updateRow values row).get a =
      if (values.get a).isUndefined = false then values.get a else row.get a := by
  unfold updateRow
  rw [foldl_update_get]
  simp [ha]

/-- An attribute the body does not carry is not touched by the update. -/
theorem updateRow_get_unset (values : JsVal) (row : Obj) (a : String)
    (h : (values.get a).isUndefined = true) : (updateRow values row).get a = row.get a := by
  unfold updateRow
  rw [foldl_update_get]
  simp [h]

/-! ## Rounding -/

theorem Math.round_eq (x : ℚ) (n : ℤ) (h1 : (n : ℚ) - 1 / 2 ≤ x) (h2 : x < (n : ℚ) + 1 / 2) :
    Math.round x = (n : ℚ) := by
  unfold Math.round
  have : ⌊x + 1 / 2⌋ = n := by
    rw [Int.floor_eq_iff]
    constructor <;> linarith
  rw [this]

theorem Math.round_intCast (n : ℤ) : Math.round (n : ℚ) = (n : ℚ) :=
  Math.round_eq _ n (by linarith) (by linarith)

theorem Math.round_zero : Math.round 0 = 0 := by
  have h := Math.round_intCast 0
  simpa using h

/-! ## Binary floating point -/

/-- A number less than a half away from an integer rounds to it. -/
theorem roundHalfEven_eq (x : ℚ) (m : ℤ) (h1 : (m : ℚ) - 1 / 2 < x) (h2 : x < (m : ℚ) + 1 / 2) :
    roundHalfEven x = m := by
  unfold roundHalfEven
  by_cases hm : (m : ℚ) ≤ x
  · have hfl : ⌊x⌋ = m := Int.floor_eq_iff.mpr ⟨hm, by linarith⟩
    rw [hfl, if_pos (by linarith)]
  · have hfl : ⌊x⌋ = m - 1 := Int.floor_eq_iff.mpr ⟨by push_cast; linarith, by push_cast; linarith⟩
    rw [hfl, if_neg (by push_cast; linarith), if_pos (by push_cast; linarith)]
    ring

/-- A number half way between two integers rounds to the even one. -/
theorem roundHalfEven_half_even (x : ℚ) (m : ℤ) (hm : m % 2 = 0)
    (hx : x = (m : ℚ) + 1 / 2 ∨ x = (m : ℚ) - 1 / 2) : roundHalfEven x = m := by
  unfold roundHalfEven
  rcases hx with hx | hx
  · have hfl : ⌊x⌋ = m := Int.floor_eq_iff.mpr ⟨by linarith, by linarith⟩
    rw [hfl, if_neg (by linarith), if_neg (by linarith), if_pos hm]
  · have hfl : ⌊x⌋ = m - 1 := Int.floor_eq_iff.mpr ⟨by push_cast; linarith, by push_cast; linarith⟩
    rw [hfl, if_neg (by push_cast; linarith), if_neg (by push_cast; linarith),
      if_neg (by omega)]
    ring

/-- The binary exponent of a positive number. -/
theorem log_two_eq (r : ℚ) (e : ℤ) (hlo : (2 : ℚ) ^ e ≤ r) (hhi : r < (2 : ℚ) ^ (e + 1)) :
    Int.log 2 r = e := by
  have hr : 0 < r := lt_of_lt_of_le (by positivity) hlo
  have h1 : e ≤ Int.log 2 r :=
    (Int.zpow_le_iff_le_log (by norm_num) hr).mp (by simpa using hlo)
  have h2 : Int.log 2 r < e + 1 :=
    (Int.lt_zpow_iff_log_lt (by norm_num) hr).mp (by simpa using hhi)
  omega

/-- The binary64 number nearest to a number of the normal range with binary exponent
`e`: the significand is the number divided by `2 ^ (e - 52)`, rounded. -/
theorem double_eq (q a : ℚ) (e m : ℤ) (ha : |q| = a) (he : -1022 ≤ e)
    (hlo : (2 : ℚ) ^ e ≤ a) (hhi : a < (2 : ℚ) ^ (e + 1))
    (hm : roundHalfEven (q / 2 ^ (e - 52)) = m) :
    double q = (m : ℚ) * 2 ^ (e - 52) := by
  subst ha
  have hq : q ≠ 0 := by
    rintro rfl
    have : (0 : ℚ) < 2 ^ e := by positivity
    simp at hlo
    linarith
  have hlog := log_two_eq |q| e hlo hhi
  have hmax : max (e - 52) (-1074) = e - 52 := max_eq_left (by omega)
  unfold double
  rw [if_neg hq, hlog, hmax, hm]

/-- A number with a significand of 53 bits is a binary64 number. -/
theorem double_exact (q a : ℚ) (e m : ℤ) (ha : |q| = a) (he : -1022 ≤ e)
    (hlo : (2 : ℚ) ^ e ≤ a) (hhi : a < (2 : ℚ) ^ (e + 1))
    (hq : q = (m : ℚ) * 2 ^ (e - 52)) : double q = q := by
  have hpos : (0 : ℚ) < 2 ^ (e - 52) := by positivity
  have hx : q / 2 ^ (e - 52) = (m : ℚ) := by
    rw [hq, mul_div_assoc, div_self (ne_of_gt hpos), mul_one]
  rw [double_eq q a e m ha he hlo hhi
    (by rw [hx]; exact roundHalfEven_eq _ m (by linarith) (by linarith))]
  exact hq.symm

theorem double_zero : double 0 = 0 := by simp [double]

/-! ## The price formula -/

/-- The price formula on two numbers. -/
theorem scaledPrice_num (p c : ℚ) :
    scaledPrice (num p) (num c) =
      some (Math.round (doubleMul (doubleDiv (double p) 5.25) (double c))) := by
  simp [scaledPrice, toNumber]

/-- The price formula, step by step: the operands, the rounded quotient, the rounded
product and its nearest integer. -/
theorem formula_eq (p c quotient product : ℚ) (n : ℤ)
    (hp : double p = p) (hc : double c = c)
    (hq : double (p / 5.25) = quotient) (hm : double (quotient * c) = product)
    (h1 : (n : ℚ) - 1 / 2 ≤ product) (h2 : product < (n : ℚ) + 1 / 2) :
    Math.round (doubleMul (doubleDiv (double p) 5.25) (double c)) = (n : ℚ) := by
  unfold doubleMul doubleDiv
  rw [hp, hc, hq, hm]
  exact Math.round_eq _ n h1 h2

/-- At 5.25 the base price 1000 is listed as 1000: the product is 1000 after rounding. -/
theorem price_1000_reference :
    Math.round (doubleMul (doubleDiv (double 1000) 5.25) (double 5.25)) = 1000 := by
  have hp : double (1000 : ℚ) = 1000 :=
    double_exact _ _ 9 8796093022208000 (abs_of_pos (by norm_num)) (by norm_num)
      (by norm_num) (by norm_num) (by norm_num)
  have hc : double (5.25 : ℚ) = 5.25 :=
    double_exact _ _ 2 5910974510923776 (abs_of_pos (by norm_num)) (by norm_num)
      (by norm_num) (by norm_num) (by norm_num)
  have hq : double ((1000 : ℚ) / 5.25) = ((6701785159777524 : ℤ) : ℚ) * 2 ^ ((7 : ℤ) - 52) :=
    double_eq _ _ 7 6701785159777524 (abs_of_pos (by norm_num)) (by norm_num)
      (by norm_num) (by norm_num)
      (roundHalfEven_eq _ 6701785159777524 (by norm_num) (by norm_num))
  have hm : double (((6701785159777524 : ℤ) : ℚ) * 2 ^ ((7 : ℤ) - 52) * 5.25) =
      ((8796093022208000 : ℤ) : ℚ) * 2 ^ ((9 : ℤ) - 52) :=
    double_eq _ _ 9 8796093022208000 (abs_of_pos (by norm_num)) (by norm_num)
      (by norm_num) (by norm_num)
      (roundHalfEven_eq _ 8796093022208000 (by norm_num) (by norm_num))
  have h := formula_eq _ _ _ _ 1000 hp hc hq hm (by norm_num) (by norm_num)
  rw [h]
  norm_num

/-- At 6 the base price 1000 is listed as 1143. -/
theorem price_1000_six :
    Math.round (doubleMul (doubleDiv (double 1000) 5.25) (double 6)) = 1143 := by
  have hp : double (1000 : ℚ) = 1000 :=
    double_exact _ _ 9 8796093022208000 (abs_of_pos (by norm_num)) (by norm_num)
      (by norm_num) (by norm_num) (by norm_num)
  have hc : double (6 : ℚ) = 6 :=
    double_exact _ _ 2 6755399441055744 (abs_of_pos (by norm_num)) (by norm_num)
      (by norm_num) (by norm_num) (by norm_num)
  have hq : double ((1000 : ℚ) / 5.25) = ((6701785159777524 : ℤ) : ℚ) * 2 ^ ((7 : ℤ) - 52) :=
    double_eq _ _ 7 6701785159777524 (abs_of_pos (by norm_num)) (by norm_num)
      (by norm_num) (by norm_num)
      (roundHalfEven_eq _ 6701785159777524 (by norm_num) (by norm_num))
  have hm : double (((6701785159777524 : ℤ) : ℚ) * 2 ^ ((7 : ℤ) - 52) * 6) =
      ((5026338869833143 : ℤ) : ℚ) * 2 ^ ((10 : ℤ) - 52) :=
    double_eq _ _ 10 5026338869833143 (abs_of_pos (by norm_num)) (by norm_num)
      (by norm_num) (by norm_num)
      (roundHalfEven_eq _ 5026338869833143 (by norm_num) (by norm_num))
  have h := formula_eq _ _ _ _ 1143 hp hc hq hm (by norm_num) (by norm_num)
  rw [h]
  norm_num

/-- At 6 the price 1143 becomes 1306; the product is a tie between two binary64 numbers. -/
theorem price_1143_six :
    Math.round (doubleMul (doubleDiv (double 1143) 5.25) (double 6)) = 1306 := by
  have hp : double (1143 : ℚ) = 1143 :=
    double_exact _ _ 10 5026967162191872 (abs_of_pos (by norm_num)) (by norm_num)
      (by norm_num) (by norm_num) (by norm_num)
  have hc : double (6 : ℚ) = 6 :=
    double_exact _ _ 2 6755399441055744 (abs_of_pos (by norm_num)) (by norm_num)
      (by norm_num) (by norm_num) (by norm_num)
  have hq : double ((1143 : ℚ) / 5.25) = ((7660140437625710 : ℤ) : ℚ) * 2 ^ ((7 : ℤ) - 52) :=
    double_eq _ _ 7 7660140437625710 (abs_of_pos (by norm_num)) (by norm_num)
      (by norm_num) (by norm_num)
      (roundHalfEven_eq _ 7660140437625710 (by norm_num) (by norm_num))
  have hm : double (((7660140437625710 : ℤ) : ℚ) * 2 ^ ((7 : ℤ) - 52) * 6) =
      ((5745105328219282 : ℤ) : ℚ) * 2 ^ ((10 : ℤ) - 52) :=
    double_eq _ _ 10 5745105328219282 (abs_of_pos (by norm_num)) (by norm_num)
      (by norm_num) (by norm_num)
      (roundHalfEven_half_even _ 5745105328219282 (by decide) (Or.inl (by norm_num)))
  have h := formula_eq _ _ _ _ 1306 hp hc hq hm (by norm_num) (by norm_num)
  rw [h]
  norm_num

/-- At 5.25 the base price 500 is charged as 500. -/
theorem price_500_reference :
    Math.round (doubleMul (doubleDiv (double 500) 5.25) (double 5.25)) = 500 := by
  have hp : double (500 : ℚ) = 500 :=
    double_exact _ _ 8 8796093022208000 (abs_of_pos (by norm_num)) (by norm_num)
      (by norm_num) (by norm_num) (by norm_num)
  have hc : double (5.25 : ℚ) = 5.25 :=
    double_exact _ _ 2 5910974510923776 (abs_of_pos (by norm_num)) (by norm_num)
      (by norm_num) (by norm_num) (by norm_num)
  have hq : double ((500 : ℚ) / 5.25) = ((6701785159777524 : ℤ) : ℚ) * 2 ^ ((6 : ℤ) - 52) :=
    double_eq _ _ 6 6701785159777524 (abs_of_pos (by norm_num)) (by norm_num)
      (by norm_num) (by norm_num)
      (roundHalfEven_eq _ 6701785159777524 (by norm_num) (by norm_num))
  have hm : double (((6701785159777524 : ℤ) : ℚ) * 2 ^ ((6 : ℤ) - 52) * 5.25) =
      ((8796093022208000 : ℤ) : ℚ) * 2 ^ ((8 : ℤ) - 52) :=
    double_eq _ _ 8 8796093022208000 (abs_of_pos (by norm_num)) (by norm_num)
      (by norm_num) (by norm_num)
      (roundHalfEven_eq _ 8796093022208000 (by norm_num) (by norm_num))
  have h := formula_eq _ _ _ _ 500 hp hc hq hm (by norm_num) (by norm_num)
  rw [h]
  norm_num

/-- At 5.25 the base price 300 is charged as 300. -/
theorem price_300_reference :
    Math.round (doubleMul (doubleDiv (double 300) 5.25) (double 5.25)) = 300 := by
  have hp : double (300 : ℚ) = 300 :=
    double_exact _ _ 8 5277655813324800 (abs_of_pos (by norm_num)) (by norm_num)
      (by norm_num) (by norm_num) (by norm_num)
  have hc : double (5.25 : ℚ) = 5.25 :=
    double_exact _ _ 2 5910974510923776 (abs_of_pos (by norm_num)) (by norm_num)
      (by norm_num) (by norm_num) (by norm_num)
  have hq : double ((300 : ℚ) / 5.25) = ((8042142191733029 : ℤ) : ℚ) * 2 ^ ((5 : ℤ) - 52) :=
    double_eq _ _ 5 8042142191733029 (abs_of_pos (by norm_num)) (by norm_num)
      (by norm_num) (by norm_num)
      (roundHalfEven_eq _ 8042142191733029 (by norm_num) (by norm_num))
  have hm : double (((8042142191733029 : ℤ) : ℚ) * 2 ^ ((5 : ℤ) - 52) * 5.25) =
      ((5277655813324800 : ℤ) : ℚ) * 2 ^ ((8 : ℤ) - 52) :=
    double_eq _ _ 8 5277655813324800 (abs_of_pos (by norm_num)) (by norm_num)
      (by norm_num) (by norm_num)
      (roundHalfEven_eq _ 5277655813324800 (by norm_num) (by norm_num))
  have h := formula_eq _ _ _ _ 300 hp hc hq hm (by norm_num) (by norm_num)
  rw [h]
  norm_num

/-- At 5.25 the base price 100 is charged as 100. -/
theorem price_100_reference :
    Math.round (doubleMul (doubleDiv (double 100) 5.25) (double 5.25)) = 100 := by
  have hp : double (100 : ℚ) = 100 :=
    double_exact _ _ 6 7036874417766400 (abs_of_pos (by norm_num)) (by norm_num)
      (by norm_num) (by norm_num) (by norm_num)
  have hc : double (5.25 : ℚ) = 5.25 :=
    double_exact _ _ 2 5910974510923776 (abs_of_pos (by norm_num)) (by norm_num)
      (by norm_num) (by norm_num) (by norm_num)
  have hq : double ((100 : ℚ) / 5.25) = ((5361428127822019 : ℤ) : ℚ) * 2 ^ ((4 : ℤ) - 52) :=
    double_eq _ _ 4 5361428127822019 (abs_of_pos (by norm_num)) (by norm_num)
      (by norm_num) (by norm_num)
      (roundHalfEven_eq _ 5361428127822019 (by norm_num) (by norm_num))
  have hm : double (((5361428127822019 : ℤ) : ℚ) * 2 ^ ((4 : ℤ) - 52) * 5.25) =
      ((7036874417766400 : ℤ) : ℚ) * 2 ^ ((6 : ℤ) - 52) :=
    double_eq _ _ 6 7036874417766400 (abs_of_pos (by norm_num)) (by norm_num)
      (by norm_num) (by norm_num)
      (roundHalfEven_eq _ 7036874417766400 (by norm_num) (by norm_num))
  have h := formula_eq _ _ _ _ 100 hp hc hq hm (by norm_num) (by norm_num)
  rw [h]
  norm_num

/-- At -5.25 the base price 500 is charged as -500. -/
theorem price_500_negative :
    Math.round (doubleMul (doubleDiv (double 500) 5.25) (double (-5.25))) = (-500) := by
  have hp : double (500 : ℚ) = 500 :=
    double_exact _ _ 8 8796093022208000 (abs_of_pos (by norm_num)) (by norm_num)
      (by norm_num) (by norm_num) (by norm_num)
  have hc : double ((-5.25) : ℚ) = (-5.25) :=
    double_exact _ _ 2 (-5910974510923776) (abs_of_neg (by norm_num)) (by norm_num)
      (by norm_num) (by norm_num) (by norm_num)
  have hq : double ((500 : ℚ) / 5.25) = ((6701785159777524 : ℤ) : ℚ) * 2 ^ ((6 : ℤ) - 52) :=
    double_eq _ _ 6 6701785159777524 (abs_of_pos (by norm_num)) (by norm_num)
      (by norm_num) (by norm_num)
      (roundHalfEven_eq _ 6701785159777524 (by norm_num) (by norm_num))
  have hm : double (((6701785159777524 : ℤ) : ℚ) * 2 ^ ((6 : ℤ) - 52) * (-5.25)) =
      ((-8796093022208000 : ℤ) : ℚ) * 2 ^ ((8 : ℤ) - 52) :=
    double_eq _ _ 8 (-8796093022208000) (abs_of_neg (by norm_num)) (by norm_num)
      (by norm_num) (by norm_num)
      (roundHalfEven_eq _ (-8796093022208000) (by norm_num) (by norm_num))
  have h := formula_eq _ _ _ _ (-500) hp hc hq hm (by norm_num) (by norm_num)
  rw [h]
  norm_num

/-- At 2.625 the base price 51 is charged as 25: the product is 25.499999999999996, below the half. -/
theorem price_51_half :
    Math.round (doubleMul (doubleDiv (double 51) 5.25) (double 2.625)) = 25 := by
  have hp : double (51 : ℚ) = 51 :=
    double_exact _ _ 5 7177611906121728 (abs_of_pos (by norm_num)) (by norm_num)
      (by norm_num) (by norm_num) (by norm_num)
  have hc : double (2.625 : ℚ) = 2.625 :=
    double_exact _ _ 1 5910974510923776 (abs_of_pos (by norm_num)) (by norm_num)
      (by norm_num) (by norm_num) (by norm_num)
  have hq : double ((51 : ℚ) / 5.25) = ((5468656690378459 : ℤ) : ℚ) * 2 ^ ((3 : ℤ) - 52) :=
    double_eq _ _ 3 5468656690378459 (abs_of_pos (by norm_num)) (by norm_num)
      (by norm_num) (by norm_num)
      (roundHalfEven_eq _ 5468656690378459 (by norm_num) (by norm_num))
  have hm : double (((5468656690378459 : ℤ) : ℚ) * 2 ^ ((3 : ℤ) - 52) * 2.625) =
      ((7177611906121727 : ℤ) : ℚ) * 2 ^ ((4 : ℤ) - 52) :=
    double_eq _ _ 4 7177611906121727 (abs_of_pos (by norm_num)) (by norm_num)
      (by norm_num) (by norm_num)
      (roundHalfEven_eq _ 7177611906121727 (by norm_num) (by norm_num))
  have h := formula_eq _ _ _ _ 25 hp hc hq hm (by norm_num) (by norm_num)
  rw [h]
  norm_num

/-- At 5.25 the base price 25.5 is charged as 25: the product is 25.499999999999996. -/
theorem price_25_5_reference :
    Math.round (doubleMul (doubleDiv (double 25.5) 5.25) (double 5.25)) = 25 := by
  have hp : double (25.5 : ℚ) = 25.5 :=
    double_exact _ _ 4 7177611906121728 (abs_of_pos (by norm_num)) (by norm_num)
      (by norm_num) (by norm_num) (by norm_num)
  have hc : double (5.25 : ℚ) = 5.25 :=
    double_exact _ _ 2 5910974510923776 (abs_of_pos (by norm_num)) (by norm_num)
      (by norm_num) (by norm_num) (by norm_num)
  have hq : double ((25.5 : ℚ) / 5.25) = ((5468656690378459 : ℤ) : ℚ) * 2 ^ ((2 : ℤ) - 52) :=
    double_eq _ _ 2 5468656690378459 (abs_of_pos (by norm_num)) (by norm_num)
      (by norm_num) (by norm_num)
      (roundHalfEven_eq _ 5468656690378459 (by norm_num) (by norm_num))
  have hm : double (((5468656690378459 : ℤ) : ℚ) * 2 ^ ((2 : ℤ) - 52) * 5.25) =
      ((7177611906121727 : ℤ) : ℚ) * 2 ^ ((4 : ℤ) - 52) :=
    double_eq _ _ 4 7177611906121727 (abs_of_pos (by norm_num)) (by norm_num)
      (by norm_num) (by norm_num)
      (roundHalfEven_eq _ 7177611906121727 (by norm_num) (by norm_num))
  have h := formula_eq _ _ _ _ 25 hp hc hq hm (by norm_num) (by norm_num)
  rw [h]
  norm_num

/-- At 13.125 the base price 43 is charged as 107: the product is 107.49999999999999. -/
theorem price_43_thirteen :
    Math.round (doubleMul (doubleDiv (double 43) 5.25) (double 13.125)) = 107 := by
  have hp : double (43 : ℚ) = 43 :=
    double_exact _ _ 5 6051711999279104 (abs_of_pos (by norm_num)) (by norm_num)
      (by norm_num) (by norm_num) (by norm_num)
  have hc : double (13.125 : ℚ) = 13.125 :=
    double_exact _ _ 3 7388718138654720 (abs_of_pos (by norm_num)) (by norm_num)
      (by norm_num) (by norm_num) (by norm_num)
  have hq : double ((43 : ℚ) / 5.25) = ((4610828189926936 : ℤ) : ℚ) * 2 ^ ((3 : ℤ) - 52) :=
    double_eq _ _ 3 4610828189926936 (abs_of_pos (by norm_num)) (by norm_num)
      (by norm_num) (by norm_num)
      (roundHalfEven_eq _ 4610828189926936 (by norm_num) (by norm_num))
  have hm : double (((4610828189926936 : ℤ) : ℚ) * 2 ^ ((3 : ℤ) - 52) * 13.125) =
      ((7564639999098879 : ℤ) : ℚ) * 2 ^ ((6 : ℤ) - 52) :=
    double_eq _ _ 6 7564639999098879 (abs_of_pos (by norm_num)) (by norm_num)
      (by norm_num) (by norm_num)
      (roundHalfEven_eq _ 7564639999098879 (by norm_num) (by norm_num))
  have h := formula_eq _ _ _ _ 107 hp hc hq hm (by norm_num) (by norm_num)
  rw [h]
  norm_num

/-! ## Creating an order -/

/-- The create handler in its three outcomes. -/
theorem postOrders_cases (accepts : Db → Obj → Bool) (db : Db) (body : JsVal) :
    ((body.get "user_id").truthy = false ∨ (body.get "products").truthy = false ∨
        (body.get "total_price").truthy = false →
      postOrders accepts db body = (⟨400, obj [("error", str "缺少必要参数")]⟩, db)) ∧
    ((body.get "user_id").truthy = true → (body.get "products").truthy = true →
        (body.get "total_price").truthy = true → accepts db (createValues body) = true →
      postOrders accepts db body =
        (⟨201, obj (("id", num (db.nextOrderId : ℚ)) :: createValues body ++
            [("admin_notes", null), ("assigned_executors", null)])⟩,
         { db with
            orders := db.orders ++ [("id", num (db.nextOrderId : ℚ)) :: createValues body ++
              [("admin_notes", null), ("assigned_executors", null)]],
            nextOrderId := db.nextOrderId + 1 })) ∧
    ((body.get "user_id").truthy = true → (body.get "products").truthy = true →
        (body.get "total_price").truthy = true → accepts db (createValues body) = false →
      postOrders accepts db body = (⟨500, obj [("error", str "创建订单失败")]⟩, db)) := by
  refine ⟨?_, ?_, ?_⟩
  · intro h
    unfold postOrders
    rcases h with h | h | h <;> simp [h]
  · intro h1 h2 h3 h4
    simp [postOrders, h1, h2, h3, Order.create, h4]
  · intro h1 h2 h3 h4
    simp [postOrders, h1, h2, h3, Order.create, h4]

/-- C1, as the code has it: for every create-order request that `POST /api/orders`
accepts (answer 201), exactly one order is added and its stored `total_price` is the
`total_price` of the request body; the server computes no total of its own. -/
theorem postOrders_stores_submitted_total (accepts : Db → Obj → Bool) (db : Db) (body : JsVal)
    (h201 : (postOrders accepts db body).1.status = 201) :
    ∃ order : Obj,
      (postOrders accepts db body).2.orders = db.orders ++ [order] ∧
      order.get "total_price" = body.get "total_price" := by
  by_cases h1 : (body.get "user_id").truthy = true
  · by_cases h2 : (body.get "products").truthy = true
    · by_cases h3 : (body.get "total_price").truthy = true
      · by_cases h4 : accepts db (createValues body) = true
        · rw [(postOrders_cases accepts db body).2.1 h1 h2 h3 h4]
          exact ⟨_, rfl, by simp [createValues, Obj.get]⟩
        · rw [(postOrders_cases accepts db body).2.2 h1 h2 h3 (by simpa using h4)] at h201
          simp at h201
      · rw [(postOrders_cases accepts db body).1 (Or.inr (Or.inr (by simpa using h3)))] at h201
        simp at h201
    · rw [(postOrders_cases accepts db body).1 (Or.inr (Or.inl (by simpa using h2)))] at h201
      simp at h201
  · rw [(postOrders_cases accepts db body).1 (Or.inl (by simpa using h1))] at h201
    simp at h201

/-- An accepted request for two pieces at base price 500 with a submitted total of 1
is stored with total 1. -/
theorem postOrders_stores_submitted_total_witness :
    ∃ order : Obj,
      (postOrders acceptAll (sampleDb "готово") (orderBody [sampleLine] 1)).2.orders =
        (sampleDb "готово").orders ++ [order] ∧
      order.get "total_price" = (orderBody [sampleLine] 1).get "total_price" :=
  postOrders_stores_submitted_total acceptAll (sampleDb "готово") (orderBody [sampleLine] 1) rfl

/-- C1 fails as stated: at the reference coefficient 5.25 a request with one line
(base price 500, quantity 2) and a submitted total of 1 is accepted and stored with
total 1, while the formula of the specification gives 1000. -/
theorem postOrders_total_not_recomputed :
    currentCoefficient (sampleDb "готово") = num 5.25 ∧
    (postOrders acceptAll (sampleDb "готово") (orderBody [sampleLine] 1)).1.status = 201 ∧
    ((postOrders acceptAll (sampleDb "готово") (orderBody [sampleLine] 1)).2.orders.map
      (fun order => order.get "total_price")) = [num 1300, num 1] ∧
    specOrderTotal 5.25 [(500, 2)] = 1000 := by
  refine ⟨rfl, rfl, rfl, ?_⟩
  simp only [specOrderTotal, List.map, List.sum_cons, List.sum_nil]
  rw [Math.round_eq _ 500 (by norm_num) (by norm_num)]
  norm_num

/-- C7: assuming the datastore accepts the write, `POST /api/orders` answers 400 and
leaves the store unchanged when `user_id`, `products` or `total_price` is missing or
falsy; otherwise it adds exactly one order, in status 'создан заказ' whatever status
the body carries, and answers 201 with that order. -/
theorem postOrders_creates_in_created_status (accepts : Db → Obj → Bool) (db : Db) (body : JsVal)
    (hwrite : accepts db (createValues body) = true) :
    ((body.get "user_id").truthy = false ∨ (body.get "products").truthy = false ∨
        (body.get "total_price").truthy = false →
      (postOrders accepts db body).1.status = 400 ∧ (postOrders accepts db body).2 = db) ∧
    ((body.get "user_id").truthy = true ∧ (body.get "products").truthy = true ∧
        (body.get "total_price").truthy = true →
      ∃ order : Obj,
        (postOrders accepts db body).1 = ⟨201, obj order⟩ ∧
        (postOrders accepts db body).2.orders = db.orders ++ [order] ∧
        order.get "status" = str "создан заказ") := by
  refine ⟨?_, ?_⟩
  · intro h
    rw [(postOrders_cases accepts db body).1 h]
    exact ⟨rfl, rfl⟩
  · rintro ⟨h1, h2, h3⟩
    rw [(postOrders_cases accepts db body).2.1 h1 h2 h3 hwrite]
    exact ⟨_, rfl, rfl, by simp [createValues, Obj.get]⟩

/-- A body that carries status 'готово' still creates the order in 'создан заказ';
the same body without `total_price` is answered 400. -/
theorem postOrders_creates_in_created_status_witness :
    (∃ order : Obj,
      (postOrders acceptAll (sampleDb "готово") (orderBody [sampleLine] 1300)).1 =
        ⟨201, obj order⟩ ∧
      (postOrders acceptAll (sampleDb "готово") (orderBody [sampleLine] 1300)).2.orders =
        (sampleDb "готово").orders ++ [order] ∧
      order.get "status" = str "создан заказ") ∧
    (postOrders acceptAll (sampleDb "готово") (orderBody [sampleLine] 0)).1.status = 400 ∧
    (postOrders acceptAll (sampleDb "готово") (orderBody [sampleLine] 0)).2 = sampleDb "готово" :=
  ⟨(postOrders_creates_in_created_status acceptAll (sampleDb "готово")
      (orderBody [sampleLine] 1300) rfl).2 ⟨rfl, rfl, rfl⟩,
   (postOrders_creates_in_created_status acceptAll (sampleDb "готово")
      (orderBody [sampleLine] 0) rfl).1 (Or.inr (Or.inr rfl))⟩

/-- C6 fails as stated: `POST /api/orders` accepts, and stores, a request whose
line-item list is empty, and one whose only line has price -5. -/
theorem postOrders_accepts_empty_and_unpriced :
    (postOrders acceptAll (sampleDb "готово") (orderBody [] 100)).1.status = 201 ∧
    (postOrders acceptAll (sampleDb "готово") (orderBody [] 100)).2.orders.length = 2 ∧
    (postOrders acceptAll (sampleDb "готово")
      (orderBody [obj [("id", num 3), ("name", str "Ваза"), ("quantity", num 1),
        ("price", num (-5)), ("selectedSize", null)]] 100)).1.status = 201 ∧
    (postOrders acceptAll (sampleDb "готово")
      (orderBody [obj [("id", num 3), ("name", str "Ваза"), ("quantity", num 1),
        ("price", num (-5)), ("selectedSize", null)]] 100)).2.orders.length = 2 :=
  ⟨rfl, rfl, rfl, rfl⟩

/-- A cart line whose base price is not positive makes `validateItem` throw. -/
theorem validateItem_unpriced (settings item : Obj)
    (h : Num.nonpos (toNumber (basePrice item)) = true) :
    ∃ message, validateItem settings item = .error message := by
  unfold validateItem
  split
  · exact ⟨_, rfl⟩
  · exact ⟨_, rfl⟩

/-- The mapping over the cart throws as soon as one line has no positive base price. -/
theorem validateItems_unpriced (settings : Obj) (cartItems : List Obj)
    (h : ∃ item ∈ cartItems, Num.nonpos (toNumber (basePrice item)) = true) :
    ∃ message, validateItems settings cartItems = .error message := by
  induction cartItems with
  | nil => simp at h
  | cons item rest ih =>
    unfold validateItems
    cases hv : validateItem settings item with
    | error message => exact ⟨message, rfl⟩
    | ok line =>
      obtain ⟨bad, hmem, hbad⟩ := h
      rcases List.mem_cons.mp hmem with rfl | hrest
      · obtain ⟨message, hm⟩ := validateItem_unpriced settings bad hbad
        rw [hm] at hv
        cases hv
      · obtain ⟨message, hm⟩ := ih ⟨bad, hrest, hbad⟩
        exact ⟨message, by simp [hm]⟩

/-- C6, as the code has it: the checkout `Cart.confirmPayment` ends in an alert and
posts no order when the cart is empty or holds a line whose base price (the selected
size's price, else the item's price, else 0) is not positive; `POST /api/orders`
itself answers 400 exactly when `user_id`, `products` or `total_price` is missing or
falsy, and then leaves the store unchanged. -/
theorem checkout_rejects_empty_or_unpriced (currentUser settings : Obj)
    (cartItems discounts : List Obj) (orderNotes : String)
    (hbad : cartItems = [] ∨
      ∃ item ∈ cartItems, Num.nonpos (toNumber (basePrice item)) = true) :
    (∃ message, confirmPayment currentUser settings cartItems discounts orderNotes =
        Checkout.alert message) ∧
    ∀ (accepts : Db → Obj → Bool) (db : Db) (body : JsVal),
      ((postOrders accepts db body).1.status = 400 ↔
        ((body.get "user_id").truthy = false ∨ (body.get "products").truthy = false ∨
          (body.get "total_price").truthy = false)) ∧
      ((postOrders accepts db body).1.status = 400 → (postOrders accepts db body).2 = db) := by
  constructor
  · unfold confirmPayment
    split
    · exact ⟨_, rfl⟩
    · rcases hbad with rfl | hitem
      · exact ⟨"Корзина пуста", by simp⟩
      · split
        · exact ⟨_, rfl⟩
        · obtain ⟨message, hm⟩ := validateItems_unpriced settings cartItems hitem
          rw [hm]
          exact ⟨_, rfl⟩
  · intro accepts db body
    have key : (postOrders accepts db body).1.status = 400 ↔
        ((body.get "user_id").truthy = false ∨ (body.get "products").truthy = false ∨
          (body.get "total_price").truthy = false) := by
      constructor
      · intro h400
        by_contra hne
        simp only [not_or, Bool.not_eq_false] at hne
        obtain ⟨h1, h2, h3⟩ := hne
        by_cases h4 : accepts db (createValues body) = true
        · rw [(postOrders_cases accepts db body).2.1 h1 h2 h3 h4] at h400
          simp at h400
        · rw [(postOrders_cases accepts db body).2.2 h1 h2 h3 (by simpa using h4)] at h400
          simp at h400
      · intro h
        rw [(postOrders_cases accepts db body).1 h]
    refine ⟨key, fun h400 => ?_⟩
    rw [(postOrders_cases accepts db body).1 (key.mp h400)]

/-- A cart whose only line has price 0 is stopped by the checkout. -/
theorem checkout_rejects_empty_or_unpriced_witness :
    (∃ message, confirmPayment [("id", num 2)] [("price_coefficient", num 5.25)]
        [cartLine 3 "Ваза" "10 см" 0 1] [] "" = Checkout.alert message) ∧
    ∀ (accepts : Db → Obj → Bool) (db : Db) (body : JsVal),
      ((postOrders accepts db body).1.status = 400 ↔
        ((body.get "user_id").truthy = false ∨ (body.get "products").truthy = false ∨
          (body.get "total_price").truthy = false)) ∧
      ((postOrders accepts db body).1.status = 400 → (postOrders accepts db body).2 = db) :=
  checkout_rejects_empty_or_unpriced [("id", num 2)] [("price_coefficient", num 5.25)]
    [cartLine 3 "Ваза" "10 см" 0 1] [] ""
    (Or.inr ⟨cartLine 3 "Ваза" "10 см" 0 1, List.mem_singleton.mpr rfl, by
      simp [basePrice, cartLine, Obj.get, JsVal.get, JsVal.or, JsVal.truthy, toNumber,
        Num.nonpos]⟩)

/-! ## Updating an order -/

/-- The update handler when the datastore accepts the write: every row with the
addressed id is updated; the answer is 200 when there is such a row and 404 when
there is none. -/
theorem putOrder_accepted (accepts : Db → Obj → Bool) (db : Db) (id : Nat) (body : JsVal)
    (hwrite : accepts db (spread (putOrderData body)) = true) :
    (putOrder accepts db id body).2.orders =
        db.orders.map (fun r => if idIs r id then updateRow (putOrderData body) r else r) ∧
    ((∃ r ∈ db.orders, idIs r id = true) → (putOrder accepts db id body).1.status = 200) ∧
    ((∀ r ∈ db.orders, idIs r id = false) → (putOrder accepts db id body).1.status = 404) := by
  unfold putOrder
  simp only [hwrite, if_true, Order.update]
  refine ⟨?_, ?_, ?_⟩
  · split <;> rfl
  · rintro ⟨r, hr, hid⟩
    have : (db.orders.filter (fun r => idIs r id)).length ≠ 0 := by
      intro h0
      have := List.length_eq_zero.mp h0
      rw [List.filter_eq_nil_iff] at this
      exact this r hr hid
    simp [this]
  · intro h
    have : (db.orders.filter (fun r => idIs r id)).length = 0 := by
      rw [List.length_eq_zero, List.filter_eq_nil_iff]
      intro r hr; simp [h r hr]
    simp [this]

/-- The handler rewrites no attribute of the body other than `assigned_executors`. -/
theorem putOrderData_get (body : JsVal) (k : String) (hk : k ≠ "assigned_executors") :
    (putOrderData body).get k = body.get k := by
  unfold putOrderData
  split
  · exact JsVal.get_set_ne _ _ _ _ hk
  · rfl

/-- After an accepted update whose body carries a status, every order with the
addressed id has that status. -/
theorem putOrder_status (accepts : Db → Obj → Bool) (db : Db) (id : Nat) (body : JsVal)
    (hwrite : accepts db (spread (putOrderData body)) = true)
    (hs : (body.get "status").isUndefined = false) :
    ∀ r ∈ (putOrder accepts db id body).2.orders, idIs r id = true →
      r.get "status" = body.get "status" := by
  intro r hr hid
  rw [(putOrder_accepted accepts db id body hwrite).1, List.mem_map] at hr
  obtain ⟨r0, _, rfl⟩ := hr
  by_cases h0 : idIs r0 id = true
  · simp only [h0, if_true]
    rw [updateRow_get _ _ _ (by simp [orderAttributes]), putOrderData_get _ _ (by decide)]
    simp [hs]
  · simp only [h0] at hid
    simp at hid
    exact absurd hid h0

/-- An accepted update keeps, row by row, every attribute the body does not carry. -/
theorem putOrder_keeps (accepts : Db → Obj → Bool) (db : Db) (id : Nat) (body : JsVal)
    (a : String) (ha : a ≠ "assigned_executors") (hu : (body.get a).isUndefined = true) :
    (putOrder accepts db id body).2.orders.map (fun r => r.get a) =
      db.orders.map (fun r => r.get a) := by
  by_cases hwrite : accepts db (spread (putOrderData body)) = true
  · rw [(putOrder_accepted accepts db id body hwrite).1, List.map_map]
    apply List.map_congr_left
    intro r _
    simp only [Function.comp]
    split
    · exact updateRow_get_unset _ _ _ (by rw [putOrderData_get _ _ ha]; exact hu)
    · rfl
  · simp [putOrder, hwrite]

/-- C5 fails as stated: an order in the terminal status 'готово' (ready) is moved
back to 'создан заказ' (created), a pair that is not in the transition table, and the
handler answers 200. -/
theorem putOrder_ignores_transition_table :
    allowedTransition "готово" "создан заказ" = false ∧
    (putOrder acceptAll (sampleDb "готово") 1 (obj [("status", str "создан заказ")])).1.status
      = 200 ∧
    (putOrder acceptAll (sampleDb "готово") 1 (obj [("status", str "создан заказ")])).2.orders
      = [sampleOrder 1 "создан заказ"] :=
  ⟨rfl, rfl, rfl⟩

/-- C5, as the code has it: for every stored order and every update request that
sets a status text, whatever the current status and whether or not the pair is in the
transition table, the update is answered 200 (the datastore accepting the write) and
every order with the addressed id then has the requested status. -/
theorem putOrder_sets_any_status (accepts : Db → Obj → Bool) (db : Db) (id : Nat)
    (body : JsVal) (status : String)
    (hstatus : body.get "status" = str status)
    (hwrite : accepts db (spread (putOrderData body)) = true)
    (hstored : ∃ r ∈ db.orders, idIs r id = true) :
    (putOrder accepts db id body).1.status = 200 ∧
    (putOrder accepts db id body).2.orders.length = db.orders.length ∧
    ∀ r ∈ (putOrder accepts db id body).2.orders, idIs r id = true →
      r.get "status" = str status := by
  refine ⟨(putOrder_accepted accepts db id body hwrite).2.1 hstored, ?_, ?_⟩
  · rw [(putOrder_accepted accepts db id body hwrite).1, List.length_map]
  · intro r hr hid
    rw [← hstatus]
    exact putOrder_status accepts db id body hwrite (by rw [hstatus]; rfl) r hr hid

/-- The order of the sample store, in 'готово', takes the status 'создан заказ'. -/
theorem putOrder_sets_any_status_witness :
    (putOrder acceptAll (sampleDb "готово") 1 (obj [("status", str "создан заказ")])).1.status
      = 200 ∧
    (putOrder acceptAll (sampleDb "готово") 1
      (obj [("status", str "создан заказ")])).2.orders.length = (sampleDb "готово").orders.length ∧
    ∀ r ∈ (putOrder acceptAll (sampleDb "готово") 1
        (obj [("status", str "создан заказ")])).2.orders, idIs r 1 = true →
      r.get "status" = str "создан заказ" :=
  putOrder_sets_any_status acceptAll (sampleDb "готово") 1 (obj [("status", str "создан заказ")])
    "создан заказ" rfl rfl ⟨sampleOrder 1 "готово", List.mem_singleton.mpr rfl, rfl⟩

/-- C8 fails as stated: assigning the executors 7 and 9 with a body that carries no
status leaves an order in 'создан заказ' in that status. -/
theorem putOrder_assignment_keeps_status :
    (putOrder acceptAll (sampleDb "создан заказ") 1
      (obj [("assigned_executors", arr [num 7, num 9])])).1.status = 200 ∧
    (putOrder acceptAll (sampleDb "создан заказ") 1
      (obj [("assigned_executors", arr [num 7, num 9])])).2.orders =
      [Obj.set (sampleOrder 1 "создан заказ") "assigned_executors" (str "[7,9]")] ∧
    (Obj.set (sampleOrder 1 "создан заказ") "assigned_executors" (str "[7,9]")).get "status" =
      str "создан заказ" :=
  ⟨rfl, rfl, rfl⟩

/-- C8, as the code has it: the request `OrderView.assignExecutors` sends, which
carries the status 'принят к исполнению' next to `assigned_executors`, leaves every
order with the addressed id in that status; the handler itself never derives a status
from `assigned_executors`: a body without a status leaves all statuses as they were. -/
theorem assignExecutors_sets_accepted (accepts : Db → Obj → Bool) (db : Db) (id : Nat)
    (currentUser : Obj) (executorIds : JsVal)
    (hwrite : accepts db (spread (putOrderData (assignExecutorsBody currentUser executorIds)))
      = true)
    (hstored : ∃ r ∈ db.orders, idIs r id = true) :
    ((putOrder accepts db id (assignExecutorsBody currentUser executorIds)).1.status = 200 ∧
      ∀ r ∈ (putOrder accepts db id (assignExecutorsBody currentUser executorIds)).2.orders,
        idIs r id = true → r.get "status" = str "принят к исполнению") ∧
    ∀ body : JsVal, (body.get "status").isUndefined = true →
      (putOrder accepts db id body).2.orders.map (fun r => r.get "status") =
        db.orders.map (fun r => r.get "status") := by
  refine ⟨⟨(putOrder_accepted accepts db id _ hwrite).2.1 hstored, ?_⟩, ?_⟩
  · intro r hr hid
    have h := putOrder_status accepts db id _ hwrite
      (by simp [assignExecutorsBody, JsVal.get, Obj.get, JsVal.isUndefined]) r hr hid
    rw [h]
    simp [assignExecutorsBody, JsVal.get, Obj.get]
  · intro body hu
    exact putOrder_keeps accepts db id body "status" (by decide) hu

/-- The administrator (id 1) assigns the executors 7 and 9 to the order of the sample
store, which then is in 'принят к исполнению'. -/
theorem assignExecutors_sets_accepted_witness :
    ((putOrder acceptAll (sampleDb "создан заказ") 1
        (assignExecutorsBody [("id", num 1)] (arr [num 7, num 9]))).1.status = 200 ∧
      ∀ r ∈ (putOrder acceptAll (sampleDb "создан заказ") 1
          (assignExecutorsBody [("id", num 1)] (arr [num 7, num 9]))).2.orders,
        idIs r 1 = true → r.get "status" = str "принят к исполнению") ∧
    ∀ body : JsVal, (body.get "status").isUndefined = true →
      (putOrder acceptAll (sampleDb "создан заказ") 1 body).2.orders.map
          (fun r => r.get "status") =
        (sampleDb "создан заказ").orders.map (fun r => r.get "status") :=
  assignExecutors_sets_accepted acceptAll (sampleDb "создан заказ") 1 [("id", num 1)]
    (arr [num 7, num 9]) rfl ⟨sampleOrder 1 "создан заказ", List.mem_singleton.mpr rfl, rfl⟩

/-! ## The catalog listing -/

/-- The listing puts the scaled price on every option whose stored price is a
non-zero number. -/
theorem processOption_price (admin option : JsVal) (p c : ℚ) (hp : p ≠ 0)
    (hprice : option.get "price" = num p) :
    (processOption admin (num c) option).get "price" =
      num (Math.round (doubleMul (doubleDiv (double p) 5.25) (double c))) := by
  cases option with
  | obj kvs =>
    have hkv : Obj.get kvs "price" = num p := hprice
    have hstripped : ∀ o : Obj,
        o = (if (!admin.isStr "true") = true then Obj.delete kvs "resin_ml" else kvs) →
        Obj.get o "price" = num p := by
      intro o ho
      subst ho
      split
      · rw [Obj.get_delete_other _ _ _ (by decide)]; exact hkv
      · exact hkv
    unfold processOption
    simp only [spread]
    rw [hstripped _ rfl]
    simp only [JsVal.truthy, hp, ne_eq, not_false_eq_true, decide_True, if_true]
    simp only [JsVal.get, Obj.get_set_same, scaledPrice_num, ofNumber]
  | _ => simp [JsVal.get] at hprice

/-- The rows a filter keeps are rows of the table. -/
theorem filterRows_mem (test : Obj → Option Bool) (rows kept : List Obj)
    (h : filterRows test rows = some kept) : ∀ r ∈ kept, r ∈ rows := by
  induction rows generalizing kept with
  | nil =>
    simp [filterRows] at h
    subst h
    simp
  | cons r rs ih =>
    unfold filterRows at h
    cases ht : test r with
    | none => simp [ht] at h
    | some keep =>
      cases hf : filterRows test rs with
      | none => simp [ht, hf] at h
      | some rest =>
        simp only [ht, hf, Option.some.injEq] at h
        subst h
        intro x hx
        split at hx
        · rcases List.mem_cons.mp hx with rfl | hx'
          · exact List.mem_cons_self _ _
          · exact List.mem_cons_of_mem _ (ih rest hf x hx')
        · exact List.mem_cons_of_mem _ (ih rest hf x hx)

theorem parse_empty : JSON.parse (str "") = none := by rfl

/-- A product whose `price_options` text is a JSON list is listed with every option
processed. -/
theorem processProduct_options (admin coefficient : JsVal) (product : Obj) (text : String)
    (options : List JsVal) (htext : product.get "price_options" = str text)
    (hparse : JSON.parse (str text) = some (arr options)) :
    (processProduct admin coefficient product).get "price_options" =
      arr (options.map (processOption admin coefficient)) := by
  have hne : text ≠ "" := by
    rintro rfl
    rw [parse_empty] at hparse
    cases hparse
  have hget : ∀ (o : Obj) (v : JsVal), Obj.get o "price_options" = v →
      (if (Obj.get o "additional_images").truthy = true then
        match JSON.parse (Obj.get o "additional_images") with
        | some w => Obj.set o "additional_images" w
        | none => Obj.set o "additional_images" (arr [])
      else Obj.set o "additional_images" (arr [])).get "price_options" = v := by
    intro o v hv
    split
    · split <;> rw [Obj.get_set_other _ _ _ _ (by decide)] <;> exact hv
    · rw [Obj.get_set_other _ _ _ _ (by decide)]; exact hv
  unfold processProduct
  apply hget
  rw [htext]
  simp only [JsVal.truthy, hne, ne_eq, not_false_eq_true, decide_True, if_true, hparse]
  exact Obj.get_set_same _ _ _

/-- C2 fails as stated, the formula being read in exact arithmetic.  At coefficient 2.625
the catalog listing returns the option of base price 51 with price 25: the quotient
`51 / 5.25` is rounded to binary64, its product with 2.625 is the binary64 number
25.499999999999996, and `Math.round` gives 25, where `round(51 / 5.25 * 2.625)` is
`round(25.5) = 26`.  The same happens at the default coefficient 5.25 with the base price
25.5, and at 13.125 the base price 43 is listed as 107, not 108. -/
theorem getProducts_rounds_binary_product :
    (getProducts (fun _ _ => true) (smallCatalogDb 2.625) [] =
        ⟨200, arr [obj [("id", num 4), ("name", str "Брелок"), ("description", null),
          ("main_image", null), ("additional_images", arr []),
          ("price_options", arr [obj [("size", str "5 см"), ("price", num 25)]]),
          ("is_visible", JsVal.bool true)]]⟩ ∧
      computeChargedPrice 51 2.625 = 26) ∧
    (processOption undefined (num 5.25) (obj [("size", str "5 см"), ("price", num 25.5)]) =
        obj [("size", str "5 см"), ("price", num 25)] ∧
      computeChargedPrice 25.5 5.25 = 26) ∧
    (processOption undefined (num 13.125) (obj [("size", str "5 см"), ("price", num 43)]) =
        obj [("size", str "5 см"), ("price", num 107)] ∧
      computeChargedPrice 43 13.125 = 108) := by
  have h1 : scaledPrice (num 51) (num 2.625) = some 25 := by
    rw [scaledPrice_num, price_51_half]
  have h2 : scaledPrice (num 25.5) (num 5.25) = some 25 := by
    rw [scaledPrice_num, price_25_5_reference]
  have h3 : scaledPrice (num 43) (num 13.125) = some 107 := by
    rw [scaledPrice_num, price_43_thirteen]
  refine ⟨⟨?_, ?_⟩, ⟨?_, ?_⟩, ⟨?_, ?_⟩⟩
  · have e : getProducts (fun _ _ => true) (smallCatalogDb 2.625) [] =
        ⟨200, arr [obj [("id", num 4), ("name", str "Брелок"), ("description", null),
          ("main_image", null), ("additional_images", arr []),
          ("price_options", arr [obj [("size", str "5 см"),
            ("price", ofNumber (scaledPrice (num 51) (num 2.625)))]]),
          ("is_visible", JsVal.bool true)]]⟩ := rfl
    rw [e, h1]
    rfl
  · unfold computeChargedPrice
    rw [Math.round_eq _ 26 (by norm_num) (by norm_num)]; norm_num
  · have e : processOption undefined (num 5.25)
        (obj [("size", str "5 см"), ("price", num 25.5)]) =
        obj [("size", str "5 см"), ("price", ofNumber (scaledPrice (num 25.5) (num 5.25)))] := by
      have hne : (25.5 : ℚ) ≠ 0 := by norm_num
      simp [processOption, spread, Obj.delete, Obj.get, Obj.set, JsVal.isStr, JsVal.truthy, hne]
    rw [e, h2]
    rfl
  · unfold computeChargedPrice
    rw [Math.round_eq _ 26 (by norm_num) (by norm_num)]; norm_num
  · have e : processOption undefined (num 13.125)
        (obj [("size", str "5 см"), ("price", num 43)]) =
        obj [("size", str "5 см"), ("price", ofNumber (scaledPrice (num 43) (num 13.125)))] :=
      rfl
    rw [e, h3]
    rfl
  · unfold computeChargedPrice
    rw [Math.round_eq _ 108 (by norm_num) (by norm_num)]; norm_num

/-- C2, as the code has it: whatever the query and the current coefficient `c`, every
entry of the catalog listing `GET /api/products` is a stored product processed with `c`;
a product whose `price_options` text is a JSON list is returned with each option
processed; and a processed option whose stored base price `p` is a non-zero number
carries `price = Math.round((p / 5.25) * c)` as JavaScript evaluates it: `p` and `c` are
binary64 numbers, the quotient `p / 5.25` is rounded to binary64, its product with `c`
is rounded to binary64, and the result is the integer nearest to that product, a half
going up.  In particular 1000 gives 1000 at 5.25 and 1143 at 6. -/
theorem getProducts_scales_prices (iLike : String → String → Bool) (db : Db) (q : Query)
    (c : ℚ) (entries : List JsVal)
    (hc : currentCoefficient db = num c)
    (hlist : getProducts iLike db q = ⟨200, arr entries⟩) :
    (∀ e ∈ entries, ∃ product ∈ db.products,
      e = obj (processProduct (q.get "admin") (num c) product)) ∧
    (∀ (product : Obj) (text : String) (options : List JsVal),
      product.get "price_options" = str text →
      JSON.parse (str text) = some (arr options) →
      (processProduct (q.get "admin") (num c) product).get "price_options" =
        arr (options.map (processOption (q.get "admin") (num c)))) ∧
    (∀ (option : JsVal) (p : ℚ), p ≠ 0 → option.get "price" = num p →
      (processOption (q.get "admin") (num c) option).get "price" =
        num (Math.round (doubleMul (doubleDiv (double p) 5.25) (double c)))) ∧
    Math.round (doubleMul (doubleDiv (double 1000) 5.25) (double 5.25)) = 1000 ∧
    Math.round (doubleMul (doubleDiv (double 1000) 5.25) (double 6)) = 1143 := by
  refine ⟨?_, ?_, ?_, price_1000_reference, price_1000_six⟩
  · intro e he
    unfold getProducts at hlist
    cases hf : filterRows (productMatches iLike q) db.products with
    | none => simp [hf] at hlist
    | some rows =>
      simp only [hf, Response.mk.injEq, JsVal.arr.injEq, true_and] at hlist
      subst hlist
      rw [List.mem_map] at he
      obtain ⟨product, hmem, rfl⟩ := he
      refine ⟨product, filterRows_mem _ _ _ hf product (List.mem_reverse.mp hmem), ?_⟩
      rw [hc]
  · intro product text options htext hparse
    exact processProduct_options _ _ _ _ _ htext hparse
  · intro option p hp hprice
    exact processOption_price _ _ _ _ hp hprice

/-- The listing of the sample catalog at coefficient 6, for a buyer. -/
theorem getProducts_scales_prices_witness :
    (∀ e ∈ [obj (processProduct undefined (num 6) sampleProduct)],
      ∃ product ∈ (catalogDb 6).products,
        e = obj (processProduct (Query.get [] "admin") (num 6) product)) ∧
    (∀ (product : Obj) (text : String) (options : List JsVal),
      product.get "price_options" = str text →
      JSON.parse (str text) = some (arr options) →
      (processProduct (Query.get [] "admin") (num 6) product).get "price_options" =
        arr (options.map (processOption (Query.get [] "admin") (num 6)))) ∧
    (∀ (option : JsVal) (p : ℚ), p ≠ 0 → option.get "price" = num p →
      (processOption (Query.get [] "admin") (num 6) option).get "price" =
        num (Math.round (doubleMul (doubleDiv (double p) 5.25) (double 6)))) ∧
    Math.round (doubleMul (doubleDiv (double 1000) 5.25) (double 5.25)) = 1000 ∧
    Math.round (doubleMul (doubleDiv (double 1000) 5.25) (double 6)) = 1143 :=
  getProducts_scales_prices (fun _ _ => true) (catalogDb 6) [] 6
    [obj (processProduct undefined (num 6) sampleProduct)] rfl rfl

/-! ## From the listing to the cart -/

/-- C3, at the failing input: with coefficient 6 the listing returns the option of
base price 1000 with price 1143; `handleAddToCart` stores 1143 as the price of the
cart line; the cart then charges `round(1143 / 5.25 * 6) = 1306` for one piece, and
`confirmPayment` puts 1306 in the order line. -/
theorem cart_applies_coefficient_twice :
    processOption undefined (num 6)
        (obj [("size", str "10 см"), ("price", num 1000), ("resin_ml", num 40)]) =
      obj [("size", str "10 см"), ("price", num 1143)] ∧
    handleAddToCart "2024-01-01T00:00:00.000Z" [("id", num 2)] sampleProduct
        (obj [("size", str "10 см"), ("price", num 1143)]) [] =
      [cartLine 3 "Ваза" "10 см" 1143 1] ∧
    calculateItemTotal [("price_coefficient", num 6)] (cartLine 3 "Ваза" "10 см" 1143 1) =
      some 1306 ∧
    validateItem [("price_coefficient", num 6)] (cartLine 3 "Ваза" "10 см" 1143 1) =
      .ok (obj [("id", num 3), ("name", str "Ваза"), ("quantity", num 1), ("price", num 1306),
        ("selectedSize", obj [("size", str "10 см"), ("price", num 1143)])]) := by
  have hlisted : scaledPrice (num 1000) (num 6) = some 1143 := by
    rw [scaledPrice_num, price_1000_six]
  have hcart : scaledPrice (num 1143) (num 6) = some 1306 := by
    rw [scaledPrice_num, price_1143_six]
  refine ⟨?_, rfl, ?_, ?_⟩
  · have e : processOption undefined (num 6)
        (obj [("size", str "10 см"), ("price", num 1000), ("resin_ml", num 40)]) =
        obj [("size", str "10 см"), ("price", ofNumber (scaledPrice (num 1000) (num 6)))] := rfl
    rw [e, hlisted]
    rfl
  · have e : calculateItemTotal [("price_coefficient", num 6)]
        (cartLine 3 "Ваза" "10 см" 1143 1) =
        Num.mul (scaledPrice (num 1143) (num 6)) (some 1) := rfl
    rw [e, hcart]
    simp [Num.mul]
  · have e : validateItem [("price_coefficient", num 6)] (cartLine 3 "Ваза" "10 см" 1143 1) =
        .ok (obj [("id", num 3), ("name", str "Ваза"), ("quantity", num 1),
          ("price", ofNumber (scaledPrice (num 1143) (num 6))),
          ("selectedSize", obj [("size", str "10 см"), ("price", num 1143)])]) := rfl
    rw [e, hcart]
    rfl

/-! ## Cart totals -/

theorem Line.describes_item (l : Line) : l.describes l.item := by
  obtain ⟨sizePrice, price, quantity⟩ := l
  cases sizePrice <;>
    simp [Line.describes, Line.item, Obj.get, JsVal.get, JsVal.isNullish]

theorem describes_items (lines : List Line) :
    List.Forall₂ (fun item l => Line.describes l item) (lines.map Line.item) lines := by
  induction lines with
  | nil => exact List.Forall₂.nil
  | cons l rest ih => exact List.Forall₂.cons l.describes_item ih

theorem sum_map_pair {α : Type} (f : α → ℚ) (a b : α) : ([a, b].map f).sum = f a + f b := by
  simp

theorem sum_map_single {α : Type} (f : α → ℚ) (a : α) : ([a].map f).sum = f a := by
  simp

theorem Line.base_sized (s p q : ℚ) (h : s ≠ 0) : Line.base ⟨some s, p, q⟩ = s := by
  simp [Line.base, h]

theorem Line.base_unsized (p q : ℚ) : Line.base ⟨some 0, p, q⟩ = p := by
  simp [Line.base]

theorem Line.base_plain (p q : ℚ) : Line.base ⟨none, p, q⟩ = p := rfl

theorem basePrice_line (l : Line) (item : Obj) (h : l.describes item) :
    basePrice item = num l.base := by
  obtain ⟨sizePrice, price, quantity⟩ := l
  obtain ⟨_, hprice, hsize⟩ := h
  simp only at hprice
  unfold basePrice
  rw [hprice]
  cases sizePrice with
  | none =>
    have hu : (item.get "selectedSize").get "price" = undefined := by
      simp only at hsize
      cases hs : item.get "selectedSize" <;> simp_all [JsVal.isNullish, JsVal.get]
    rw [hu]
    by_cases hp : price = 0 <;> simp [Line.base, JsVal.or, JsVal.truthy, hp]
  | some s =>
    simp only at hsize
    rw [hsize]
    by_cases hs : s = 0
    · by_cases hp : price = 0 <;> simp [Line.base, JsVal.or, JsVal.truthy, hs, hp]
    · simp [Line.base, JsVal.or, JsVal.truthy, hs]

theorem cartCoefficient_num (settings : Obj) (c : ℚ)
    (hc : settings.get "price_coefficient" = num c) :
    cartCoefficient settings = num (if c ≠ 0 then c else 5.25) := by
  unfold cartCoefficient
  rw [hc]
  by_cases h : c = 0 <;> simp [JsVal.or, JsVal.truthy, h]

theorem calculateItemTotal_line (settings : Obj) (c : ℚ) (l : Line) (item : Obj)
    (hc : settings.get "price_coefficient" = num c) (h : l.describes item) :
    calculateItemTotal settings item =
      some (Math.round (doubleMul (doubleDiv (double l.base) 5.25)
        (double (if c ≠ 0 then c else 5.25))) * l.quantity) := by
  unfold calculateItemTotal
  rw [basePrice_line l item h, cartCoefficient_num settings c hc, scaledPrice_num, h.1]
  rfl

theorem foldl_item_totals (settings : Obj) (c : ℚ) (cartItems : List Obj) (lines : List Line)
    (hc : settings.get "price_coefficient" = num c)
    (hlines : List.Forall₂ (fun item l => Line.describes l item) cartItems lines) (acc : ℚ) :
    cartItems.foldl (fun total item => Num.add total (calculateItemTotal settings item))
        (some acc) =
      some (acc + (lines.map (fun l =>
        Math.round (doubleMul (doubleDiv (double l.base) 5.25)
          (double (if c ≠ 0 then c else 5.25))) * l.quantity)).sum) := by
  induction hlines generalizing acc with
  | nil => simp
  | cons hl _ ih =>
    rw [List.foldl_cons, calculateItemTotal_line settings c _ _ hc hl]
    have e : ∀ x y : ℚ, Num.add (some x) (some y) = some (x + y) := fun _ _ => rfl
    rw [e, ih]
    simp [add_assoc]

/-- The subtotal of a cart of numeric lines. -/
theorem calculateSubtotal_lines (settings : Obj) (c : ℚ) (cartItems : List Obj)
    (lines : List Line) (hc : settings.get "price_coefficient" = num c)
    (hlines : List.Forall₂ (fun item l => Line.describes l item) cartItems lines) :
    calculateSubtotal settings cartItems =
      some ((lines.map (fun l =>
        Math.round (doubleMul (doubleDiv (double l.base) 5.25)
          (double (if c ≠ 0 then c else 5.25))) * l.quantity)).sum) := by
  unfold calculateSubtotal
  rw [foldl_item_totals settings c cartItems lines hc hlines 0, zero_add]

/-- Without discount rules the total is the subtotal, or 0 when the subtotal is
negative. -/
theorem calculateTotal_no_discount (settings : Obj) (cartItems : List Obj) (subtotal : ℚ)
    (h : calculateSubtotal settings cartItems = some subtotal) :
    calculateTotal settings cartItems [] = some (if 0 ≤ subtotal then subtotal else 0) := by
  unfold calculateTotal calculateDiscount
  rw [h]
  simp only [List.foldl_nil, toNumber, Num.min, Num.sub, Num.max]
  by_cases hs : 0 ≤ subtotal
  · simp [hs]
  · simp [hs]

/-- C4, as the code has it: for every cart whose lines have numeric prices and
quantities and every coefficient `c` in the settings, `calculateSubtotal` is the sum of
`Math.round((basePrice / 5.25) * c') * quantity`, where `c'` is `c`, or 5.25 when `c` is
0, `basePrice` is the selected size's price, or the item's price when no size is selected
or its price is 0, and the quotient and the product inside `Math.round` are rounded to
binary64 as JavaScript rounds them; with no discount rule `calculateTotal` is that sum
when the sum is not negative, and 0 otherwise. -/
theorem cart_totals (settings : Obj) (c : ℚ) (cartItems : List Obj) (lines : List Line)
    (hc : settings.get "price_coefficient" = num c)
    (hlines : List.Forall₂ (fun item l => Line.describes l item) cartItems lines) :
    calculateSubtotal settings cartItems =
      some ((lines.map (fun l =>
        Math.round (doubleMul (doubleDiv (double l.base) 5.25)
          (double (if c ≠ 0 then c else 5.25))) * l.quantity)).sum) ∧
    calculateTotal settings cartItems [] =
      some (if 0 ≤ (lines.map (fun l =>
          Math.round (doubleMul (doubleDiv (double l.base) 5.25)
            (double (if c ≠ 0 then c else 5.25))) * l.quantity)).sum
        then (lines.map (fun l =>
          Math.round (doubleMul (doubleDiv (double l.base) 5.25)
            (double (if c ≠ 0 then c else 5.25))) * l.quantity)).sum
        else 0) :=
  ⟨calculateSubtotal_lines settings c cartItems lines hc hlines,
   calculateTotal_no_discount settings _ _
    (calculateSubtotal_lines settings c cartItems lines hc hlines)⟩

/-- The lines 500 x 2 (a selected size) and 300 x 1 (no size) at coefficient 5.25
give subtotal and total 1300. -/
theorem cart_totals_witness :
    calculateSubtotal [("price_coefficient", num 5.25)]
      ([⟨some 500, 500, 2⟩, ⟨none, 300, 1⟩].map Line.item) = some 1300 ∧
    calculateTotal [("price_coefficient", num 5.25)]
      ([⟨some 500, 500, 2⟩, ⟨none, 300, 1⟩].map Line.item) [] = some 1300 := by
  have h := cart_totals [("price_coefficient", num 5.25)] 5.25
    ([⟨some 500, 500, 2⟩, ⟨none, 300, 1⟩].map Line.item)
    [⟨some 500, 500, 2⟩, ⟨none, 300, 1⟩] rfl (describes_items _)
  have e : (([⟨some 500, 500, 2⟩, ⟨none, 300, 1⟩] : List Line).map (fun l =>
      Math.round (doubleMul (doubleDiv (double l.base) 5.25)
        (double (if (5.25 : ℚ) ≠ 0 then 5.25 else 5.25))) * l.quantity)).sum =
      1300 := by
    rw [sum_map_pair, Line.base_sized _ _ _ (by norm_num), Line.base_plain, ite_self,
      price_500_reference, price_300_reference]
    norm_num
  rw [e, if_pos (by norm_num : (0 : ℚ) ≤ 1300)] at h
  exact h

/-- C4 fails as stated.  At coefficient -5.25 the line 500 x 1 has subtotal -500, as
the formula says, but `calculateTotal` without discounts is 0.  At coefficient 0 the
cart computes with 5.25: the subtotal is 500 where the formula gives 0.  A line whose
selected size has price 0 is charged the item's price 300 where the formula gives 0.
The line 25.5 x 1 at coefficient 5.25, and the line 51 x 1 at coefficient 2.625, are
charged 25, because the product is the binary64 number 25.499999999999996, where the
formula in exact arithmetic gives `round(25.5) = 26`. -/
theorem cart_total_differs_from_formula :
    (calculateSubtotal [("price_coefficient", num (-5.25))] [Line.item ⟨some 500, 500, 1⟩]
        = some (-500) ∧
      specOrderTotal (-5.25) [(Line.selected ⟨some 500, 500, 1⟩, 1)] = -500 ∧
      calculateTotal [("price_coefficient", num (-5.25))] [Line.item ⟨some 500, 500, 1⟩] []
        = some 0) ∧
    (calculateSubtotal [("price_coefficient", num 0)] [Line.item ⟨some 500, 500, 1⟩]
        = some 500 ∧
      specOrderTotal 0 [(Line.selected ⟨some 500, 500, 1⟩, 1)] = 0) ∧
    (calculateSubtotal [("price_coefficient", num 5.25)] [Line.item ⟨some 0, 300, 1⟩]
        = some 300 ∧
      specOrderTotal 5.25 [(Line.selected ⟨some 0, 300, 1⟩, 1)] = 0) ∧
    (calculateSubtotal [("price_coefficient", num 5.25)] [Line.item ⟨none, 25.5, 1⟩]
        = some 25 ∧
      specOrderTotal 5.25 [(Line.selected ⟨none, 25.5, 1⟩, 1)] = 26) ∧
    (calculateSubtotal [("price_coefficient", num 2.625)] [Line.item ⟨some 51, 51, 1⟩]
        = some 25 ∧
      specOrderTotal 2.625 [(Line.selected ⟨some 51, 51, 1⟩, 1)] = 26) := by
  have r1 : Math.round ((500 : ℚ) / 5.25 * (-5.25)) = -500 := by
    rw [Math.round_eq _ (-500) (by norm_num) (by norm_num)]; norm_num
  have r3 : Math.round ((500 : ℚ) / 5.25 * 0) = 0 := by
    rw [Math.round_eq _ 0 (by norm_num) (by norm_num)]; norm_num
  have r5 : Math.round ((0 : ℚ) / 5.25 * 5.25) = 0 := by
    rw [Math.round_eq _ 0 (by norm_num) (by norm_num)]; norm_num
  have r6 : Math.round ((25.5 : ℚ) / 5.25 * 5.25) = 26 := by
    rw [Math.round_eq _ 26 (by norm_num) (by norm_num)]; norm_num
  have r7 : Math.round ((51 : ℚ) / 5.25 * 2.625) = 26 := by
    rw [Math.round_eq _ 26 (by norm_num) (by norm_num)]; norm_num
  have s1 : calculateSubtotal [("price_coefficient", num (-5.25))]
      [Line.item ⟨some 500, 500, 1⟩] = some (-500) :=
    (calculateSubtotal_lines [("price_coefficient", num (-5.25))] (-5.25) _
      [⟨some 500, 500, 1⟩] rfl (describes_items [⟨some 500, 500, 1⟩])).trans (by
        rw [sum_map_single, Line.base_sized _ _ _ (by norm_num), if_pos (by norm_num),
          price_500_negative]
        norm_num)
  have s2 : calculateSubtotal [("price_coefficient", num 0)]
      [Line.item ⟨some 500, 500, 1⟩] = some 500 :=
    (calculateSubtotal_lines [("price_coefficient", num 0)] 0 _ [⟨some 500, 500, 1⟩] rfl
      (describes_items [⟨some 500, 500, 1⟩])).trans (by
        rw [sum_map_single, Line.base_sized _ _ _ (by norm_num), if_neg (by norm_num),
          price_500_reference]
        norm_num)
  have s3 : calculateSubtotal [("price_coefficient", num 5.25)]
      [Line.item ⟨some 0, 300, 1⟩] = some 300 :=
    (calculateSubtotal_lines [("price_coefficient", num 5.25)] 5.25 _
      [⟨some 0, 300, 1⟩] rfl (describes_items [⟨some 0, 300, 1⟩])).trans (by
        rw [sum_map_single, Line.base_unsized, ite_self, price_300_reference]
        norm_num)
  have s4 : calculateSubtotal [("price_coefficient", num 5.25)]
      [Line.item ⟨none, 25.5, 1⟩] = some 25 :=
    (calculateSubtotal_lines [("price_coefficient", num 5.25)] 5.25 _
      [⟨none, 25.5, 1⟩] rfl (describes_items [⟨none, 25.5, 1⟩])).trans (by
        rw [sum_map_single, Line.base_plain, ite_self, price_25_5_reference]
        norm_num)
  have s5 : calculateSubtotal [("price_coefficient", num 2.625)]
      [Line.item ⟨some 51, 51, 1⟩] = some 25 :=
    (calculateSubtotal_lines [("price_coefficient", num 2.625)] 2.625 _
      [⟨some 51, 51, 1⟩] rfl (describes_items [⟨some 51, 51, 1⟩])).trans (by
        rw [sum_map_single, Line.base_sized _ _ _ (by norm_num), if_pos (by norm_num),
          price_51_half]
        norm_num)
  refine ⟨⟨s1, ?_, ?_⟩, ⟨s2, ?_⟩, ⟨s3, ?_⟩, ⟨s4, ?_⟩, ⟨s5, ?_⟩⟩
  · simp only [specOrderTotal, Line.selected, List.map, List.sum_cons, List.sum_nil, r1]
    norm_num
  · rw [calculateTotal_no_discount _ _ _ s1, if_neg (by norm_num)]
  · simp only [specOrderTotal, Line.selected, List.map, List.sum_cons, List.sum_nil, r3]
    norm_num
  · simp only [specOrderTotal, Line.selected, List.map, List.sum_cons, List.sum_nil, r5]
    norm_num
  · simp only [specOrderTotal, Line.selected, List.map, List.sum_cons, List.sum_nil, r6]
    norm_num
  · simp only [specOrderTotal, Line.selected, List.map, List.sum_cons, List.sum_nil, r7]
    norm_num
/-! ## Frame: the stored total -/

/-- C10: every request other than an order update whose body contains `total_price`
- creating an order, updating an order's status, notes or executors, listing orders,
reading or updating the settings (the price coefficient included), listing the
catalog - leaves the stored `total_price` of every order as it was: the totals after
the request are the totals before it, followed by those of the orders it added. -/
theorem total_price_kept_by_other_requests (accepts : Db → Obj → Bool)
    (iLike : String → String → Bool) (db : Db) (request : Request)
    (hother : request.overridesTotal = false) :
    ∃ added : List JsVal,
      (handle accepts iLike db request).2.orders.map (fun order => order.get "total_price") =
        db.orders.map (fun order => order.get "total_price") ++ added := by
  cases request with
  | createOrder body =>
    simp only [handle, postOrders, Order.create]
    by_cases hacc : accepts db (createValues body) = true
    · simp only [hacc, if_true]
      split
      · exact ⟨[], by simp⟩
      · exact ⟨_, List.map_append _ _ _⟩
    · simp only [hacc]
      split
      · exact ⟨[], by simp⟩
      · exact ⟨[], by simp⟩
  | updateOrder id body =>
    refine ⟨[], ?_⟩
    simp only [handle, List.append_nil]
    exact putOrder_keeps accepts db id body "total_price" (by decide)
      (by simpa [Request.overridesTotal] using hother)
  | listOrders q => exact ⟨[], by simp [handle]⟩
  | getSettings =>
    refine ⟨[], ?_⟩
    simp only [handle, getSettings, Settings.create, List.append_nil]
    split <;> rfl
  | updateSettings body =>
    refine ⟨[], ?_⟩
    simp only [handle, putSettings, Settings.create, List.append_nil]
    split
    · split <;> rfl
    · rfl
  | listProducts q => exact ⟨[], by simp [handle]⟩

/-- Changing the price coefficient to 6 leaves the total 1300 of the stored order. -/
theorem total_price_kept_by_other_requests_witness :
    ∃ added : List JsVal,
      (handle acceptAll (fun _ _ => true) (sampleDb "готово")
        (.updateSettings (obj [("price_coefficient", num 6)]))).2.orders.map
          (fun order => order.get "total_price") =
        (sampleDb "готово").orders.map (fun order => order.get "total_price") ++ added :=
  total_price_kept_by_other_requests acceptAll (fun _ _ => true) (sampleDb "готово")
    (.updateSettings (obj [("price_coefficient", num 6)])) rfl

/-! ## Decimal text and JSON lists of numbers -/

theorem digitChar_spec : ∀ d, d < 10 →
    (Nat.digitChar d).isDigit = true ∧ digitVal (Nat.digitChar d) = d ∧
    (Nat.digitChar d = '0' → d = 0) := by
  decide

theorem natDigits_acc (fuel n : Nat) (acc : List Char) :
    natDigits fuel n acc = natDigits fuel n [] ++ acc := by
  induction fuel generalizing n acc with
  | zero => simp [natDigits]
  | succ fuel ih =>
    unfold natDigits
    split
    · simp
    · rw [ih (n / 10) (Nat.digitChar (n % 10) :: acc), ih (n / 10) [Nat.digitChar (n % 10)]]
      simp

/-- The shape of the decimal text of `n`: a leading digit, which is zero only for
the text `0`, followed by digits; reading it back gives `n`. -/
theorem natDigits_spec (fuel n : Nat) (h : n < fuel) :
    ∃ d rest, natDigits fuel n [] = Nat.digitChar d :: rest ∧ d < 10 ∧
      (d = 0 → n = 0 ∧ rest = []) ∧
      (∀ c ∈ Nat.digitChar d :: rest, c.isDigit = true) ∧
      (Nat.digitChar d :: rest).foldl (fun a c => a * 10 + digitVal c) 0 = n := by
  induction fuel generalizing n with
  | zero => omega
  | succ fuel ih =>
    unfold natDigits
    by_cases h10 : n < 10
    · simp only [h10, if_true]
      refine ⟨n, [], rfl, h10, fun h0 => ⟨h0, rfl⟩, ?_, ?_⟩
      · intro c hc
        rw [List.mem_singleton] at hc
        rw [hc]
        exact (digitChar_spec n h10).1
      · simp [(digitChar_spec n h10).2.1]
    · simp only [h10, if_false]
      rw [natDigits_acc]
      obtain ⟨d, rest, hd, hlt, hz, hall, hval⟩ := ih (n / 10) (by omega)
      have hmod : n % 10 < 10 := Nat.mod_lt _ (by norm_num)
      refine ⟨d, rest ++ [Nat.digitChar (n % 10)], by rw [hd]; rfl, hlt, ?_, ?_, ?_⟩
      · intro h0
        have := (hz h0).1
        omega
      · intro c hc
        rw [← List.cons_append, List.mem_append, List.mem_singleton] at hc
        rcases hc with hc | hc
        · exact hall c hc
        · rw [hc]; exact (digitChar_spec _ hmod).1
      · rw [← List.cons_append, List.foldl_append, hval]
        simp only [List.foldl_cons, List.foldl_nil, (digitChar_spec _ hmod).2.1]
        omega

theorem readDigits_append (ds rest : List Char) (acc k : Nat)
    (hds : ∀ c ∈ ds, c.isDigit = true) :
    readDigits (ds ++ rest) acc k =
      readDigits rest (ds.foldl (fun a c => a * 10 + digitVal c) acc) (k + ds.length) := by
  induction ds generalizing acc k with
  | nil => simp
  | cons c cs ih =>
    rw [List.cons_append, readDigits, if_pos (hds c (List.mem_cons_self _ _)),
      ih _ _ (fun x hx => hds x (List.mem_cons_of_mem _ hx)), List.foldl_cons, List.length_cons]
    congr 1
    omega

theorem sep_spec (c : Char) (h : c = ',' ∨ c = ']') :
    c.isDigit = false ∧ c ≠ '.' ∧ c ≠ 'e' ∧ c ≠ 'E' ∧ isWs c = false := by
  rcases h with rfl | rfl <;> decide

theorem digit_spec (c : Char) (h : c.isDigit = true) :
    c ≠ '-' ∧ c ≠ '[' ∧ c ≠ ']' ∧ c ≠ lbrace ∧ c ≠ dquote ∧ c ≠ 'n' ∧ c ≠ 't' ∧ c ≠ 'f' ∧
    isWs c = false := by
  have hv : 48 ≤ c.val ∧ c.val ≤ 57 := by
    simpa [Char.isDigit] using h
  refine ⟨?_, ?_, ?_, ?_, ?_, ?_, ?_, ?_, ?_⟩ <;>
    first
    | (rintro rfl; revert hv; decide)
    | (simp only [isWs, Bool.or_eq_false_iff, decide_eq_false_iff_not]
       refine ⟨⟨⟨?_, ?_⟩, ?_⟩, ?_⟩ <;> (rintro rfl; revert hv; decide))

theorem natToChars_spec (n : Nat) :
    ∃ d rest, natToChars n = Nat.digitChar d :: rest ∧ d < 10 ∧
      (d = 0 → n = 0 ∧ rest = []) ∧
      (∀ c ∈ Nat.digitChar d :: rest, c.isDigit = true) ∧
      (Nat.digitChar d :: rest).foldl (fun a c => a * 10 + digitVal c) 0 = n :=
  natDigits_spec (n + 1) n (Nat.lt_succ_self n)

/-- Reading the decimal text of `n`, followed by a separator, gives `n`. -/
theorem readJsonNumber_nat (n : Nat) (c : Char) (r : List Char) (hc : c = ',' ∨ c = ']') :
    readJsonNumber (natToChars n ++ c :: r) = some ((n : ℚ), c :: r) := by
  obtain ⟨d, rest, hd, hlt, hz, hall, hval⟩ := natToChars_spec n
  obtain ⟨hcd, hdot, he, hE, _⟩ := sep_spec c hc
  have hdig := hall _ (List.mem_cons_self _ _)
  have hread : readDigits (natToChars n ++ c :: r) 0 0 = (n, (natToChars n).length, c :: r) := by
    rw [hd, readDigits_append _ _ _ _ hall, hval, readDigits, if_neg (by simp [hcd])]
    simp
  have hminus : readJsonNumber (natToChars n ++ c :: r) =
      readUnsigned true (natToChars n ++ c :: r) := by
    rw [hd]
    unfold readJsonNumber
    split
    · rename_i heq
      simp only [List.cons_append, List.cons.injEq] at heq
      exact absurd heq.1 (digit_spec _ hdig).1
    · rfl
  rw [hminus]
  unfold readUnsigned
  rw [hread]
  have hlen : (natToChars n).length = rest.length + 1 := by rw [hd]; simp
  have hstrict : (true && (decide ((natToChars n).length = 0) ||
      (decide ((natToChars n).length > 1) &&
        decide ((natToChars n ++ c :: r).head? = some '0')))) = false := by
    rw [hd]
    simp only [Bool.true_and, List.cons_append, List.head?_cons, List.length_cons,
      Bool.or_eq_false_iff, decide_eq_false_iff_not, Bool.and_eq_false_iff]
    refine ⟨by omega, ?_⟩
    by_cases h0 : d = 0
    · left
      rw [(hz h0).2]
      simp
    · right
      intro h
      exact h0 ((digitChar_spec d hlt).2.2 (Option.some.inj h))
  have hexp : readExponent (c :: r) = (none, c :: r) := by
    unfold readExponent
    simp [he, hE]
  split
  rename_i i ki rest' h
  simp only [Prod.mk.injEq] at h
  obtain ⟨rfl, rfl, rfl⟩ := h
  rw [if_neg (by rw [hstrict]; simp)]
  split
  · rename_i heq
    simp only [List.cons.injEq] at heq
    exact absurd heq.1 hdot
  · simp [hlen, hexp, scale10]

theorem skipWs_cons (c : Char) (cs : List Char) (h : isWs c = false) :
    skipWs (c :: cs) = c :: cs := by
  simp [skipWs, h]

/-- Reading one value from the decimal text of `n` followed by a separator. -/
theorem readValue_nat (fuel n : Nat) (c : Char) (r : List Char) (hc : c = ',' ∨ c = ']') :
    readValue (fuel + 1) (natToChars n ++ c :: r) = some (num (n : ℚ), c :: r) := by
  obtain ⟨d, rest, hd, hlt, hz, hall, hval⟩ := natToChars_spec n
  have hdig := hall _ (List.mem_cons_self _ _)
  obtain ⟨_, h1, _, h2, h3, h4, h5, h6, hws⟩ := digit_spec _ hdig
  have hnum := readJsonNumber_nat n c r hc
  rw [hd] at hnum ⊢
  rw [List.cons_append] at hnum ⊢
  rw [readValue, skipWs_cons _ _ hws]
  simp only [h1, h2, h3, h4, h5, h6, if_false, hnum, Option.map_some']

/-- The texts of a list of numbers, joined by commas and closed by a bracket, read
back as that list. -/
theorem readElems_nats (ids : List Nat) (n : Nat) (fuel : Nat) (r : List Char)
    (hfuel : ids.length + 2 ≤ fuel) :
    readElems fuel (joinComma (natToChars n :: ids.map natToChars) ++ ']' :: r) =
      some (num (n : ℚ) :: ids.map (fun i : Nat => num (i : ℚ)), r) := by
  induction ids generalizing n fuel with
  | nil =>
    obtain ⟨f, rfl⟩ : ∃ f, fuel = f + 2 := ⟨fuel - 2, by simp at hfuel; omega⟩
    simp only [List.map_nil, joinComma]
    rw [readElems, readValue_nat f n ']' r (Or.inr rfl)]
    simp [skipWs, isWs]
  | cons i rest ih =>
    obtain ⟨f, rfl⟩ : ∃ f, fuel = f + 2 := ⟨fuel - 2, by simp at hfuel; omega⟩
    have hf : rest.length + 2 ≤ f + 1 := by simp at hfuel; omega
    simp only [List.map_cons, joinComma]
    rw [List.append_assoc, List.cons_append]
    rw [readElems, readValue_nat f n ',' _ (Or.inl rfl)]
    have := ih i (f + 1) hf
    simp only [List.map_cons, joinComma] at this
    simp [skipWs, isWs, this]

theorem numToChars_nat (n : Nat) : numToChars (n : ℚ) = natToChars n := by
  unfold numToChars
  have h : ¬ ((n : ℚ) < 0) := by
    have : (0 : ℚ) ≤ n := Nat.cast_nonneg n
    linarith
  simp [h]

theorem jsonElems_nats (ids : List Nat) :
    jsonElems (ids.map (fun i : Nat => num (i : ℚ))) = ids.map natToChars := by
  induction ids with
  | nil => rfl
  | cons i rest ih => simp [jsonElems, jsonChars, numToChars_nat, ih]

theorem joinComma_length (x : List Char) (xs : List (List Char)) :
    x.length + xs.length ≤ (joinComma (x :: xs)).length := by
  induction xs generalizing x with
  | nil => simp [joinComma]
  | cons y ys ih =>
    have := ih y
    simp only [joinComma, List.length_append, List.length_cons] at this ⊢
    omega

theorem natToChars_length (n : Nat) : 1 ≤ (natToChars n).length := by
  obtain ⟨d, rest, hd, _⟩ := natToChars_spec n
  rw [hd]; simp

/-- The JSON text of a list of natural numbers parses back to that list. -/
theorem parseJson_nats (ids : List Nat) :
    parseJson (jsonChars (arr (ids.map (fun i : Nat => num (i : ℚ))))) =
      some (arr (ids.map (fun i : Nat => num (i : ℚ)))) := by
  cases ids with
  | nil => rfl
  | cons n rest =>
    have hchars : jsonChars (arr ((n :: rest).map (fun i : Nat => num (i : ℚ)))) =
        '[' :: (joinComma (natToChars n :: rest.map natToChars) ++ [ ']']) := by
      rw [jsonChars, jsonElems_nats]
      rfl
    rw [hchars]
    obtain ⟨d, tail, hd, _, _, hall, _⟩ := natToChars_spec n
    have hdig := hall _ (List.mem_cons_self _ _)
    obtain ⟨_, _, hclose, _, _, _, _, _, hws⟩ := digit_spec _ hdig
    have hlen := joinComma_length (natToChars n) (rest.map natToChars)
    have hlen1 := natToChars_length n
    have hread := readElems_nats rest n
      ('[' :: (joinComma (natToChars n :: rest.map natToChars) ++ [ ']'])).length []
      (by simp only [List.length_cons, List.length_append, List.length_map] at hlen ⊢
          simp only [List.length_nil]
          omega)
    have hbody : ∃ body, joinComma (natToChars n :: rest.map natToChars) ++ [ ']'] =
        Nat.digitChar d :: body := by
      cases hr : rest.map natToChars with
      | nil => exact ⟨tail ++ [ ']'], by simp [joinComma, hd]⟩
      | cons y ys => exact ⟨tail ++ ',' :: joinComma (y :: ys) ++ [ ']'], by simp [joinComma, hd]⟩
    obtain ⟨body, hb⟩ := hbody
    rw [hb] at hread ⊢
    have hval : readValue (('[' :: Nat.digitChar d :: body).length + 1)
        ('[' :: Nat.digitChar d :: body) =
        some (arr (num (n : ℚ) :: rest.map (fun i : Nat => num (i : ℚ))), []) := by
      rw [readValue, skipWs_cons _ _ (by decide : isWs '[' = false)]
      simp only [eq_self_iff_true, if_true, skipWs_cons _ _ hws]
      split
      · rename_i r heq
        simp only [List.cons.injEq] at heq
        exact absurd heq.1 hclose
      · rw [hread]
        rfl
    unfold parseJson
    rw [hval]
    simp [skipWs]

theorem parse_stringify_nats (ids : List Nat) :
    JSON.parse (JSON.stringify (arr (ids.map (fun i : Nat => num (i : ℚ))))) =
      some (arr (ids.map (fun i : Nat => num (i : ℚ)))) := by
  unfold JSON.parse JSON.stringify
  simp only [toStringChars]
  exact parseJson_nats ids

theorem stringify_nats_truthy (ids : List Nat) :
    (JSON.stringify (arr (ids.map (fun i : Nat => num (i : ℚ))))).truthy = true ∧
    (JSON.stringify (arr (ids.map (fun i : Nat => num (i : ℚ))))).isString = true ∧
    (JSON.stringify (arr (ids.map (fun i : Nat => num (i : ℚ))))).isUndefined = false := by
  refine ⟨?_, rfl, rfl⟩
  simp only [JSON.stringify, JsVal.truthy, jsonChars, decide_eq_true_eq]
  intro h
  have := congrArg String.data h
  simp at this

/-! ## Executor assignment read back -/

theorem idIs_iff (row : Obj) (id : Nat) : idIs row id = true ↔ row.get "id" = num (id : ℚ) := by
  unfold idIs
  cases h : row.get "id" <;> simp

theorem Obj.get_append_single (o : Obj) (k k' : String) (v : JsVal) (h : k ≠ k') :
    Obj.get (o ++ [(k', v)]) k = Obj.get o k := by
  induction o with
  | nil => simp [Obj.get, Ne.symm h]
  | cons kv rest ih =>
    obtain ⟨k'', v''⟩ := kv
    by_cases h2 : k'' = k
    · simp [Obj.get, h2]
    · simp only [List.cons_append, Obj.get, h2, if_false]
      exact ih

theorem parseColumn_get_other (o : Obj) (k k' : String) (h : k' ≠ k) :
    (parseColumn o k).get k' = o.get k' := by
  unfold parseColumn
  split
  · split <;> exact Obj.get_set_other _ _ _ _ h
  · rfl

theorem parseColumn_get_parsed (o : Obj) (k : String) (v : JsVal)
    (ht : (o.get k).truthy = true) (hp : JSON.parse (o.get k) = some v) :
    (parseColumn o k).get k = v := by
  unfold parseColumn
  rw [if_pos ht, hp]
  exact Obj.get_set_same _ _ _

theorem processOrder_id (db : Db) (order : Obj) :
    (processOrder db order).get "id" = order.get "id" := by
  unfold processOrder
  simp only [JsVal.get]
  rw [parseColumn_get_other _ _ _ (by decide), parseColumn_get_other _ _ _ (by decide),
    Obj.get_append_single _ _ _ _ (by decide)]

theorem processOrder_executors (db : Db) (order : Obj) (v : JsVal)
    (ht : (order.get "assigned_executors").truthy = true)
    (hp : JSON.parse (order.get "assigned_executors") = some v) :
    (processOrder db order).get "assigned_executors" = v := by
  unfold processOrder
  simp only [JsVal.get]
  have h : Obj.get (parseColumn (order ++ [("User", includeUser db order)]) "products")
      "assigned_executors" = order.get "assigned_executors" := by
    rw [parseColumn_get_other _ _ _ (by decide), Obj.get_append_single _ _ _ _ (by decide)]
  exact parseColumn_get_parsed _ _ _ (by rw [h]; exact ht) (by rw [h]; exact hp)

theorem JsVal.get_set_eq (b : JsVal) (k : String) (v : JsVal)
    (h : (b.get k).isUndefined = false) : (b.set k v).get k = v := by
  cases b with
  | obj kvs => exact Obj.get_set_same _ _ _
  | _ => simp [JsVal.get, JsVal.isUndefined] at h

/-- Whether the list or its JSON text is sent, the handler writes the JSON text. -/
theorem putOrderData_executors (body : JsVal) (ids : List Nat)
    (hbody : body.get "assigned_executors" = arr (ids.map (fun i : Nat => num (i : ℚ))) ∨
      body.get "assigned_executors" = JSON.stringify (arr (ids.map (fun i : Nat => num (i : ℚ))))) :
    (putOrderData body).get "assigned_executors" =
      JSON.stringify (arr (ids.map (fun i : Nat => num (i : ℚ)))) := by
  unfold putOrderData
  rcases hbody with h | h
  · rw [h]
    simp only [JsVal.truthy, JsVal.isString, Bool.not_false, Bool.and_self, if_true]
    exact JsVal.get_set_eq _ _ _ (by rw [h]; rfl)
  · rw [h, (stringify_nats_truthy ids).2.1]
    simp [h]

theorem filterRows_all (test : Obj → Option Bool) (rows : List Obj)
    (h : ∀ r ∈ rows, test r = some true) : filterRows test rows = some rows := by
  induction rows with
  | nil => rfl
  | cons r rs ih =>
    rw [filterRows, h r (List.mem_cons_self _ _), ih (fun x hx => h x (List.mem_cons_of_mem _ hx))]
    rfl

theorem orderMatches_admin (row : Obj) : orderMatches [("admin", "true")] row = some true := by
  rfl

/-- After the update, every stored row with the addressed id holds the JSON text. -/
theorem putOrder_executors_stored (accepts : Db → Obj → Bool) (db : Db) (id : Nat)
    (body : JsVal) (ids : List Nat)
    (hbody : body.get "assigned_executors" = arr (ids.map (fun i : Nat => num (i : ℚ))) ∨
      body.get "assigned_executors" = JSON.stringify (arr (ids.map (fun i : Nat => num (i : ℚ)))))
    (hwrite : accepts db (spread (putOrderData body)) = true) :
    ∀ r ∈ (putOrder accepts db id body).2.orders, r.get "id" = num (id : ℚ) →
      r.get "assigned_executors" =
        JSON.stringify (arr (ids.map (fun i : Nat => num (i : ℚ)))) := by
  intro r hr hid
  rw [(putOrder_accepted accepts db id body hwrite).1, List.mem_map] at hr
  obtain ⟨r0, _, rfl⟩ := hr
  by_cases h0 : idIs r0 id = true
  · simp only [h0, if_true]
    rw [updateRow_get _ _ _ (by simp [orderAttributes]), putOrderData_executors body ids hbody]
    simp [(stringify_nats_truthy ids).2.2]
  · simp only [h0] at hid
    exact absurd ((idIs_iff _ _).mpr (by simpa using hid)) h0

/-- C9: for every stored order and every list `ids` of executor ids, after an
accepted update whose body carries `assigned_executors` as that list or as its JSON
text (the form `OrderView.assignExecutors` sends), every order list that contains an
entry with the addressed id returns it with `assigned_executors` equal to `ids`,
whatever was stored before; the administrator's unfiltered list does contain it. -/
theorem assigned_executors_round_trip (accepts : Db → Obj → Bool) (db : Db) (id : Nat)
    (body : JsVal) (ids : List Nat)
    (hbody : body.get "assigned_executors" = arr (ids.map (fun i : Nat => num (i : ℚ))) ∨
      body.get "assigned_executors" = JSON.stringify (arr (ids.map (fun i : Nat => num (i : ℚ)))))
    (hkeepId : (body.get "id").isUndefined = true)
    (hwrite : accepts db (spread (putOrderData body)) = true)
    (hstored : ∃ r ∈ db.orders, idIs r id = true) :
    (putOrder accepts db id body).1.status = 200 ∧
    (∀ (q : Query) (entries : List JsVal),
      getOrders (putOrder accepts db id body).2 q = ⟨200, arr entries⟩ →
      ∀ e ∈ entries, e.get "id" = num (id : ℚ) →
        e.get "assigned_executors" = arr (ids.map (fun i : Nat => num (i : ℚ)))) ∧
    ∃ entries : List JsVal,
      getOrders (putOrder accepts db id body).2 [("admin", "true")] = ⟨200, arr entries⟩ ∧
      ∃ e ∈ entries, e.get "id" = num (id : ℚ) := by
  refine ⟨(putOrder_accepted accepts db id body hwrite).2.1 hstored, ?_, ?_⟩
  · intro q entries hlist e he hid
    unfold getOrders at hlist
    cases hf : filterRows (orderMatches q) (putOrder accepts db id body).2.orders with
    | none => simp [hf] at hlist
    | some rows =>
      simp only [hf, Response.mk.injEq, JsVal.arr.injEq, true_and] at hlist
      subst hlist
      rw [List.mem_map] at he
      obtain ⟨r, hmem, rfl⟩ := he
      have hr := filterRows_mem _ _ _ hf r (List.mem_reverse.mp hmem)
      rw [processOrder_id] at hid
      have hst := putOrder_executors_stored accepts db id body ids hbody hwrite r hr hid
      exact processOrder_executors _ _ _ (by rw [hst]; exact (stringify_nats_truthy ids).1)
        (by rw [hst]; exact parse_stringify_nats ids)
  · obtain ⟨r, hr, hid⟩ := hstored
    refine ⟨(putOrder accepts db id body).2.orders.reverse.map
      (processOrder (putOrder accepts db id body).2), ?_, ?_⟩
    · unfold getOrders
      rw [filterRows_all _ _ (fun r _ => orderMatches_admin r)]
    · refine ⟨processOrder (putOrder accepts db id body).2 (updateRow (putOrderData body) r),
        ?_, ?_⟩
      · rw [List.mem_map]
        refine ⟨_, ?_, rfl⟩
        rw [List.mem_reverse, (putOrder_accepted accepts db id body hwrite).1, List.mem_map]
        exact ⟨r, hr, by simp [hid]⟩
      · rw [processOrder_id, updateRow_get_unset _ _ _
          (by rw [putOrderData_get _ _ (by decide)]; exact hkeepId)]
        exact (idIs_iff _ _).mp hid

/-- The administrator assigns the executors 7 and 9 to order 1 of the sample store. -/
theorem assigned_executors_round_trip_witness :
    (putOrder acceptAll (sampleDb "создан заказ") 1
      (assignExecutorsBody [("id", num 1)] (arr [num 7, num 9]))).1.status = 200 ∧
    (∀ (q : Query) (entries : List JsVal),
      getOrders (putOrder acceptAll (sampleDb "создан заказ") 1
        (assignExecutorsBody [("id", num 1)] (arr [num 7, num 9]))).2 q = ⟨200, arr entries⟩ →
      ∀ e ∈ entries, e.get "id" = num ((1 : Nat) : ℚ) →
        e.get "assigned_executors" = arr ([7, 9].map (fun i : Nat => num (i : ℚ)))) ∧
    ∃ entries : List JsVal,
      getOrders (putOrder acceptAll (sampleDb "создан заказ") 1
        (assignExecutorsBody [("id", num 1)] (arr [num 7, num 9]))).2 [("admin", "true")] =
        ⟨200, arr entries⟩ ∧
      ∃ e ∈ entries, e.get "id" = num ((1 : Nat) : ℚ) :=
  assigned_executors_round_trip acceptAll (sampleDb "создан заказ") 1
    (assignExecutorsBody [("id", num 1)] (arr [num 7, num 9])) [7, 9] (Or.inr rfl) rfl rfl
    ⟨sampleOrder 1 "создан заказ", List.mem_singleton.mpr rfl, rfl⟩

/-! ## Unknown orders and callers -/

/-- An update that matches no row leaves the table as it was. -/
theorem Order.update_none (db : Db) (values : JsVal) (id : Nat)
    (hnone : ∀ r ∈ db.orders, idIs r id = false) :
    Order.update db values id = (0, db) := by
  unfold Order.update
  have hlen : (db.orders.filter (fun r => idIs r id)).length = 0 := by
    rw [List.length_eq_zero, List.filter_eq_nil_iff]
    intro r hr; simp [hnone r hr]
  have hmap : db.orders.map (fun r => if idIs r id then updateRow values r else r) =
      db.orders := by
    conv_rhs => rw [← List.map_id db.orders]
    apply List.map_congr_left
    intro r hr
    simp [hnone r hr]
  rw [hlen, hmap]

/-- C11: an update request whose id matches no stored order is answered 404
"Заказ не найден" (the datastore accepting the statement), and whatever the datastore
does with the statement the store is left exactly as it was. -/
theorem putOrder_unknown_id (accepts : Db → Obj → Bool) (db : Db) (id : Nat) (body : JsVal)
    (hnone : ∀ r ∈ db.orders, idIs r id = false)
    (hwrite : accepts db (spread (putOrderData body)) = true) :
    (putOrder accepts db id body).1 = ⟨404, obj [("error", str "Заказ не найден")]⟩ ∧
    ∀ accepts' : Db → Obj → Bool, (putOrder accepts' db id body).2 = db := by
  constructor
  · simp [putOrder, hwrite, Order.update_none db _ id hnone]
  · intro accepts'
    by_cases h : accepts' db (spread (putOrderData body)) = true
    · simp [putOrder, h, Order.update_none db _ id hnone]
    · simp [putOrder, h]

/-- C11 on the sample store: order 7 does not exist. -/
theorem putOrder_unknown_id_witness :
    (putOrder acceptAll (sampleDb "готово") 7 (obj [("status", str "отменен")])).1 =
      ⟨404, obj [("error", str "Заказ не найден")]⟩ ∧
    ∀ accepts' : Db → Obj → Bool,
      (putOrder accepts' (sampleDb "готово") 7 (obj [("status", str "отменен")])).2 =
        sampleDb "готово" :=
  putOrder_unknown_id acceptAll (sampleDb "готово") 7 (obj [("status", str "отменен")])
    (by intro r hr; rw [List.mem_singleton.mp hr]; rfl) rfl

/-- The update handler answers 200, 404 or 500. -/
theorem putOrder_status_codes (accepts : Db → Obj → Bool) (db : Db) (id : Nat) (body : JsVal) :
    (putOrder accepts db id body).1.status = 200 ∨ (putOrder accepts db id body).1.status = 404 ∨
    (putOrder accepts db id body).1.status = 500 := by
  by_cases h : accepts db (spread (putOrderData body)) = true
  · by_cases h0 : (db.orders.filter (fun r => idIs r id)).length = 0
    · right; left
      simp [putOrder, h, Order.update, h0]
    · left
      simp [putOrder, h, Order.update, h0]
  · right; right
    simp [putOrder, h]

/-- C12 fails as stated: the update handler does not look at the caller.  A request that
names the buyer (user 2) as `admin_id` is answered 200 and the status of order 1 is
changed. -/
theorem putOrder_serves_any_caller :
    (putOrder acceptAll (sampleDb "создан заказ") 1
      (obj [("status", str "готово"), ("admin_id", num 2)])).1.status = 200 ∧
    (putOrder acceptAll (sampleDb "создан заказ") 1
      (obj [("status", str "готово"), ("admin_id", num 2)])).2.orders =
      [sampleOrder 1 "готово"] :=
  ⟨rfl, rfl⟩

/-- C12, as the code has it: the privilege check is in the client.  For a current user
whose id is not the number 1, `OrderView.updateOrderStatus` shows a message and sends no
request, so no stored order changes; the handler itself never answers 403. -/
theorem updateOrderStatus_gate (currentUser : Obj) (orderId newStatus : JsVal)
    (hother : strictEq (currentUser.get "id") (num 1) = false) :
    (∃ message, updateOrderStatus currentUser orderId newStatus = StatusUpdate.alert message) ∧
    ∀ (accepts : Db → Obj → Bool) (db : Db) (id : Nat) (body : JsVal),
      (putOrder accepts db id body).1.status ≠ 403 := by
  constructor
  · unfold updateOrderStatus
    split
    · exact ⟨_, rfl⟩
    · rw [hother]
      simp
  · intro accepts db id body
    rcases putOrder_status_codes accepts db id body with h | h | h <;> rw [h] <;> decide

/-- C12 as amended, for the buyer (user 2) and order 1. -/
theorem updateOrderStatus_gate_witness :
    (∃ message, updateOrderStatus [("id", num 2), ("role", str "buyer")] (num 1) (str "готово") =
      StatusUpdate.alert message) ∧
    ∀ (accepts : Db → Obj → Bool) (db : Db) (id : Nat) (body : JsVal),
      (putOrder accepts db id body).1.status ≠ 403 :=
  updateOrderStatus_gate [("id", num 2), ("role", str "buyer")] (num 1) (str "готово") rfl

/-! ## Repeating an update -/

/-- A property that has just been written is an own property. -/
theorem Obj.has_set_same (o : Obj) (k : String) (v : JsVal) : Obj.has (Obj.set o k v) k = true := by
  induction o with
  | nil => simp [Obj.set, Obj.has]
  | cons kv rest ih =>
    obtain ⟨k', v'⟩ := kv
    by_cases h : k' = k
    · simp [Obj.set, Obj.has, h]
    · simp [Obj.set, Obj.has, h, ih]

/-- Writing one property does not add or remove another. -/
theorem Obj.has_set_other (o : Obj) (k k' : String) (v : JsVal) (h : k' ≠ k) :
    Obj.has (Obj.set o k v) k' = Obj.has o k' := by
  induction o with
  | nil => simp [Obj.set, Obj.has, Ne.symm h]
  | cons kv rest ih =>
    obtain ⟨k'', v''⟩ := kv
    by_cases h2 : k'' = k
    · subst h2
      simp [Obj.set, Obj.has, Ne.symm h]
    · by_cases h3 : k'' = k'
      · subst h3
        simp [Obj.set, Obj.has, h2]
      · simp [Obj.set, Obj.has, h2, h3, ih]

/-- Writing the value a property already has changes nothing. -/
theorem Obj.set_same_value (o : Obj) (k : String) (v : JsVal)
    (hhas : Obj.has o k = true) (hget : o.get k = v) : Obj.set o k v = o := by
  induction o with
  | nil => simp [Obj.has] at hhas
  | cons kv rest ih =>
    obtain ⟨k', v'⟩ := kv
    by_cases h : k' = k
    · subst h
      simp only [Obj.get, if_true] at hget
      simp [Obj.set, hget]
    · simp only [Obj.has, h, if_false] at hhas
      simp only [Obj.get, h, if_false] at hget
      simp [Obj.set, h, ih hhas hget]

/-- After an update, every attribute the values define is an own property of the row. -/
theorem foldl_update_has (values : JsVal) (attrs : List String) (row : Obj) (a : String)
    (ha : a ∈ attrs) (hdef : (values.get a).isUndefined = false) :
    Obj.has (attrs.foldl
      (fun r a' => if (values.get a').isUndefined then r else Obj.set r a' (values.get a'))
      row) a = true := by
  induction attrs generalizing row with
  | nil => simp at ha
  | cons a' rest ih =>
    rw [List.foldl_cons]
    by_cases hr : a ∈ rest
    · exact ih _ hr
    · have hea : a = a' := by
        rcases List.mem_cons.mp ha with h | h
        · exact h
        · exact absurd h hr
      subst hea
      have hkeep : ∀ (rest : List String) (row : Obj), Obj.has row a = true →
          Obj.has (rest.foldl
            (fun r a' => if (values.get a').isUndefined then r else Obj.set r a' (values.get a'))
            row) a = true := by
        intro rest
        induction rest with
        | nil => intro row h; exact h
        | cons b bs ihb =>
          intro row h
          rw [List.foldl_cons]
          apply ihb
          split
          · exact h
          · by_cases hb : a = b
            · subst hb; exact Obj.has_set_same _ _ _
            · rw [Obj.has_set_other _ _ _ _ hb]; exact h
      apply hkeep
      simp only [hdef, Bool.false_eq_true, if_false]
      exact Obj.has_set_same _ _ _

/-- Updating a row twice with the same values is updating it once. -/
theorem updateRow_idem (values : JsVal) (row : Obj) :
    updateRow values (updateRow values row) = updateRow values row := by
  have key : ∀ attrs : List String, (∀ a ∈ attrs, a ∈ orderAttributes) →
      attrs.foldl
        (fun r a' => if (values.get a').isUndefined then r else Obj.set r a' (values.get a'))
        (updateRow values row) = updateRow values row := by
    intro attrs
    induction attrs with
    | nil => intro _; rfl
    | cons a rest ih =>
      intro hsub
      rw [List.foldl_cons]
      have hstep : (if (values.get a).isUndefined = true then updateRow values row
          else Obj.set (updateRow values row) a (values.get a)) = updateRow values row := by
        by_cases hu : (values.get a).isUndefined = true
        · simp [hu]
        · have hu' : (values.get a).isUndefined = false := by simpa using hu
          simp only [hu', Bool.false_eq_true, if_false]
          apply Obj.set_same_value
          · exact foldl_update_has values orderAttributes row a
              (hsub a (List.mem_cons_self _ _)) hu'
          · rw [updateRow_get _ _ _ (hsub a (List.mem_cons_self _ _))]
            simp [hu']
      rw [hstep]
      exact ih (fun b hb => hsub b (List.mem_cons_of_mem _ hb))
  exact key orderAttributes (fun a ha => ha)

/-- An update that does not write `id` keeps the row's id. -/
theorem idIs_updateRow (values : JsVal) (row : Obj) (id : Nat)
    (hid : (values.get "id").isUndefined = true) :
    idIs (updateRow values row) id = idIs row id := by
  unfold idIs
  rw [updateRow_get_unset _ _ _ hid]

/-- The store after an accepted update. -/
theorem putOrder_db (accepts : Db → Obj → Bool) (db : Db) (id : Nat) (body : JsVal)
    (hwrite : accepts db (spread (putOrderData body)) = true) :
    (putOrder accepts db id body).2 =
      { db with orders :=
          db.orders.map (fun r => if idIs r id then updateRow (putOrderData body) r else r) } := by
  by_cases h0 : (db.orders.filter (fun r => idIs r id)).length = 0
  · simp [putOrder, hwrite, Order.update, h0]
  · simp [putOrder, hwrite, Order.update, h0]

/-- C13, at the failing input: `PUT /api/orders/1` with the body `{id: 5}`, sent twice.
The handler passes the whole body to `Order.update`, and `id` is an attribute of the
order: the first call renumbers order 1 to 5 and answers 200, so the same request finds
no order 1 the second time and is answered 404.  (The sibling handler
`PUT /api/users/:id` deletes `id` from the body before it updates.) -/
theorem putOrder_twice_changes_id :
    (putOrder acceptAll (sampleDb "создан заказ") 1 (obj [("id", num 5)])).1.status = 200 ∧
    (putOrder acceptAll (sampleDb "создан заказ") 1 (obj [("id", num 5)])).2.orders =
      [sampleOrder 5 "создан заказ"] ∧
    (putOrder acceptAll
      (putOrder acceptAll (sampleDb "создан заказ") 1 (obj [("id", num 5)])).2 1
      (obj [("id", num 5)])).1.status = 404 :=
  ⟨rfl, rfl, rfl⟩

/-- For an existing order and a body without an `id` property (the datastore accepting
the statement both times), the update answers 200 on the first and on the second call,
and every attribute of `orderAttributes` has the same values in the orders after the
second call as after the first.  The time stamps are not among these attributes:
`updated_date` is rewritten by the datastore on every update. -/
theorem putOrder_repeat_attributes (accepts : Db → Obj → Bool) (db : Db) (id : Nat)
    (body : JsVal)
    (hkeepId : (body.get "id").isUndefined = true)
    (hstored : ∃ r ∈ db.orders, idIs r id = true)
    (hwrite : accepts db (spread (putOrderData body)) = true)
    (hagain : accepts (putOrder accepts db id body).2 (spread (putOrderData body)) = true) :
    (putOrder accepts db id body).1.status = 200 ∧
    (putOrder accepts (putOrder accepts db id body).2 id body).1.status = 200 ∧
    ∀ a ∈ orderAttributes,
      (putOrder accepts (putOrder accepts db id body).2 id body).2.orders.map
          (fun r => r.get a) =
        (putOrder accepts db id body).2.orders.map (fun r => r.get a) := by
  have hid : (putOrderData body).get "id" = body.get "id" := putOrderData_get _ _ (by decide)
  have hidu : ((putOrderData body).get "id").isUndefined = true := by rw [hid]; exact hkeepId
  have hsame : (putOrder accepts (putOrder accepts db id body).2 id body).2 =
      (putOrder accepts db id body).2 := by
    rw [putOrder_db accepts _ id body hagain]
    rw [putOrder_db accepts db id body hwrite]
    simp only [List.map_map]
    congr 1
    apply List.map_congr_left
    intro r _
    simp only [Function.comp]
    by_cases hr : idIs r id = true
    · simp only [hr, if_true, idIs_updateRow _ _ _ hidu, updateRow_idem]
    · simp only [hr, if_false]
      simp [hr]
  refine ⟨(putOrder_accepted accepts db id body hwrite).2.1 hstored, ?_, ?_⟩
  · apply (putOrder_accepted accepts _ id body hagain).2.1
    obtain ⟨r, hr, hrid⟩ := hstored
    refine ⟨updateRow (putOrderData body) r, ?_, ?_⟩
    · rw [(putOrder_accepted accepts db id body hwrite).1, List.mem_map]
      exact ⟨r, hr, by simp [hrid]⟩
    · rw [idIs_updateRow _ _ _ hidu]; exact hrid
  · intro a _
    rw [hsame]

/-! ## Whose orders a list shows -/

/-- What a filter keeps: exactly the rows whose test succeeds with `true`. -/
theorem filterRows_iff (test : Obj → Option Bool) (rows kept : List Obj)
    (h : filterRows test rows = some kept) (r : Obj) :
    r ∈ kept ↔ r ∈ rows ∧ test r = some true := by
  induction rows generalizing kept with
  | nil =>
    simp [filterRows] at h
    subst h
    simp
  | cons x xs ih =>
    unfold filterRows at h
    cases ht : test x with
    | none => simp [ht] at h
    | some keep =>
      cases hf : filterRows test xs with
      | none => simp [ht, hf] at h
      | some rest =>
        simp only [ht, hf, Option.some.injEq] at h
        subst h
        have ih' := ih rest hf
        cases keep with
        | true =>
          simp only [if_true, List.mem_cons, ih']
          constructor
          · rintro (rfl | ⟨hm, htr⟩)
            · exact ⟨Or.inl rfl, ht⟩
            · exact ⟨Or.inr hm, htr⟩
          · rintro ⟨rfl | hm, htr⟩
            · exact Or.inl rfl
            · exact Or.inr ⟨hm, htr⟩
        | false =>
          simp only [Bool.false_eq_true, if_false, List.mem_cons, ih']
          constructor
          · rintro ⟨hm, htr⟩
            exact ⟨Or.inr hm, htr⟩
          · rintro ⟨rfl | hm, htr⟩
            · rw [ht] at htr; simp at htr
            · exact ⟨hm, htr⟩

/-- A filter whose test never fails gives a result. -/
theorem filterRows_total (test : Obj → Option Bool) (rows : List Obj)
    (h : ∀ r ∈ rows, ∃ b, test r = some b) : ∃ kept, filterRows test rows = some kept := by
  induction rows with
  | nil => exact ⟨[], rfl⟩
  | cons x xs ih =>
    obtain ⟨b, hb⟩ := h x (List.mem_cons_self _ _)
    obtain ⟨rest, hrest⟩ := ih (fun r hr => h r (List.mem_cons_of_mem _ hr))
    exact ⟨if b then x :: rest else rest, by rw [filterRows, hb, hrest]⟩

/-- An entry of the order list carries the row's `user_id`. -/
theorem processOrder_user_id (db : Db) (order : Obj) :
    (processOrder db order).get "user_id" = order.get "user_id" := by
  unfold processOrder
  simp only [JsVal.get]
  rw [parseColumn_get_other _ _ _ (by decide), parseColumn_get_other _ _ _ (by decide),
    Obj.get_append_single _ _ _ _ (by decide)]

/-- Two integer columns compare equal exactly when the second holds the first's number. -/
theorem numEq_iff (v : JsVal) (q : ℚ) : numEq v (num q) = true ↔ v = num q := by
  cases v <;> simp [numEq]

/-- The `where` clause of a request that names the user `u` and has no `admin`
parameter: it selects only rows of `u`, it selects every row of `u` that passes the
search and the status test, and it is evaluated whenever the search text is absent,
empty or an integer. -/
theorem orderMatches_user (q : Query) (s : String) (u : Int) (row : Obj)
    (hadmin : q.lookup "admin" = none) (huser : q.lookup "user_id" = some s)
    (hu : pgInteger s = some u) :
    (orderMatches q row = some true → row.get "user_id" = num (u : ℚ)) ∧
    (row.get "user_id" = num (u : ℚ) →
      ((q.get "search").truthy = false ∨
        ∃ t n, q.lookup "search" = some t ∧ pgInteger t = some n ∧
          row.get "id" = num ((n : Int) : ℚ)) →
      ((q.get "status").truthy = false ∨ row.get "status" = q.get "status") →
      orderMatches q row = some true) ∧
    (((q.get "search").truthy = false ∨
        ∃ t n, q.lookup "search" = some t ∧ pgInteger t = some n) →
      ∃ b, orderMatches q row = some b) := by
  have hs : s ≠ "" := by
    rintro rfl
    have h0 : pgInteger "" = none := by decide
    rw [h0] at hu
    exact absurd hu (by simp)
  have hA : (q.get "admin").truthy = false := by simp [Query.get, hadmin, JsVal.truthy]
  have hU : (q.get "user_id").truthy = true := by simp [Query.get, huser, JsVal.truthy, hs]
  have hstat : strictEq (q.get "status") (q.get "status") = true := by
    unfold Query.get
    cases List.lookup "status" q <;> simp [strictEq]
  have hst : ((q.get "status").truthy = false ∨ row.get "status" = q.get "status") →
      (if (q.get "status").truthy = true then strictEq (row.get "status") (q.get "status")
        else true) = true := by
    rintro (h | h)
    · simp [h]
    · rw [h, hstat]; simp
  unfold orderMatches
  simp only [hA, hU, huser, hu, Bool.not_false, Bool.and_self, if_true, Option.map_some',
    Option.some_bind, Option.pure_def, Option.bind_eq_bind]
  generalize (if (q.get "status").truthy = true then strictEq (row.get "status") (q.get "status")
        else true) = st at hst ⊢
  have hfalse : (some (numEq (row.get "user_id") (num (u : ℚ)) && true && st) = some true →
        row.get "user_id" = num (u : ℚ)) ∧
      (row.get "user_id" = num (u : ℚ) →
        ((q.get "status").truthy = false ∨ row.get "status" = q.get "status") →
        some (numEq (row.get "user_id") (num (u : ℚ)) && true && st) = some true) := by
    simp only [Option.some.injEq, Bool.and_eq_true, numEq_iff]
    exact ⟨fun h => h.1.1, fun h1 h3 => ⟨⟨h1, trivial⟩, hst h3⟩⟩
  cases hq : List.lookup "search" q with
  | none =>
    have hS : (q.get "search").truthy = false := by simp [Query.get, hq, JsVal.truthy]
    simp only [hS, Bool.false_eq_true, if_false]
    exact ⟨hfalse.1, fun h1 _ h3 => hfalse.2 h1 h3, fun _ => ⟨_, rfl⟩⟩
  | some t =>
    by_cases ht : t = ""
    · have hS : (q.get "search").truthy = false := by simp [Query.get, hq, JsVal.truthy, ht]
      simp only [hS, Bool.false_eq_true, if_false]
      exact ⟨hfalse.1, fun h1 _ h3 => hfalse.2 h1 h3, fun _ => ⟨_, rfl⟩⟩
    · have hS : (q.get "search").truthy = true := by simp [Query.get, hq, JsVal.truthy, ht]
      simp only [hS, if_true]
      cases hp : pgInteger t with
      | none => simp [hS, hp]
      | some n =>
        simp only [Option.some_bind, Option.map_some', Option.some.injEq, Bool.and_eq_true,
          numEq_iff]
        refine ⟨fun h => h.1.1, ?_, fun _ => ⟨_, rfl⟩⟩
        intro h1 h2 h3
        refine ⟨⟨h1, ?_⟩, hst h3⟩
        rcases h2 with h | ⟨t', n', ht', hn', hid⟩
        · exact absurd h (by decide)
        · subst ht'
          rw [hp] at hn'
          have hn2 : n = n' := Option.some.inj hn'
          subst hn2
          exact hid

/-- C14: for a request to list orders that has no `admin` parameter and names the user
`u` in `user_id`, every answer is a list whose entries all have `user_id = u`, and it
contains the entry of every stored order of `u` that has the searched id (when a search
is given) and the requested status (when one is given).  The answer is such a list
whenever the search text is absent, empty or an integer. -/
theorem getOrders_own_orders (db : Db) (q : Query) (s : String) (u : Int)
    (hadmin : q.lookup "admin" = none) (huser : q.lookup "user_id" = some s)
    (hu : pgInteger s = some u) :
    (((q.get "search").truthy = false ∨
        ∃ t n, q.lookup "search" = some t ∧ pgInteger t = some n) →
      ∃ entries, getOrders db q = ⟨200, arr entries⟩) ∧
    ∀ entries, getOrders db q = ⟨200, arr entries⟩ →
      (∀ e ∈ entries, e.get "user_id" = num (u : ℚ)) ∧
      ∀ r ∈ db.orders, r.get "user_id" = num (u : ℚ) →
        ((q.get "search").truthy = false ∨
          ∃ t n, q.lookup "search" = some t ∧ pgInteger t = some n ∧
            r.get "id" = num ((n : Int) : ℚ)) →
        ((q.get "status").truthy = false ∨ r.get "status" = q.get "status") →
        processOrder db r ∈ entries := by
  have hm := fun row => orderMatches_user q s u row hadmin huser hu
  constructor
  · intro hsearch
    obtain ⟨kept, hkept⟩ := filterRows_total (orderMatches q) db.orders
      (fun r _ => (hm r).2.2 hsearch)
    exact ⟨_, by unfold getOrders; rw [hkept]⟩
  · intro entries hlist
    unfold getOrders at hlist
    cases hf : filterRows (orderMatches q) db.orders with
    | none => simp [hf] at hlist
    | some rows =>
      simp only [hf, Response.mk.injEq, JsVal.arr.injEq, true_and] at hlist
      subst hlist
      constructor
      · intro e he
        rw [List.mem_map] at he
        obtain ⟨r, hmem, rfl⟩ := he
        rw [processOrder_user_id]
        exact (hm r).1 ((filterRows_iff _ _ _ hf r).mp (List.mem_reverse.mp hmem)).2
      · intro r hr huid hsearch hstatus
        rw [List.mem_map]
        exact ⟨r, List.mem_reverse.mpr
          ((filterRows_iff _ _ _ hf r).mpr ⟨hr, (hm r).2.1 huid hsearch hstatus⟩), rfl⟩

/-- C14 on the sample store: the buyer (user 2) asks for their orders and gets order 1. -/
theorem getOrders_own_orders_witness :
    (((Query.get [("user_id", "2"), ("role", "buyer")] "search").truthy = false ∨
        ∃ t n, List.lookup "search" [("user_id", "2"), ("role", "buyer")] = some t ∧
          pgInteger t = some n) →
      ∃ entries, getOrders (sampleDb "создан заказ") [("user_id", "2"), ("role", "buyer")] =
        ⟨200, arr entries⟩) ∧
    ∀ entries, getOrders (sampleDb "создан заказ") [("user_id", "2"), ("role", "buyer")] =
        ⟨200, arr entries⟩ →
      (∀ e ∈ entries, e.get "user_id" = num ((2 : Int) : ℚ)) ∧
      ∀ r ∈ (sampleDb "создан заказ").orders, r.get "user_id" = num ((2 : Int) : ℚ) →
        ((Query.get [("user_id", "2"), ("role", "buyer")] "search").truthy = false ∨
          ∃ t n, List.lookup "search" [("user_id", "2"), ("role", "buyer")] = some t ∧
            pgInteger t = some n ∧ r.get "id" = num ((n : Int) : ℚ)) →
        ((Query.get [("user_id", "2"), ("role", "buyer")] "status").truthy = false ∨
          r.get "status" = Query.get [("user_id", "2"), ("role", "buyer")] "status") →
        processOrder (sampleDb "создан заказ") r ∈ entries :=
  getOrders_own_orders (sampleDb "создан заказ") [("user_id", "2"), ("role", "buyer")] "2" 2
    rfl rfl (by decide)

/-! ## The executor's order list -/

/-- C15, at the failing input: executor 7 asks for the orders assigned to them, as
`OrderView.loadOrders` does (`executor_id=7`).  The handler does not read `executor_id`:
the answer holds order 1, which is assigned to executor 9 only. -/
theorem getOrders_ignores_executor_id :
    (putOrder acceptAll (sampleDb "создан заказ") 1
      (assignExecutorsBody [("id", num 1)] (arr [num 9]))).2.orders =
      [[("id", num 1), ("user_id", num 2), ("products", str "[]"), ("total_price", num 1300),
        ("status", str "принят к исполнению"), ("notes", str ""), ("admin_notes", null),
        ("assigned_executors", str "[9]")]] ∧
    getOrders (putOrder acceptAll (sampleDb "создан заказ") 1
        (assignExecutorsBody [("id", num 1)] (arr [num 9]))).2 [("executor_id", "7")] =
      ⟨200, arr [obj [("id", num 1), ("user_id", num 2), ("products", arr []),
        ("total_price", num 1300), ("status", str "принят к исполнению"), ("notes", str ""),
        ("admin_notes", null), ("assigned_executors", arr [num 9]),
        ("User", obj [("id", num 2), ("username", str "buyer")])]]⟩ :=
  ⟨rfl, rfl⟩

/-! ## The material quantity in the listings -/

/-- A deleted property is not an own property. -/
theorem Obj.has_delete_same (o : Obj) (k : String) : Obj.has (Obj.delete o k) k = false := by
  induction o with
  | nil => rfl
  | cons kv rest ih =>
    obtain ⟨k', v'⟩ := kv
    unfold Obj.delete at ih ⊢
    by_cases h : k' = k
    · subst h
      simp only [List.filter, ne_eq, not_true_eq_false, decide_False]
      exact ih
    · simp only [List.filter, ne_eq, h, not_false_eq_true, decide_True, Obj.has, if_false]
      exact ih

/-- The decimal text of a number is not the name `resin_ml`. -/
theorem natToChars_ne_resin_ml (n : Nat) : String.mk (natToChars n) ≠ "resin_ml" := by
  obtain ⟨d, rest, hd, _, _, hall, _⟩ := natToChars_spec n
  intro h
  have hl : natToChars n = "resin_ml".data := congrArg String.data h
  rw [hd] at hl
  have hr : ('r' : Char).isDigit = true := by
    apply hall
    rw [hl]
    decide
  exact absurd hr (by decide)

/-- An object whose property names are decimal numbers has no `resin_ml`. -/
theorem Obj.get_indexed {α : Type} (l : List (Nat × α)) (f : Nat × α → JsVal) :
    Obj.get (l.map (fun p => (String.mk (natToChars p.1), f p))) "resin_ml" = undefined := by
  induction l with
  | nil => rfl
  | cons p rest ih =>
    simp only [List.map_cons, Obj.get, natToChars_ne_resin_ml p.1, if_false]
    exact ih

/-- The copy `{ ...option }` has the `resin_ml` of the option. -/
theorem spread_get_resin_ml (option : JsVal) :
    Obj.get (spread option) "resin_ml" = option.get "resin_ml" := by
  cases option with
  | obj kvs => rfl
  | arr xs => exact Obj.get_indexed _ _
  | str s => exact Obj.get_indexed _ _
  | _ => rfl

/-- A processed option is an object; for a caller whose `admin` parameter is not the
text `true` it has no own property `resin_ml`. -/
theorem processOption_strips (admin coefficient option : JsVal)
    (hadmin : admin.isStr "true" = false) :
    ∃ kvs, processOption admin coefficient option = obj kvs ∧ Obj.has kvs "resin_ml" = false := by
  unfold processOption
  simp only [hadmin, Bool.not_false, if_true]
  split
  · exact ⟨_, rfl, by rw [Obj.has_set_other _ _ _ _ (by decide)]; exact Obj.has_delete_same _ _⟩
  · exact ⟨_, rfl, Obj.has_delete_same _ _⟩

/-- With `admin=true` a processed option has the `resin_ml` of the stored option. -/
theorem processOption_keeps (admin coefficient option : JsVal)
    (hadmin : admin.isStr "true" = true) :
    (processOption admin coefficient option).get "resin_ml" = option.get "resin_ml" := by
  unfold processOption
  simp only [hadmin, Bool.not_true, Bool.false_eq_true, if_false]
  split
  · simp only [JsVal.get]
    rw [Obj.get_set_other _ _ _ _ (by decide)]
    exact spread_get_resin_ml option
  · exact spread_get_resin_ml option

/-- The `price_options` of a listed product: the processed options of the stored JSON
list, or no option at all. -/
theorem processProduct_price_options (admin coefficient : JsVal) (product : Obj) :
    ∃ stored : List JsVal,
      (processProduct admin coefficient product).get "price_options" =
        arr (stored.map (processOption admin coefficient)) ∧
      ∀ s : List JsVal, (product.get "price_options").truthy = true →
        JSON.parse (product.get "price_options") = some (arr s) → stored = s := by
  have hget : ∀ (o : Obj) (v : JsVal), Obj.get o "price_options" = v →
      (if (Obj.get o "additional_images").truthy = true then
        match JSON.parse (Obj.get o "additional_images") with
        | some w => Obj.set o "additional_images" w
        | none => Obj.set o "additional_images" (arr [])
      else Obj.set o "additional_images" (arr [])).get "price_options" = v := by
    intro o v hv
    split
    · split <;> rw [Obj.get_set_other _ _ _ _ (by decide)] <;> exact hv
    · rw [Obj.get_set_other _ _ _ _ (by decide)]; exact hv
  by_cases ht : (product.get "price_options").truthy = true
  · cases hp : JSON.parse (product.get "price_options") with
    | none =>
      refine ⟨[], ?_, fun s _ h => by simp at h⟩
      unfold processProduct
      apply hget
      simp only [ht, if_true, hp]
      exact Obj.get_set_same _ _ _
    | some v =>
      cases v with
      | arr xs =>
        refine ⟨xs, ?_, fun s _ h => by
          simp only [Option.some.injEq, JsVal.arr.injEq] at h
          exact h⟩
        unfold processProduct
        apply hget
        simp only [ht, if_true, hp]
        exact Obj.get_set_same _ _ _
      | _ =>
        refine ⟨[], ?_, fun s _ h => by simp at h⟩
        unfold processProduct
        apply hget
        simp only [ht, if_true, hp]
        exact Obj.get_set_same _ _ _
  · refine ⟨[], ?_, fun s h _ => absurd h ht⟩
    unfold processProduct
    apply hget
    simp only [ht, if_false]
    exact Obj.get_set_same _ _ _

/-- C16: in every catalog listing `GET /api/products` whose `admin` parameter is not
exactly the text `true`, the `price_options` of every entry is a list of objects none of
which has a property `resin_ml`; with `admin=true`, every entry comes from a stored
product, and when that product's `price_options` column holds a JSON list the entry's
options carry, position by position, the `resin_ml` of the stored options. -/
theorem getProducts_strips_resin_ml (iLike : String → String → Bool) (db : Db) (q : Query)
    (entries : List JsVal) (hlist : getProducts iLike db q = ⟨200, arr entries⟩) :
    ((q.get "admin").isStr "true" = false →
      ∀ e ∈ entries, ∃ options, e.get "price_options" = arr options ∧
        ∀ o ∈ options, ∃ kvs, o = obj kvs ∧ Obj.has kvs "resin_ml" = false) ∧
    ((q.get "admin").isStr "true" = true →
      ∀ e ∈ entries, ∃ product ∈ db.products,
        e = obj (processProduct (q.get "admin") (currentCoefficient db) product) ∧
        ∀ stored : List JsVal, (product.get "price_options").truthy = true →
          JSON.parse (product.get "price_options") = some (arr stored) →
          ∃ options, e.get "price_options" = arr options ∧
            List.Forall₂ (fun o s => o.get "resin_ml" = s.get "resin_ml") options stored) := by
  unfold getProducts at hlist
  cases hf : filterRows (productMatches iLike q) db.products with
  | none => simp [hf] at hlist
  | some rows =>
    simp only [hf, Response.mk.injEq, JsVal.arr.injEq, true_and] at hlist
    subst hlist
    constructor
    · intro hadmin e he
      rw [List.mem_map] at he
      obtain ⟨product, _, rfl⟩ := he
      obtain ⟨stored, hopts, _⟩ :=
        processProduct_price_options (q.get "admin") (currentCoefficient db) product
      refine ⟨_, hopts, ?_⟩
      intro o ho
      rw [List.mem_map] at ho
      obtain ⟨s, _, rfl⟩ := ho
      exact processOption_strips _ _ _ hadmin
    · intro hadmin e he
      rw [List.mem_map] at he
      obtain ⟨product, hmem, rfl⟩ := he
      refine ⟨product, filterRows_mem _ _ _ hf product (List.mem_reverse.mp hmem), ?_, ?_⟩
      · rfl
      · intro stored ht hp
        obtain ⟨stored', hopts, hsame⟩ :=
          processProduct_price_options (q.get "admin") (currentCoefficient db) product
        have hs := hsame stored ht hp
        subst hs
        refine ⟨_, hopts, ?_⟩
        rw [List.forall₂_map_left_iff]
        exact List.forall₂_same.mpr (fun s _ => processOption_keeps _ _ _ hadmin)

/-- C16 on the sample catalog, listed for a buyer. -/
theorem getProducts_strips_resin_ml_witness :
    ((Query.get [] "admin").isStr "true" = false →
      ∀ e ∈ [obj (processProduct undefined (num 6) sampleProduct)],
        ∃ options, e.get "price_options" = arr options ∧
          ∀ o ∈ options, ∃ kvs, o = obj kvs ∧ Obj.has kvs "resin_ml" = false) ∧
    ((Query.get [] "admin").isStr "true" = true →
      ∀ e ∈ [obj (processProduct undefined (num 6) sampleProduct)],
        ∃ product ∈ (catalogDb 6).products,
          e = obj (processProduct (Query.get [] "admin") (currentCoefficient (catalogDb 6))
            product) ∧
          ∀ stored : List JsVal, (product.get "price_options").truthy = true →
            JSON.parse (product.get "price_options") = some (arr stored) →
            ∃ options, e.get "price_options" = arr options ∧
              List.Forall₂ (fun o s => o.get "resin_ml" = s.get "resin_ml") options stored) :=
  getProducts_strips_resin_ml (fun _ _ => true) (catalogDb 6) []
    [obj (processProduct undefined (num 6) sampleProduct)] rfl

/-! ## The favorites listing -/

/-- C17, at the failing input: user 2 has favorited product 3, whose stored option has
base price 1000 and `resin_ml` 40, and the coefficient is 6.  The catalog listing returns
the option with price 1143 and without `resin_ml`; the favorites listing returns the
stored option, with price 1000 and with `resin_ml`. -/
theorem getFavorites_returns_stored_options :
    getProducts (fun _ _ => true) (favoritesDb 6) [] =
      ⟨200, arr [obj [("id", num 3), ("name", str "Ваза"), ("description", null),
        ("main_image", null), ("additional_images", arr []),
        ("price_options", arr [obj [("size", str "10 см"), ("price", num 1143)]]),
        ("is_visible", JsVal.bool true)]]⟩ ∧
    getFavorites (favoritesDb 6) "2" =
      ⟨200, arr [obj [("id", num 3), ("name", str "Ваза"), ("description", null),
        ("main_image", null), ("additional_images", arr []),
        ("price_options",
          arr [obj [("size", str "10 см"), ("price", num 1000), ("resin_ml", num 40)]]),
        ("is_visible", JsVal.bool true)]]⟩ := by
  have hlisted : scaledPrice (num 1000) (num 6) = some 1143 := by
    rw [scaledPrice_num, price_1000_six]
  refine ⟨?_, rfl⟩
  have e : getProducts (fun _ _ => true) (favoritesDb 6) [] =
      ⟨200, arr [obj [("id", num 3), ("name", str "Ваза"), ("description", null),
        ("main_image", null), ("additional_images", arr []),
        ("price_options", arr [obj [("size", str "10 см"),
          ("price", ofNumber (scaledPrice (num 1000) (num 6)))]]),
        ("is_visible", JsVal.bool true)]]⟩ := rfl
  rw [e, hlisted]
  rfl

/-! ## The discount of the cart -/

/-- The rule object built from a rule is described by it. -/
theorem Rule.describes_discount (r : Rule) : r.describes r.discount := ⟨rfl, rfl⟩

/-- The rule objects built from a list of rules are described by it. -/
theorem describes_discounts (rules : List Rule) :
    List.Forall₂ (fun d r => Rule.describes r d) (rules.map Rule.discount) rules := by
  induction rules with
  | nil => exact List.Forall₂.nil
  | cons r rest ih => exact List.Forall₂.cons r.describes_discount ih

/-- The running sum of `calculateDiscount` over rules with numeric values. -/
theorem foldl_discounts (s : ℚ) (discounts : List Obj) (rules : List Rule)
    (hrules : List.Forall₂ (fun d r => Rule.describes r d) discounts rules) (a : ℚ) :
    discounts.foldl
      (fun total discount =>
        if (discount.get "type").isStr "percentage" then
          jsPlus total
            (ofNumber (Num.mul (some s) ((toNumber (discount.get "value")).map (fun v => v / 100))))
        else if (discount.get "type").isStr "fixed" then jsPlus total (discount.get "value")
        else total)
      (num a) = num (a + ruleSum s rules) := by
  induction hrules generalizing a with
  | nil => simp [ruleSum]
  | @cons d r ds rs hd _ ih =>
    obtain ⟨htype, hvalue⟩ := hd
    have hsum : ruleSum s (r :: rs) = Rule.amount s r + ruleSum s rs := by
      simp [ruleSum]
    have hhead : (if (d.get "type").isStr "percentage" = true then
          jsPlus (num a)
            (ofNumber (Num.mul (some s) ((toNumber (d.get "value")).map (fun v => v / 100))))
        else if (d.get "type").isStr "fixed" = true then jsPlus (num a) (d.get "value")
        else num a) = num (a + Rule.amount s r) := by
      rw [htype, hvalue]
      by_cases hp : r.type = "percentage"
      · simp [JsVal.isStr, hp, jsPlus, toNumber, Num.mul, Num.add, ofNumber, Rule.amount]
      · by_cases hf : r.type = "fixed"
        · simp [JsVal.isStr, hf, jsPlus, toNumber, Num.add, ofNumber, Rule.amount]
        · simp [JsVal.isStr, hp, hf, Rule.amount]
    simp only [List.foldl_cons, hhead]
    rw [ih, hsum, add_assoc]

/-- The discount of a cart with subtotal `s` under rules with numeric values: the sum of
the rules' amounts, or `s` when the sum is larger. -/
theorem calculateDiscount_rules (settings : Obj) (cartItems discounts : List Obj)
    (rules : List Rule) (s : ℚ) (hsub : calculateSubtotal settings cartItems = some s)
    (hrules : List.Forall₂ (fun d r => Rule.describes r d) discounts rules) :
    calculateDiscount settings cartItems discounts =
      some (if ruleSum s rules ≤ s then ruleSum s rules else s) := by
  unfold calculateDiscount
  simp only [hsub]
  rw [foldl_discounts s discounts rules hrules 0]
  simp [toNumber, Num.min]

/-- The sample cart: 500 x 2 (a selected size) and 300 x 1 at coefficient 5.25. -/
theorem sampleCart_subtotal :
    calculateSubtotal [("price_coefficient", num 5.25)]
      ([⟨some 500, 500, 2⟩, ⟨none, 300, 1⟩].map Line.item) = some 1300 := by
  rw [calculateSubtotal_lines [("price_coefficient", num 5.25)] 5.25 _
    [⟨some 500, 500, 2⟩, ⟨none, 300, 1⟩] rfl (describes_items _)]
  rw [sum_map_pair, Line.base_sized _ _ _ (by norm_num), Line.base_plain, ite_self,
    price_500_reference, price_300_reference]
  norm_num

/-- With a subtotal that is not negative, a larger value of one percentage rule gives a
larger sum. -/
theorem ruleSum_mono (s : ℚ) (hs : 0 ≤ s) (before after : List Rule) (v w : ℚ) (hv : v ≤ w) :
    ruleSum s (before ++ ⟨"percentage", v⟩ :: after) ≤
      ruleSum s (before ++ ⟨"percentage", w⟩ :: after) := by
  simp only [ruleSum, List.map_append, List.map_cons, List.sum_append, List.sum_cons,
    Rule.amount, if_true]
  have h : s * (v / 100) ≤ s * (w / 100) :=
    mul_le_mul_of_nonneg_left (div_le_div_of_nonneg_right hv (by norm_num)) hs
  linarith

/-- Rules with values that are not negative add up to a sum that is not negative. -/
theorem ruleSum_nonneg (s : ℚ) (hs : 0 ≤ s) (rules : List Rule)
    (hvalues : ∀ r ∈ rules, 0 ≤ r.value) : 0 ≤ ruleSum s rules := by
  unfold ruleSum
  apply List.sum_nonneg
  intro x hx
  rw [List.mem_map] at hx
  obtain ⟨r, hr, rfl⟩ := hx
  unfold Rule.amount
  split
  · exact mul_nonneg hs (div_nonneg (hvalues r hr) (by norm_num))
  · split
    · exact hvalues r hr
    · exact le_refl 0

/-- C18: for every cart with a numeric subtotal and every list of applicable discount
rules with numeric values, `Cart.calculateDiscount` returns a number, and it does not
exceed the subtotal. -/
theorem calculateDiscount_le_subtotal (settings : Obj) (cartItems discounts : List Obj)
    (rules : List Rule) (s : ℚ) (hsub : calculateSubtotal settings cartItems = some s)
    (hrules : List.Forall₂ (fun d r => Rule.describes r d) discounts rules) :
    ∃ d, calculateDiscount settings cartItems discounts = some d ∧ d ≤ s := by
  refine ⟨_, calculateDiscount_rules settings cartItems discounts rules s hsub hrules, ?_⟩
  split
  · assumption
  · exact le_refl s

/-- C18 on the sample cart (subtotal 1300) with a rule of 10 % and a fixed rule of 2000. -/
theorem calculateDiscount_le_subtotal_witness :
    ∃ d, calculateDiscount [("price_coefficient", num 5.25)]
        ([⟨some 500, 500, 2⟩, ⟨none, 300, 1⟩].map Line.item)
        ([⟨"percentage", 10⟩, ⟨"fixed", 2000⟩].map Rule.discount) = some d ∧ d ≤ 1300 :=
  calculateDiscount_le_subtotal _ _ _ _ _ sampleCart_subtotal
    (describes_discounts [⟨"percentage", 10⟩, ⟨"fixed", 2000⟩])

/-- C19 fails as stated: there is no lower bound in `calculateDiscount`.  On the sample
cart (subtotal 1300) the fixed rule of value -50 gives the discount -50, where the clamp
into `[0, 1300]` gives 0; the total to pay becomes 1350. -/
theorem calculateDiscount_negative :
    calculateSubtotal [("price_coefficient", num 5.25)]
      ([⟨some 500, 500, 2⟩, ⟨none, 300, 1⟩].map Line.item) = some 1300 ∧
    calculateDiscount [("price_coefficient", num 5.25)]
      ([⟨some 500, 500, 2⟩, ⟨none, 300, 1⟩].map Line.item)
      [Rule.discount ⟨"fixed", -50⟩] = some (-50) ∧
    clamp (ruleSum 1300 [⟨"fixed", -50⟩]) 1300 = 0 ∧
    calculateTotal [("price_coefficient", num 5.25)]
      ([⟨some 500, 500, 2⟩, ⟨none, 300, 1⟩].map Line.item)
      [Rule.discount ⟨"fixed", -50⟩] = some 1350 := by
  have hsum : ruleSum 1300 [⟨"fixed", -50⟩] = -50 := by
    simp [ruleSum, Rule.amount]
  have hd : calculateDiscount [("price_coefficient", num 5.25)]
      ([⟨some 500, 500, 2⟩, ⟨none, 300, 1⟩].map Line.item)
      [Rule.discount ⟨"fixed", -50⟩] = some (-50) := by
    rw [calculateDiscount_rules _ _ _ [⟨"fixed", -50⟩] 1300 sampleCart_subtotal
      (List.Forall₂.cons (Rule.describes_discount _) List.Forall₂.nil), hsum]
    norm_num
  refine ⟨sampleCart_subtotal, hd, ?_, ?_⟩
  · rw [hsum]
    simp [clamp]
  · unfold calculateTotal
    simp only [hd, sampleCart_subtotal]
    norm_num [Num.sub, Num.max]

/-- C19, as the code has it: for every cart with a numeric subtotal `s` and rules with
numeric values, `calculateDiscount` returns the smaller of `s` and the sum of
`s * value / 100` over the percentage rules plus `value` over the fixed rules; when `s`
and all rule values are not negative, that is the sum clamped into `[0, s]`, and it is
not negative. -/
theorem calculateDiscount_sum (settings : Obj) (cartItems discounts : List Obj)
    (rules : List Rule) (s : ℚ) (hsub : calculateSubtotal settings cartItems = some s)
    (hrules : List.Forall₂ (fun d r => Rule.describes r d) discounts rules) :
    calculateDiscount settings cartItems discounts = some (min (ruleSum s rules) s) ∧
    (0 ≤ s → (∀ r ∈ rules, 0 ≤ r.value) →
      calculateDiscount settings cartItems discounts = some (clamp (ruleSum s rules) s) ∧
      0 ≤ clamp (ruleSum s rules) s) := by
  have h := calculateDiscount_rules settings cartItems discounts rules s hsub hrules
  have hmin : (if ruleSum s rules ≤ s then ruleSum s rules else s) = min (ruleSum s rules) s := by
    by_cases hle : ruleSum s rules ≤ s
    · simp [hle]
    · simp [hle, le_of_not_le hle]
  refine ⟨by rw [h, hmin], ?_⟩
  intro hs hvalues
  have hnn := ruleSum_nonneg s hs rules hvalues
  have hclamp : clamp (ruleSum s rules) s =
      (if ruleSum s rules ≤ s then ruleSum s rules else s) := by
    unfold clamp
    rw [if_neg (not_lt.mpr hnn)]
    by_cases hle : ruleSum s rules ≤ s
    · simp [hle, not_lt.mpr hle]
    · simp [hle, not_le.mp hle]
  refine ⟨by rw [h, hclamp], ?_⟩
  rw [hclamp]
  split
  · exact hnn
  · exact hs

/-- C19 as amended, on the sample cart with a rule of 10 % and a fixed rule of 50. -/
theorem calculateDiscount_sum_witness :
    calculateDiscount [("price_coefficient", num 5.25)]
        ([⟨some 500, 500, 2⟩, ⟨none, 300, 1⟩].map Line.item)
        ([⟨"percentage", 10⟩, ⟨"fixed", 50⟩].map Rule.discount) =
      some (min (ruleSum 1300 [⟨"percentage", 10⟩, ⟨"fixed", 50⟩]) 1300) ∧
    ((0 : ℚ) ≤ 1300 → (∀ r ∈ ([⟨"percentage", 10⟩, ⟨"fixed", 50⟩] : List Rule), 0 ≤ r.value) →
      calculateDiscount [("price_coefficient", num 5.25)]
          ([⟨some 500, 500, 2⟩, ⟨none, 300, 1⟩].map Line.item)
          ([⟨"percentage", 10⟩, ⟨"fixed", 50⟩].map Rule.discount) =
        some (clamp (ruleSum 1300 [⟨"percentage", 10⟩, ⟨"fixed", 50⟩]) 1300) ∧
      0 ≤ clamp (ruleSum 1300 [⟨"percentage", 10⟩, ⟨"fixed", 50⟩]) 1300) :=
  calculateDiscount_sum _ _ _ _ _ sampleCart_subtotal
    (describes_discounts [⟨"percentage", 10⟩, ⟨"fixed", 50⟩])

/-- C20: for every cart with a subtotal that is not negative and every list of
applicable rules with numeric values, raising the value of one percentage rule while the
other rules keep their type and value does not lower the discount `calculateDiscount`
returns. -/
theorem calculateDiscount_monotone (settings : Obj) (cartItems lower higher : List Obj)
    (before after : List Rule) (v w s : ℚ)
    (hsub : calculateSubtotal settings cartItems = some s) (hs : 0 ≤ s) (hv : v ≤ w)
    (hlower : List.Forall₂ (fun d r => Rule.describes r d) lower
      (before ++ ⟨"percentage", v⟩ :: after))
    (hhigher : List.Forall₂ (fun d r => Rule.describes r d) higher
      (before ++ ⟨"percentage", w⟩ :: after)) :
    ∃ d d', calculateDiscount settings cartItems lower = some d ∧
      calculateDiscount settings cartItems higher = some d' ∧ d ≤ d' := by
  refine ⟨_, _, calculateDiscount_rules settings cartItems lower _ s hsub hlower,
    calculateDiscount_rules settings cartItems higher _ s hsub hhigher, ?_⟩
  have hm := ruleSum_mono s hs before after v w hv
  split
  · split
    · exact hm
    · assumption
  · split
    · rename_i h1 h2
      exact absurd (le_trans hm h2) h1
    · exact le_refl s

/-- C20 on the sample cart: the rule of 10 % is raised to 20 %, a fixed rule of 50 stays. -/
theorem calculateDiscount_monotone_witness :
    ∃ d d', calculateDiscount [("price_coefficient", num 5.25)]
        ([⟨some 500, 500, 2⟩, ⟨none, 300, 1⟩].map Line.item)
        ([⟨"percentage", 10⟩, ⟨"fixed", 50⟩].map Rule.discount) = some d ∧
      calculateDiscount [("price_coefficient", num 5.25)]
        ([⟨some 500, 500, 2⟩, ⟨none, 300, 1⟩].map Line.item)
        ([⟨"percentage", 20⟩, ⟨"fixed", 50⟩].map Rule.discount) = some d' ∧ d ≤ d' :=
  calculateDiscount_monotone _ _ _ _ [] [⟨"fixed", 50⟩] 10 20 1300
    sampleCart_subtotal (by norm_num) (by norm_num)
    (describes_discounts [⟨"percentage", 10⟩, ⟨"fixed", 50⟩])
    (describes_discounts [⟨"percentage", 20⟩, ⟨"fixed", 50⟩])

/-! ## The administrator's order list -/

/-- Strict equality of a value with a query parameter is equality. -/
theorem strictEq_query (v : JsVal) (q : Query) (k : String) :
    strictEq v (q.get k) = true ↔ (v = q.get k) := by
  unfold Query.get
  cases List.lookup k q <;> cases v <;> simp [strictEq]

/-- The `where` clause of a request with a non-empty `admin` parameter: it selects
exactly the rows that pass the search and the status test, and it is evaluated whenever
the search text is absent, empty or an integer. -/
theorem orderMatches_any_admin (q : Query) (row : Obj) (hadmin : (q.get "admin").truthy = true) :
    (orderMatches q row = some true ↔
      ((q.get "search").truthy = false ∨
        ∃ t n, q.lookup "search" = some t ∧ pgInteger t = some n ∧
          row.get "id" = num ((n : Int) : ℚ)) ∧
      ((q.get "status").truthy = false ∨ row.get "status" = q.get "status")) ∧
    (((q.get "search").truthy = false ∨
        ∃ t n, q.lookup "search" = some t ∧ pgInteger t = some n) →
      ∃ b, orderMatches q row = some b) := by
  have hst : (if (q.get "status").truthy = true then strictEq (row.get "status") (q.get "status")
        else true) = true ↔
      ((q.get "status").truthy = false ∨ row.get "status" = q.get "status") := by
    by_cases h : (q.get "status").truthy = true
    · simp [h, strictEq_query]
    · simp [h]
  unfold orderMatches
  simp only [hadmin, Bool.not_true, Bool.false_and, Bool.false_eq_true, if_false]
  generalize (if (q.get "status").truthy = true then strictEq (row.get "status") (q.get "status")
        else true) = st at hst ⊢
  cases hq : List.lookup "search" q with
  | none =>
    have hS : (q.get "search").truthy = false := by simp [Query.get, hq, JsVal.truthy]
    simp only [hS, Bool.false_eq_true, if_false, Option.some.injEq, Bool.true_and, true_or,
      true_and]
    exact ⟨hst, fun _ => ⟨_, rfl⟩⟩
  | some t =>
    by_cases ht : t = ""
    · have hS : (q.get "search").truthy = false := by simp [Query.get, hq, JsVal.truthy, ht]
      simp only [hS, Bool.false_eq_true, if_false, Option.some.injEq, Bool.true_and, true_or,
        true_and]
      exact ⟨hst, fun _ => ⟨_, rfl⟩⟩
    · have hS : (q.get "search").truthy = true := by simp [Query.get, hq, JsVal.truthy, ht]
      simp only [hS, if_true]
      cases hp : pgInteger t with
      | none => simp [hp]
      | some n =>
        simp only [Option.some_bind, Option.map_some', Option.some.injEq, Bool.and_eq_true,
          Bool.true_and, numEq_iff, Option.pure_def, Option.bind_eq_bind]
        refine ⟨?_, fun _ => ⟨_, rfl⟩⟩
        rw [hst]
        constructor
        · rintro ⟨hid, hs⟩
          exact ⟨Or.inr ⟨t, n, rfl, hp, hid⟩, hs⟩
        · rintro ⟨h | ⟨t', n', ht', hn', hid⟩, hs⟩
          · exact absurd h (by decide)
          · subst ht'
            rw [hp] at hn'
            have hn2 : n = n' := Option.some.inj hn'
            subst hn2
            exact ⟨hid, hs⟩

/-- Two queries that agree on the parameters other than `user_id`, with a non-empty
`admin`, give the same `where` clause. -/
theorem orderMatches_congr_admin (q q' : Query) (hadmin : (q.get "admin").truthy = true)
    (hsame : ∀ k, k ≠ "user_id" → q'.lookup k = q.lookup k) :
    orderMatches q' = orderMatches q := by
  funext row
  have hget : ∀ k, k ≠ "user_id" → q'.get k = q.get k := by
    intro k hk
    unfold Query.get
    rw [hsame k hk]
  unfold orderMatches
  simp only [hget "admin" (by decide), hget "search" (by decide), hget "status" (by decide),
    hsame "search" (by decide), hadmin, Bool.not_true, Bool.false_and, Bool.false_eq_true,
    if_false]

/-- C28: for every request to list orders whose `admin` parameter is present and not
empty (whatever its text, `false` included), `user_id` has no effect: a request that
differs only in `user_id` gets the same answer, and a list that is returned holds exactly
the entries of the stored orders, of any user, that have the searched id (when a search
is given) and the requested status (when one is given).  The answer is such a list
whenever the search text is absent, empty or an integer. -/
theorem getOrders_admin_ignores_user_id (db : Db) (q q' : Query)
    (hadmin : (q.get "admin").truthy = true)
    (hsame : ∀ k, k ≠ "user_id" → q'.lookup k = q.lookup k) :
    getOrders db q' = getOrders db q ∧
    (((q.get "search").truthy = false ∨
        ∃ t n, q.lookup "search" = some t ∧ pgInteger t = some n) →
      ∃ entries, getOrders db q = ⟨200, arr entries⟩) ∧
    ∀ entries, getOrders db q = ⟨200, arr entries⟩ →
      ∀ e, e ∈ entries ↔ ∃ r ∈ db.orders, e = processOrder db r ∧
        ((q.get "search").truthy = false ∨
          ∃ t n, q.lookup "search" = some t ∧ pgInteger t = some n ∧
            r.get "id" = num ((n : Int) : ℚ)) ∧
        ((q.get "status").truthy = false ∨ r.get "status" = q.get "status") := by
  refine ⟨?_, ?_, ?_⟩
  · unfold getOrders
    rw [orderMatches_congr_admin q q' hadmin hsame]
  · intro hsearch
    obtain ⟨kept, hkept⟩ := filterRows_total (orderMatches q) db.orders
      (fun r _ => (orderMatches_any_admin q r hadmin).2 hsearch)
    exact ⟨_, by unfold getOrders; rw [hkept]⟩
  · intro entries hlist e
    unfold getOrders at hlist
    cases hf : filterRows (orderMatches q) db.orders with
    | none => simp [hf] at hlist
    | some rows =>
      simp only [hf, Response.mk.injEq, JsVal.arr.injEq, true_and] at hlist
      subst hlist
      rw [List.mem_map]
      constructor
      · rintro ⟨r, hmem, rfl⟩
        have hr := (filterRows_iff _ _ _ hf r).mp (List.mem_reverse.mp hmem)
        have hm := (orderMatches_any_admin q r hadmin).1.mp hr.2
        exact ⟨r, hr.1, rfl, hm.1, hm.2⟩
      · rintro ⟨r, hr, rfl, hs, hst⟩
        exact ⟨r, List.mem_reverse.mpr ((filterRows_iff _ _ _ hf r).mpr
          ⟨hr, (orderMatches_any_admin q r hadmin).1.mpr ⟨hs, hst⟩⟩), rfl⟩

/-- C28 on the sample store: with `admin=false`, asking for user 1 or for user 2 gives
the same list. -/
theorem getOrders_admin_ignores_user_id_witness :
    getOrders (sampleDb "создан заказ") [("admin", "false"), ("user_id", "1")] =
      getOrders (sampleDb "создан заказ") [("admin", "false"), ("user_id", "2")] ∧
    (((Query.get [("admin", "false"), ("user_id", "2")] "search").truthy = false ∨
        ∃ t n, List.lookup "search" [("admin", "false"), ("user_id", "2")] = some t ∧
          pgInteger t = some n) →
      ∃ entries, getOrders (sampleDb "создан заказ") [("admin", "false"), ("user_id", "2")] =
        ⟨200, arr entries⟩) ∧
    ∀ entries, getOrders (sampleDb "создан заказ") [("admin", "false"), ("user_id", "2")] =
        ⟨200, arr entries⟩ →
      ∀ e, e ∈ entries ↔ ∃ r ∈ (sampleDb "создан заказ").orders,
        e = processOrder (sampleDb "создан заказ") r ∧
        ((Query.get [("admin", "false"), ("user_id", "2")] "search").truthy = false ∨
          ∃ t n, List.lookup "search" [("admin", "false"), ("user_id", "2")] = some t ∧
            pgInteger t = some n ∧ r.get "id" = num ((n : Int) : ℚ)) ∧
        ((Query.get [("admin", "false"), ("user_id", "2")] "status").truthy = false ∨
          r.get "status" = Query.get [("admin", "false"), ("user_id", "2")] "status") :=
  getOrders_admin_ignores_user_id (sampleDb "создан заказ")
    [("admin", "false"), ("user_id", "2")] [("admin", "false"), ("user_id", "1")] rfl
    (by
      intro k hk
      simp only [List.lookup]
      by_cases h1 : k = "admin"
      · subst h1; rfl
      · have h2 : (k == "admin") = false := by simpa using h1
        have h3 : (k == "user_id") = false := by simpa using hk
        simp [h2, h3])

/-! ## The stored coefficient -/

/-- The coefficient an update writes: the parsed number, or 5.25 when there is none or
it is zero. -/
theorem settingsUpdateData_coefficient (body : JsVal) :
    Obj.get (settingsUpdateData body) "price_coefficient" =
      match parseFloat (body.get "price_coefficient") with
      | some c => if c ≠ 0 then num c else num 5.25
      | none => num 5.25 := by
  unfold settingsUpdateData
  simp only [Obj.get, if_true]
  cases parseFloat (body.get "price_coefficient") with
  | none => simp [ofNumber, JsVal.or, JsVal.truthy]
  | some c =>
    by_cases hc : c = 0 <;> simp [ofNumber, JsVal.or, JsVal.truthy, hc]

/-- The settings row after an accepted update holds the values of the update. -/
theorem putSettings_row (accepts : Db → Obj → Bool) (db : Db) (body : JsVal)
    (hwrite : accepts db (settingsUpdateData body) = true) (k : String)
    (hk : k = "payment_info" ∨ k = "price_coefficient" ∨ k = "discount_rules" ∨
      k = "show_discount_on_products") :
    ∃ row rest, (putSettings accepts db body).2.settings = row :: rest ∧
      row.get k = Obj.get (settingsUpdateData body) k := by
  unfold putSettings
  simp only [hwrite, if_true]
  cases hs : db.settings with
  | nil =>
    refine ⟨("id", num (db.nextSettingsId : ℚ)) :: settingsUpdateData body, [],
      by simp [Settings.create, hs], ?_⟩
    rcases hk with rfl | rfl | rfl | rfl <;> rfl
  | cons settings rest =>
    refine ⟨_, rest, rfl, ?_⟩
    simp only [settingsUpdateData, List.foldl]
    rcases hk with rfl | rfl | rfl | rfl
    · rw [Obj.get_set_other _ _ _ _ (by decide), Obj.get_set_other _ _ _ _ (by decide),
        Obj.get_set_other _ _ _ _ (by decide), Obj.get_set_same]
      rfl
    · rw [Obj.get_set_other _ _ _ _ (by decide), Obj.get_set_other _ _ _ _ (by decide),
        Obj.get_set_same]
      rfl
    · rw [Obj.get_set_other _ _ _ _ (by decide), Obj.get_set_same]
      rfl
    · rw [Obj.get_set_same]
      rfl

/-- C30: after every update of the settings that the datastore accepts, the stored
`price_coefficient` is the number `parseFloat` reads from the submitted value when that
number is not zero, and 5.25 when the value is missing (`undefined`), is not numeric or
is zero; so it is never 0. -/
theorem putSettings_coefficient (accepts : Db → Obj → Bool) (db : Db) (body : JsVal)
    (hwrite : accepts db (settingsUpdateData body) = true) :
    (∃ row rest, (putSettings accepts db body).2.settings = row :: rest ∧
      row.get "price_coefficient" =
        (match parseFloat (body.get "price_coefficient") with
          | some c => if c ≠ 0 then num c else num 5.25
          | none => num 5.25) ∧
      row.get "price_coefficient" ≠ num 0) ∧
    parseFloat undefined = none ∧ parseFloat (str "дорого") = none ∧
    parseFloat (str "0") = some 0 := by
  refine ⟨?_, rfl, rfl, rfl⟩
  obtain ⟨row, rest, hrow, hget⟩ :=
    putSettings_row accepts db body hwrite "price_coefficient" (Or.inr (Or.inl rfl))
  rw [settingsUpdateData_coefficient] at hget
  refine ⟨row, rest, hrow, hget, ?_⟩
  rw [hget]
  cases parseFloat (body.get "price_coefficient") with
  | none => norm_num
  | some c =>
    by_cases hc : c = 0
    · simp [hc]; norm_num
    · simp [hc]

/-- C30 on the sample store: the coefficient 0 is stored as 5.25. -/
theorem putSettings_coefficient_witness :
    (∃ row rest, (putSettings acceptAll (sampleDb "создан заказ")
        (obj [("price_coefficient", num 0)])).2.settings = row :: rest ∧
      row.get "price_coefficient" =
        (match parseFloat ((obj [("price_coefficient", num 0)]).get "price_coefficient") with
          | some c => if c ≠ 0 then num c else num 5.25
          | none => num 5.25) ∧
      row.get "price_coefficient" ≠ num 0) ∧
    parseFloat undefined = none ∧ parseFloat (str "дорого") = none ∧
    parseFloat (str "0") = some 0 :=
  putSettings_coefficient acceptAll (sampleDb "создан заказ")
    (obj [("price_coefficient", num 0)]) rfl

/-! ## The single settings row -/

/-- The settings table after `GET /api/settings`: unchanged when it had a row, one row
otherwise. -/
theorem getSettings_rows (db : Db) :
    (db.settings = [] → ∃ row, (getSettings db).2.settings = [row]) ∧
    (db.settings ≠ [] → (getSettings db).2.settings = db.settings) := by
  unfold getSettings
  cases hs : db.settings with
  | nil =>
    refine ⟨fun _ => ⟨("id", num (db.nextSettingsId : ℚ)) :: defaultSettings, ?_⟩,
      fun h => absurd rfl h⟩
    simp [Settings.create, hs]
  | cons row rest =>
    refine ⟨fun h => by simp at h, fun _ => ?_⟩
    simp [hs]

/-- The settings table after `PUT /api/settings`: as long as before when it had a row or
the update is refused, one row otherwise. -/
theorem putSettings_rows (accepts : Db → Obj → Bool) (db : Db) (body : JsVal) :
    (db.settings ≠ [] →
      (putSettings accepts db body).2.settings.length = db.settings.length) ∧
    (db.settings = [] → accepts db (settingsUpdateData body) = true →
      (putSettings accepts db body).2.settings.length = 1) ∧
    (db.settings = [] → accepts db (settingsUpdateData body) = false →
      (putSettings accepts db body).2.settings = []) := by
  unfold putSettings
  cases hs : db.settings with
  | nil =>
    refine ⟨fun h => absurd rfl h, fun _ hw => ?_, fun _ hw => ?_⟩
    · simp [hw, Settings.create, hs]
    · simp [hw, hs]
  | cons row rest =>
    refine ⟨fun _ => ?_, fun h => by simp at h, fun h => by simp at h⟩
    by_cases hw : accepts db (settingsUpdateData body) = true
    · simp [hw]
    · simp [hw, hs]

/-- One settings request on a table of at most one row. -/
theorem handle_settings_rows (accepts : Db → Obj → Bool) (iLike : String → String → Bool)
    (db : Db) (r : Request) (hr : r.isSettings = true) (hstart : db.settings.length ≤ 1) :
    (handle accepts iLike db r).2.settings.length ≤ 1 ∧
    (db.settings.length = 1 → (handle accepts iLike db r).2.settings.length = 1) ∧
    (r = Request.getSettings → (handle accepts iLike db r).2.settings.length = 1) ∧
    ((∀ d o, accepts d o = true) → (handle accepts iLike db r).2.settings.length = 1) := by
  have hcases : db.settings = [] ∨ (db.settings ≠ [] ∧ db.settings.length = 1) := by
    cases hs : db.settings with
    | nil => exact Or.inl rfl
    | cons row rest =>
      right
      rw [hs] at hstart
      refine ⟨by simp, ?_⟩
      simp only [List.length_cons] at hstart ⊢
      omega
  cases r with
  | getSettings =>
    have h := getSettings_rows db
    have hone : (getSettings db).2.settings.length = 1 := by
      rcases hcases with he | ⟨hne, hlen⟩
      · obtain ⟨row, hrow⟩ := h.1 he
        rw [hrow]; rfl
      · rw [h.2 hne]; exact hlen
    exact ⟨le_of_eq hone, fun _ => hone, fun _ => hone, fun _ => hone⟩
  | updateSettings body =>
    have h := putSettings_rows accepts db body
    rcases hcases with he | ⟨hne, hlen⟩
    · have hlen0 : db.settings.length = 0 := by rw [he]; rfl
      refine ⟨?_, fun h1 => (by omega), fun h1 => Request.noConfusion h1,
        fun hacc => h.2.1 he (hacc _ _)⟩
      by_cases hw : accepts db (settingsUpdateData body) = true
      · exact le_of_eq (h.2.1 he hw)
      · show (putSettings accepts db body).2.settings.length ≤ 1
        rw [h.2.2 he (by simpa using hw)]
        decide
    · have hsame : (putSettings accepts db body).2.settings.length = 1 := by
        rw [h.1 hne]; exact hlen
      exact ⟨le_of_eq hsame, fun _ => hsame, fun _ => hsame, fun _ => hsame⟩
  | createOrder body => simp [Request.isSettings] at hr
  | updateOrder id body => simp [Request.isSettings] at hr
  | listOrders q => simp [Request.isSettings] at hr
  | listProducts q => simp [Request.isSettings] at hr

/-- C24: starting from a settings table of at most one row, after any sequence of
`GET /api/settings` and `PUT /api/settings` requests served one after another the table
has at most one row, and exactly one as soon as it had one at the start, or the sequence
contains a `GET`, or it is not empty and the datastore accepts the updates.  On an empty
table `GET /api/settings` creates the row with `price_coefficient` 5.25 and the rule
text `[]`, and answers with the empty rule list. -/
theorem settings_single_row (accepts : Db → Obj → Bool) (iLike : String → String → Bool)
    (db : Db) (requests : List Request) (hall : ∀ r ∈ requests, r.isSettings = true)
    (hstart : db.settings.length ≤ 1) :
    (serve accepts iLike db requests).settings.length ≤ 1 ∧
    ((db.settings.length = 1 ∨ Request.getSettings ∈ requests ∨
        (requests ≠ [] ∧ ∀ d o, accepts d o = true)) →
      (serve accepts iLike db requests).settings.length = 1) ∧
    (db.settings = [] →
      ∃ row, (getSettings db).2.settings = [row] ∧ row.get "price_coefficient" = num 5.25 ∧
        row.get "discount_rules" = str "[]" ∧ (getSettings db).1.status = 200 ∧
        (getSettings db).1.body.get "discount_rules" = arr []) := by
  refine ⟨?_, ?_, ?_⟩
  · induction requests generalizing db with
    | nil => exact hstart
    | cons r rest ih =>
      exact ih _ (fun x hx => hall x (List.mem_cons_of_mem _ hx))
        (handle_settings_rows accepts iLike db r (hall r (List.mem_cons_self _ _)) hstart).1
  · induction requests generalizing db with
    | nil =>
      rintro (h | h | ⟨h, _⟩)
      · exact h
      · simp at h
      · exact absurd rfl h
    | cons r rest ih =>
      have hstep := handle_settings_rows accepts iLike db r (hall r (List.mem_cons_self _ _))
        hstart
      have hrest := ih _ (fun x hx => hall x (List.mem_cons_of_mem _ hx)) hstep.1
      rintro (h | h | ⟨_, h⟩)
      · exact hrest (Or.inl (hstep.2.1 h))
      · rcases List.mem_cons.mp h with h1 | h1
        · exact hrest (Or.inl (hstep.2.2.1 h1.symm))
        · exact hrest (Or.inr (Or.inl h1))
      · exact hrest (Or.inl (hstep.2.2.2 h))
  · intro he
    have hget : getSettings db =
        (⟨200, obj (parseColumn (("id", num (db.nextSettingsId : ℚ)) :: defaultSettings)
          "discount_rules")⟩,
         { db with settings := [("id", num (db.nextSettingsId : ℚ)) :: defaultSettings],
                   nextSettingsId := db.nextSettingsId + 1 }) := by
      unfold getSettings
      simp [he, Settings.create]
    rw [hget]
    refine ⟨("id", num (db.nextSettingsId : ℚ)) :: defaultSettings, rfl, rfl, rfl, rfl, ?_⟩
    exact parseColumn_get_parsed _ _ _ rfl rfl

/-- C24 on an empty store: an update the datastore refuses, then a `GET`. -/
theorem settings_single_row_witness :
    (serve (fun _ _ => false) (fun _ _ => true) emptyDb
      [Request.updateSettings (obj []), Request.getSettings]).settings.length ≤ 1 ∧
    ((emptyDb.settings.length = 1 ∨
        Request.getSettings ∈ [Request.updateSettings (obj []), Request.getSettings] ∨
        ([Request.updateSettings (obj []), Request.getSettings] ≠ [] ∧
          ∀ (d : Db) (o : Obj), (fun _ _ => false : Db → Obj → Bool) d o = true)) →
      (serve (fun _ _ => false) (fun _ _ => true) emptyDb
        [Request.updateSettings (obj []), Request.getSettings]).settings.length = 1) ∧
    (emptyDb.settings = [] →
      ∃ row, (getSettings emptyDb).2.settings = [row] ∧
        row.get "price_coefficient" = num 5.25 ∧
        row.get "discount_rules" = str "[]" ∧ (getSettings emptyDb).1.status = 200 ∧
        (getSettings emptyDb).1.body.get "discount_rules" = arr []) :=
  settings_single_row (fun _ _ => false) (fun _ _ => true) emptyDb
    [Request.updateSettings (obj []), Request.getSettings]
    (by
      intro r hr
      rcases List.mem_cons.mp hr with rfl | hr
      · rfl
      · rw [List.mem_singleton.mp hr]; rfl)
    (Nat.zero_le 1)

/-! ## Malformed text in stored orders -/

/-- A filter whose test never fails keeps the rows whose test gives `true`. -/
theorem filterRows_eq_filter (test : Obj → Option Bool) (rows : List Obj)
    (h : ∀ r ∈ rows, ∃ b, test r = some b) :
    filterRows test rows = some (rows.filter (fun r => decide (test r = some true))) := by
  induction rows with
  | nil => rfl
  | cons x xs ih =>
    obtain ⟨b, hb⟩ := h x (List.mem_cons_self _ _)
    rw [filterRows, hb, ih (fun r hr => h r (List.mem_cons_of_mem _ hr))]
    cases b <;> simp [List.filter, hb]

/-- The `where` clause is evaluated on every row when the texts given for the integer
columns are integers. -/
theorem orderMatches_total (q : Query) (row : Obj)
    (huser : (q.get "admin").truthy = true ∨ (q.get "user_id").truthy = false ∨
      ∃ s u, q.lookup "user_id" = some s ∧ pgInteger s = some u)
    (hsearch : (q.get "search").truthy = false ∨
      ∃ t n, q.lookup "search" = some t ∧ pgInteger t = some n) :
    ∃ b, orderMatches q row = some b := by
  have hU : (!(q.get "admin").truthy && (q.get "user_id").truthy) = false ∨
      ∃ s u, q.lookup "user_id" = some s ∧ pgInteger s = some u := by
    rcases huser with h | h | h
    · left; simp [h]
    · left; simp [h]
    · exact Or.inr h
  unfold orderMatches
  rcases hU with hc | ⟨s, u, hs, hu⟩ <;> rcases hsearch with hc2 | ⟨t, n, ht, hn⟩
  · simp [hc, hc2]
  · by_cases h2 : (q.get "search").truthy = true
    · simp [hc, h2, ht, hn]
    · simp [hc, h2]
  · by_cases h1 : (!(q.get "admin").truthy && (q.get "user_id").truthy) = true
    · simp only [h1, if_true, hs, hu, hc2]
      simp
    · simp only [h1, hc2]
      simp
  · by_cases h1 : (!(q.get "admin").truthy && (q.get "user_id").truthy) = true <;>
      by_cases h2 : (q.get "search").truthy = true
    · simp only [h1, h2, if_true, hs, hu, ht, hn]
      simp
    · simp only [h1, h2, if_true, hs, hu]
      simp
    · simp only [h1, h2, if_true, ht, hn]
      simp
    · simp only [h1, h2]
      simp

/-- A column whose text is not JSON is decoded to the empty list. -/
theorem parseColumn_get_malformed (o : Obj) (k : String)
    (ht : (o.get k).truthy = true) (hp : JSON.parse (o.get k) = none) :
    (parseColumn o k).get k = arr [] := by
  unfold parseColumn
  rw [if_pos ht, hp]
  exact Obj.get_set_same _ _ _

/-- C22: for every set of stored orders and every request to list orders whose texts
for the integer columns are integers, the answer is 200 with one entry per stored order
that matches the filters, newest first, whatever the stored values are; an order whose
`products` (or `assigned_executors`) text is not empty and is not JSON is listed with the
empty list in that field; and a list is the list without any one order plus, at its
place, the entry of that order when it matches. -/
theorem getOrders_malformed_rows (db : Db) (q : Query)
    (huser : (q.get "admin").truthy = true ∨ (q.get "user_id").truthy = false ∨
      ∃ s u, q.lookup "user_id" = some s ∧ pgInteger s = some u)
    (hsearch : (q.get "search").truthy = false ∨
      ∃ t n, q.lookup "search" = some t ∧ pgInteger t = some n) :
    getOrders db q =
      ⟨200, arr (((db.orders.filter (fun r => decide (orderMatches q r = some true))).reverse).map
        (processOrder db))⟩ ∧
    (∀ r : Obj, (r.get "products").truthy = true → JSON.parse (r.get "products") = none →
      (processOrder db r).get "products" = arr []) ∧
    (∀ r : Obj, (r.get "assigned_executors").truthy = true →
      JSON.parse (r.get "assigned_executors") = none →
      (processOrder db r).get "assigned_executors" = arr []) ∧
    ∀ before after : List Obj, ∀ bad : Obj, db.orders = before ++ bad :: after →
      ∃ older newer : List JsVal,
        getOrders { db with orders := before ++ after } q = ⟨200, arr (newer ++ older)⟩ ∧
        getOrders db q =
          ⟨200, arr (newer ++
            (if orderMatches q bad = some true then [processOrder db bad] else []) ++ older)⟩ := by
  have hlist : ∀ d : Db, getOrders d q =
      ⟨200, arr (((d.orders.filter (fun r => decide (orderMatches q r = some true))).reverse).map
        (processOrder d))⟩ := by
    intro d
    unfold getOrders
    rw [filterRows_eq_filter _ _ (fun r _ => orderMatches_total q r huser hsearch)]
  refine ⟨hlist db, ?_, ?_, ?_⟩
  · intro r ht hp
    unfold processOrder
    simp only [JsVal.get]
    rw [parseColumn_get_other _ _ _ (by decide)]
    have h : Obj.get (r ++ [("User", includeUser db r)]) "products" = r.get "products" :=
      Obj.get_append_single _ _ _ _ (by decide)
    exact parseColumn_get_malformed _ _ (by rw [h]; exact ht) (by rw [h]; exact hp)
  · intro r ht hp
    unfold processOrder
    simp only [JsVal.get]
    have h : Obj.get (parseColumn (r ++ [("User", includeUser db r)]) "products")
        "assigned_executors" = r.get "assigned_executors" := by
      rw [parseColumn_get_other _ _ _ (by decide), Obj.get_append_single _ _ _ _ (by decide)]
    exact parseColumn_get_malformed _ _ (by rw [h]; exact ht) (by rw [h]; exact hp)
  · intro before after bad horders
    refine ⟨((before.filter (fun r => decide (orderMatches q r = some true))).reverse).map
        (processOrder db),
      ((after.filter (fun r => decide (orderMatches q r = some true))).reverse).map
        (processOrder db), ?_, ?_⟩
    · rw [hlist]
      simp only [List.filter_append, List.reverse_append, List.map_append]
      rfl
    · rw [hlist, horders]
      by_cases hb : orderMatches q bad = some true
      · simp [List.filter_append, List.filter_cons, hb]
      · simp [List.filter_append, List.filter_cons, hb]

/-- C22 on a store with one order whose `products` text is not JSON. -/
theorem getOrders_malformed_rows_witness :
    getOrders { sampleDb "готово" with
        orders := [Obj.set (sampleOrder 1 "готово") "products" (str "ваза, 2 шт")] }
      [("admin", "true")] =
      ⟨200, arr ((([Obj.set (sampleOrder 1 "готово") "products" (str "ваза, 2 шт")].filter
        (fun r => decide (orderMatches [("admin", "true")] r = some true))).reverse).map
          (processOrder { sampleDb "готово" with
            orders := [Obj.set (sampleOrder 1 "готово") "products" (str "ваза, 2 шт")] }))⟩ ∧
    (∀ r : Obj, (r.get "products").truthy = true → JSON.parse (r.get "products") = none →
      (processOrder { sampleDb "готово" with
        orders := [Obj.set (sampleOrder 1 "готово") "products" (str "ваза, 2 шт")] } r).get
          "products" = arr []) ∧
    (∀ r : Obj, (r.get "assigned_executors").truthy = true →
      JSON.parse (r.get "assigned_executors") = none →
      (processOrder { sampleDb "готово" with
        orders := [Obj.set (sampleOrder 1 "готово") "products" (str "ваза, 2 шт")] } r).get
          "assigned_executors" = arr []) ∧
    ∀ before after : List Obj, ∀ bad : Obj,
      [Obj.set (sampleOrder 1 "готово") "products" (str "ваза, 2 шт")] =
        before ++ bad :: after →
      ∃ older newer : List JsVal,
        getOrders { sampleDb "готово" with orders := before ++ after } [("admin", "true")] =
          ⟨200, arr (newer ++ older)⟩ ∧
        getOrders { sampleDb "готово" with
            orders := [Obj.set (sampleOrder 1 "готово") "products" (str "ваза, 2 шт")] }
          [("admin", "true")] =
          ⟨200, arr (newer ++
            (if orderMatches [("admin", "true")] bad = some true then
              [processOrder { sampleDb "готово" with
                orders := [Obj.set (sampleOrder 1 "готово") "products" (str "ваза, 2 шт")] } bad]
            else []) ++ older)⟩ :=
  getOrders_malformed_rows _ [("admin", "true")] (Or.inl rfl) (Or.inl rfl)

/-! ## Which discount rules the cart applies -/

/-- The filter of the cart on rules that all have `conditions`. -/
theorem filterRules_conditions (currentUser : Obj) (rules : List JsVal)
    (hrules : ∀ r ∈ rules, (r.get "conditions").isNullish = false) :
    filterRules (applicableRule currentUser) rules =
      some (rules.filter (fun r =>
        !((r.get "conditions").get "role").truthy ||
          strictEq ((r.get "conditions").get "role") (currentUser.get "role"))) := by
  induction rules with
  | nil => rfl
  | cons r rs ih =>
    have hc := hrules r (List.mem_cons_self _ _)
    have hr : r.isNullish = false := by
      cases r <;> simp_all [JsVal.isNullish, JsVal.get]
    rw [filterRules, ih (fun x hx => hrules x (List.mem_cons_of_mem _ hx))]
    simp only [applicableRule, hr, hc, Bool.or_self, Bool.false_eq_true, if_false]
    cases h1 : ((r.get "conditions").get "role").truthy <;>
      cases h2 : strictEq ((r.get "conditions").get "role") (currentUser.get "role") <;>
      simp [List.filter, h1, h2]

/-- C21 fails as stated: the cart reads only `conditions.role`.  For a buyer, the rule
whose only populated condition is `min_order_amount = 1000` is kept, whatever the cart
holds (the function does not take the cart): on a cart with subtotal 100 the rule of 10 %
gives the discount 10. -/
theorem calculateApplicableDiscounts_ignores_amount :
    calculateApplicableDiscounts [("id", num 2), ("role", str "buyer")]
        (arr [discountRule "От 1000" "percentage" 10 "" 1000]) =
      some [discountRule "От 1000" "percentage" 10 "" 1000] ∧
    calculateSubtotal [("price_coefficient", num 5.25)] [Line.item ⟨none, 100, 1⟩] = some 100 ∧
    calculateDiscount [("price_coefficient", num 5.25)] [Line.item ⟨none, 100, 1⟩]
      [Rule.discount ⟨"percentage", 10⟩] = some 10 := by
  have hsub : calculateSubtotal [("price_coefficient", num 5.25)] [Line.item ⟨none, 100, 1⟩] =
      some 100 := by
    rw [calculateSubtotal_lines [("price_coefficient", num 5.25)] 5.25 _ [⟨none, 100, 1⟩] rfl
      (List.Forall₂.cons (Line.describes_item _) List.Forall₂.nil)]
    rw [sum_map_single, Line.base_plain, ite_self, price_100_reference]
    norm_num
  refine ⟨rfl, hsub, ?_⟩
  rw [calculateDiscount_rules _ _ _ [⟨"percentage", 10⟩] 100 hsub
    (List.Forall₂.cons (Rule.describes_discount _) List.Forall₂.nil)]
  norm_num [ruleSum, Rule.amount]

/-- C21, as the code has it: for every list of rules that all have `conditions` and
every current user, `calculateApplicableDiscounts` keeps exactly the rules whose
`conditions.role` is empty (falsy) or is the user's role; whether a rule is kept depends
on nothing but its `conditions.role` and the user's role. -/
theorem calculateApplicableDiscounts_by_role (currentUser : Obj) (rules : List JsVal)
    (hrules : ∀ r ∈ rules, (r.get "conditions").isNullish = false) :
    calculateApplicableDiscounts currentUser (arr rules) =
      some (rules.filter (fun r =>
        !((r.get "conditions").get "role").truthy ||
          strictEq ((r.get "conditions").get "role") (currentUser.get "role"))) ∧
    ∀ (otherUser : Obj) (r r' : JsVal),
      (r.get "conditions").isNullish = false → (r'.get "conditions").isNullish = false →
      (r.get "conditions").get "role" = (r'.get "conditions").get "role" →
      currentUser.get "role" = otherUser.get "role" →
      applicableRule currentUser r = applicableRule otherUser r' := by
  refine ⟨filterRules_conditions currentUser rules hrules, ?_⟩
  intro otherUser r r' hc hc' hrole huser
  have hr : r.isNullish = false := by
    cases r <;> simp_all [JsVal.isNullish, JsVal.get]
  have hr' : r'.isNullish = false := by
    cases r' <;> simp_all [JsVal.isNullish, JsVal.get]
  simp only [applicableRule, hr, hr', hc, hc', hrole, huser]

/-- C21 as amended: for a buyer, of a rule for executors and a rule without role only the
second is kept. -/
theorem calculateApplicableDiscounts_by_role_witness :
    calculateApplicableDiscounts [("id", num 2), ("role", str "buyer")]
        (arr [discountRule "Мастерам" "fixed" 50 "executor" 0,
          discountRule "От 1000" "percentage" 10 "" 1000]) =
      some ([discountRule "Мастерам" "fixed" 50 "executor" 0,
          discountRule "От 1000" "percentage" 10 "" 1000].filter (fun r =>
        !((r.get "conditions").get "role").truthy ||
          strictEq ((r.get "conditions").get "role")
            (Obj.get [("id", num 2), ("role", str "buyer")] "role"))) ∧
    ∀ (otherUser : Obj) (r r' : JsVal),
      (r.get "conditions").isNullish = false → (r'.get "conditions").isNullish = false →
      (r.get "conditions").get "role" = (r'.get "conditions").get "role" →
      Obj.get [("id", num 2), ("role", str "buyer")] "role" = otherUser.get "role" →
      applicableRule [("id", num 2), ("role", str "buyer")] r = applicableRule otherUser r' :=
  calculateApplicableDiscounts_by_role [("id", num 2), ("role", str "buyer")]
    [discountRule "Мастерам" "fixed" 50 "executor" 0,
      discountRule "От 1000" "percentage" 10 "" 1000]
    (by
      intro r hr
      rcases List.mem_cons.mp hr with rfl | hr
      · rfl
      · rw [List.mem_singleton.mp hr]; rfl)

/-! ## Rules saved on the settings page -/

/-- C29, at the failing input: the settings page saves the list with one rule.
`updateSettings` sends the list as JSON text, the handler encodes that text once more,
and `GET /api/settings` decodes once: it answers with `discount_rules` equal to the JSON
text of the list, a string.  `calculateApplicableDiscounts` fails on it, so the cart is
left without rules, where the list itself would give the rule. -/
theorem saved_rules_reach_cart_as_text :
    (validatedData (obj [("payment_info", str ""), ("price_coefficient", num 5.25),
        ("discount_rules", arr [obj [("name", str "Всем"), ("type", str "fixed"),
          ("value", num 50), ("conditions", obj [("role", str "")])]]),
        ("show_discount_on_products", JsVal.bool false)])).get "discount_rules" =
      str ("[\x7b\"name\":\"Всем\",\"type\":\"fixed\",\"value\":50," ++
        "\"conditions\":\x7b\"role\":\"\"\x7d\x7d]") ∧
    (getSettings (putSettings acceptAll (sampleDb "создан заказ")
        (validatedData (obj [("payment_info", str ""), ("price_coefficient", num 5.25),
          ("discount_rules", arr [obj [("name", str "Всем"), ("type", str "fixed"),
            ("value", num 50), ("conditions", obj [("role", str "")])]]),
          ("show_discount_on_products", JsVal.bool false)]))).2).1.body.get "discount_rules" =
      str ("[\x7b\"name\":\"Всем\",\"type\":\"fixed\",\"value\":50," ++
        "\"conditions\":\x7b\"role\":\"\"\x7d\x7d]") ∧
    calculateApplicableDiscounts [("id", num 2), ("role", str "buyer")]
      (str ("[\x7b\"name\":\"Всем\",\"type\":\"fixed\",\"value\":50," ++
        "\"conditions\":\x7b\"role\":\"\"\x7d\x7d]")) = none ∧
    loadSettings [("id", num 2), ("role", str "buyer")]
      (getSettings (putSettings acceptAll (sampleDb "создан заказ")
        (validatedData (obj [("payment_info", str ""), ("price_coefficient", num 5.25),
          ("discount_rules", arr [obj [("name", str "Всем"), ("type", str "fixed"),
            ("value", num 50), ("conditions", obj [("role", str "")])]]),
          ("show_discount_on_products", JsVal.bool false)]))).2).1.body = [] ∧
    calculateApplicableDiscounts [("id", num 2), ("role", str "buyer")]
      (arr [obj [("name", str "Всем"), ("type", str "fixed"),
          ("value", num 50), ("conditions", obj [("role", str "")])]]) =
      some [obj [("name", str "Всем"), ("type", str "fixed"),
          ("value", num 50), ("conditions", obj [("role", str "")])]] :=
  ⟨rfl, rfl, rfl, rfl, rfl⟩

/-! ## The favorites counter -/

/-- Equality of integer columns is symmetric. -/
theorem numEq_comm (a b : JsVal) : numEq a b = numEq b a := by
  cases a <;> cases b <;> simp [numEq, eq_comm]

/-- Removing the first row that passes a test lowers by one the number of rows for the
product of that row, and no other number. -/
theorem removeFirst_count (test : Obj → Bool) (productId : ℚ) (v : JsVal) (rows : List Obj)
    (hfound : ∃ x ∈ rows, test x = true)
    (hproduct : ∀ x, test x = true → x.get "product_id" = num productId) :
    ((removeFirst test rows).filter (fun fav => numEq (fav.get "product_id") v)).length +
        (if numEq (num productId) v then 1 else 0) =
      (rows.filter (fun fav => numEq (fav.get "product_id") v)).length := by
  induction rows with
  | nil =>
    obtain ⟨x, hx, _⟩ := hfound
    simp at hx
  | cons r rs ih =>
    by_cases hr : test r = true
    · simp only [removeFirst, hr, if_true, List.filter_cons, hproduct r hr]
      by_cases hv : numEq (num productId) v = true
      · simp [hv]
      · simp [hv]
    · have hfound' : ∃ x ∈ rs, test x = true := by
        obtain ⟨x, hx, hxt⟩ := hfound
        rcases List.mem_cons.mp hx with rfl | hx'
        · exact absurd hxt hr
        · exact ⟨x, hx', hxt⟩
      simp only [removeFirst, hr, Bool.false_eq_true, if_false, List.filter_cons]
      have := ih hfound'
      split
      · simp only [List.length_cons]
        omega
      · exact this

/-- A product row after `Product.increment`: its id is kept, and its counter moves when
the id is the one of the `where` clause. -/
theorem increment_row (delta : ℚ) (id : Int) (p : Obj) :
    Obj.get (if numEq (p.get "id") (num (id : ℚ)) then
        Obj.set p "favorites_count" (sqlAdd delta (p.get "favorites_count")) else p) "id" =
      p.get "id" ∧
    Obj.get (if numEq (p.get "id") (num (id : ℚ)) then
        Obj.set p "favorites_count" (sqlAdd delta (p.get "favorites_count")) else p)
        "favorites_count" =
      if numEq (p.get "id") (num (id : ℚ)) then sqlAdd delta (p.get "favorites_count")
      else p.get "favorites_count" := by
  by_cases h : numEq (p.get "id") (num (id : ℚ)) = true
  · simp only [h, if_true]
    exact ⟨Obj.get_set_other _ _ _ _ (by decide), Obj.get_set_same _ _ _⟩
  · simp [h]

/-- Moving the rows of one product by `change` and its counter by the same amount keeps
the counters in agreement with the rows. -/
theorem countsAgree_increment (db : Db) (favorites : List Obj) (nextId : Nat) (id : Int)
    (delta : ℚ) (hstart : CountsAgree db)
    (hrows : ∀ v : JsVal,
      (((favorites.filter (fun fav => numEq (fav.get "product_id") v)).length : Nat) : ℚ) =
        (favoriteRows db v : ℚ) + (if numEq (num (id : ℚ)) v then delta else 0)) :
    CountsAgree
      (Product.increment { db with favorites := favorites, nextFavoriteId := nextId } delta id) := by
  intro p' hp'
  simp only [Product.increment, List.mem_map] at hp'
  obtain ⟨p, hp, rfl⟩ := hp'
  obtain ⟨hid, hcount⟩ := increment_row delta id p
  rw [hid, hcount, hstart p hp]
  have hr := hrows (p.get "id")
  simp only [favoriteRows, Product.increment] at hr ⊢
  rw [hr, numEq_comm (num (id : ℚ)) (p.get "id")]
  by_cases h : numEq (p.get "id") (num (id : ℚ)) = true
  · simp [h, sqlAdd, favoriteRows]
  · simp [h, favoriteRows]

/-- The store after a toggle: unchanged, or one favorite row of the pair less and the
product's counter one lower, or (no row of the pair) one row more and the counter one
higher. -/
theorem toggle_store (accepts : Db → Obj → Bool) (db : Db) (body : JsVal) :
    (postFavoritesToggle accepts db body).2 = db ∨
    ∃ user_id product_id : Int,
      columnInteger (body.get "user_id") = some user_id ∧
      columnInteger (body.get "product_id") = some product_id ∧
      ((∃ fav, db.favorites.find? (fun fav =>
            numEq (fav.get "user_id") (num (user_id : ℚ)) &&
              numEq (fav.get "product_id") (num (product_id : ℚ))) = some fav ∧
          (postFavoritesToggle accepts db body).2 =
            Product.increment
              { db with
                favorites := removeFirst (fun fav =>
                  numEq (fav.get "user_id") (num (user_id : ℚ)) &&
                    numEq (fav.get "product_id") (num (product_id : ℚ))) db.favorites,
                nextFavoriteId := db.nextFavoriteId }
              (-1) product_id) ∨
       (db.favorites.find? (fun fav =>
            numEq (fav.get "user_id") (num (user_id : ℚ)) &&
              numEq (fav.get "product_id") (num (product_id : ℚ))) = none ∧
          (postFavoritesToggle accepts db body).2 =
            Product.increment
              { db with
                favorites := db.favorites ++
                  [[("id", num (db.nextFavoriteId : ℚ)), ("user_id", num (user_id : ℚ)),
                    ("product_id", num (product_id : ℚ))]],
                nextFavoriteId := db.nextFavoriteId + 1 }
              1 product_id)) := by
  by_cases h0 : (!(body.get "user_id").truthy || !(body.get "product_id").truthy) = true
  · left
    simp [postFavoritesToggle, h0]
  · cases hu : columnInteger (body.get "user_id") with
    | none =>
      left
      simp [postFavoritesToggle, h0, hu]
    | some user_id =>
      cases hp : columnInteger (body.get "product_id") with
      | none =>
        left
        simp [postFavoritesToggle, h0, hu, hp]
      | some product_id =>
        cases hfind : db.favorites.find? (fun fav =>
            numEq (fav.get "user_id") (num (user_id : ℚ)) &&
              numEq (fav.get "product_id") (num (product_id : ℚ))) with
        | some fav =>
          right
          refine ⟨user_id, product_id, rfl, rfl, Or.inl ⟨fav, hfind, ?_⟩⟩
          simp only [postFavoritesToggle, h0, hu, hp, hfind]
          rfl
        | none =>
          by_cases hacc : accepts db
              [("user_id", body.get "user_id"), ("product_id", body.get "product_id")] = true
          · right
            refine ⟨user_id, product_id, rfl, rfl, Or.inr ⟨hfind, ?_⟩⟩
            simp only [postFavoritesToggle, h0, hu, hp, hfind, hacc]
            rfl
          · left
            simp only [postFavoritesToggle, h0, hu, hp, hfind, hacc]
            rfl

/-- One toggle keeps the counters in agreement with the rows. -/
theorem countsAgree_toggle (accepts : Db → Obj → Bool) (db : Db) (body : JsVal)
    (hstart : CountsAgree db) : CountsAgree (postFavoritesToggle accepts db body).2 := by
  rcases toggle_store accepts db body with h | ⟨user_id, product_id, _, _, h | h⟩
  · rw [h]; exact hstart
  · obtain ⟨fav, hfind, hdb⟩ := h
    rw [hdb]
    apply countsAgree_increment db _ db.nextFavoriteId product_id (-1) hstart
    intro v
    have hf := List.find?_some hfind
    have hc := removeFirst_count
      (fun fav => numEq (fav.get "user_id") (num (user_id : ℚ)) &&
        numEq (fav.get "product_id") (num (product_id : ℚ)))
      (product_id : ℚ) v db.favorites
      ⟨fav, List.mem_of_find?_eq_some hfind, hf⟩
      (fun x hx => (numEq_iff _ _).mp (Bool.and_eq_true_iff.mp hx).2)
    simp only [favoriteRows]
    by_cases hv : numEq (num (product_id : ℚ)) v = true
    · simp only [hv, if_true] at hc ⊢
      rw [← hc]
      push_cast
      ring
    · simp only [hv, Bool.false_eq_true, if_false, add_zero] at hc ⊢
      rw [hc]
  · obtain ⟨_, hdb⟩ := h
    rw [hdb]
    apply countsAgree_increment db _ (db.nextFavoriteId + 1) product_id 1 hstart
    intro v
    simp only [favoriteRows, List.filter_append, List.length_append, List.filter_cons,
      List.filter_nil, Obj.get]
    by_cases hv : numEq (num (product_id : ℚ)) v = true
    · simp [hv]
    · simp [hv]

/-- C25: starting from a store in which every product's `favorites_count` is the number
of favorite rows for it, after any sequence of toggle requests whose `user_id` and
`product_id` are JSON scalars that is still so; hence every counter is a natural number,
never negative.  A toggle that finds no favorite row for its pair leaves every counter
as it was or one higher. -/
theorem toggles_keep_counts (accepts : Db → Obj → Bool) (db : Db) (bodies : List JsVal)
    (_hscalar : ∀ body ∈ bodies,
      isScalar (body.get "user_id") = true ∧ isScalar (body.get "product_id") = true)
    (hstart : CountsAgree db) :
    CountsAgree (toggleAll accepts db bodies) ∧
    (∀ p ∈ (toggleAll accepts db bodies).products,
      ∃ n : Nat, p.get "favorites_count" = num (n : ℚ)) ∧
    ∀ (d : Db) (body : JsVal),
      (∀ u p, columnInteger (body.get "user_id") = some u →
        columnInteger (body.get "product_id") = some p →
        ∀ fav ∈ d.favorites, (numEq (fav.get "user_id") (num (u : ℚ)) &&
          numEq (fav.get "product_id") (num (p : ℚ))) = false) →
      List.Forall₂ (fun before after =>
          after.get "favorites_count" = before.get "favorites_count" ∨
          after.get "favorites_count" = sqlAdd 1 (before.get "favorites_count"))
        d.products (postFavoritesToggle accepts d body).2.products := by
  have hall : CountsAgree (toggleAll accepts db bodies) := by
    clear _hscalar
    unfold toggleAll
    induction bodies generalizing db with
    | nil => exact hstart
    | cons body rest ih => exact ih _ (countsAgree_toggle accepts db body hstart)
  refine ⟨hall, fun p hp => ⟨_, hall p hp⟩, ?_⟩
  intro d body hnone
  have hsame : List.Forall₂ (fun before after : Obj =>
      after.get "favorites_count" = before.get "favorites_count" ∨
      after.get "favorites_count" = sqlAdd 1 (before.get "favorites_count"))
      d.products d.products := List.forall₂_same.mpr (fun _ _ => Or.inl rfl)
  rcases toggle_store accepts d body with h | ⟨user_id, product_id, hu, hp, h | h⟩
  · rw [h]; exact hsame
  · obtain ⟨fav, hfind, _⟩ := h
    have h1 := hnone user_id product_id hu hp fav (List.mem_of_find?_eq_some hfind)
    have h2 := List.find?_some hfind
    simp only at h2
    rw [h1] at h2
    exact absurd h2 (by decide)
  · obtain ⟨_, hdb⟩ := h
    rw [hdb]
    simp only [Product.increment]
    rw [List.forall₂_map_right_iff]
    apply List.forall₂_same.mpr
    intro p _
    rw [(increment_row 1 product_id p).2]
    split
    · exact Or.inr rfl
    · exact Or.inl rfl

/-- C25 on a store where product 3 has one favorite row, of user 2: user 2 toggles twice
and something that is not a product id is sent once. -/
theorem toggles_keep_counts_witness :
    CountsAgree (toggleAll acceptAll
      { favoritesDb 6 with products := [Obj.set sampleProduct "favorites_count" (num 1)] }
      [obj [("user_id", num 2), ("product_id", num 3)],
       obj [("user_id", num 2), ("product_id", str "3")],
       obj [("user_id", num 2), ("product_id", str "ваза")]]) ∧
    (∀ p ∈ (toggleAll acceptAll
        { favoritesDb 6 with products := [Obj.set sampleProduct "favorites_count" (num 1)] }
        [obj [("user_id", num 2), ("product_id", num 3)],
         obj [("user_id", num 2), ("product_id", str "3")],
         obj [("user_id", num 2), ("product_id", str "ваза")]]).products,
      ∃ n : Nat, p.get "favorites_count" = num (n : ℚ)) ∧
    ∀ (d : Db) (body : JsVal),
      (∀ u p, columnInteger (body.get "user_id") = some u →
        columnInteger (body.get "product_id") = some p →
        ∀ fav ∈ d.favorites, (numEq (fav.get "user_id") (num (u : ℚ)) &&
          numEq (fav.get "product_id") (num (p : ℚ))) = false) →
      List.Forall₂ (fun before after =>
          after.get "favorites_count" = before.get "favorites_count" ∨
          after.get "favorites_count" = sqlAdd 1 (before.get "favorites_count"))
        d.products (postFavoritesToggle acceptAll d body).2.products :=
  toggles_keep_counts acceptAll
    { favoritesDb 6 with products := [Obj.set sampleProduct "favorites_count" (num 1)] }
    [obj [("user_id", num 2), ("product_id", num 3)],
     obj [("user_id", num 2), ("product_id", str "3")],
     obj [("user_id", num 2), ("product_id", str "ваза")]]
    (by
      intro body hb
      simp only [List.mem_cons, List.mem_singleton, List.not_mem_nil, or_false] at hb
      rcases hb with rfl | rfl | rfl <;> exact ⟨rfl, rfl⟩)
    (by
      intro p hp
      rw [List.mem_singleton.mp hp]
      rfl)

/-! ## The portfolio cap -/

/-- The rows an upload creates: one for every file, each of the user. -/
theorem createdEntries_rows (user_id : Int) (nextId : Nat) (files : List File) :
    ((files.map (fun file =>
        ([("user_id", num (user_id : ℚ)),
          ("image_path", str ("/uploads/portfolio/" ++ file.filename))] : Obj))).enum.map
      (fun p => ("id", num ((nextId + p.1 : Nat) : ℚ)) :: p.2)).length = files.length ∧
    ∀ e ∈ (files.map (fun file =>
        ([("user_id", num (user_id : ℚ)),
          ("image_path", str ("/uploads/portfolio/" ++ file.filename))] : Obj))).enum.map
      (fun p => ("id", num ((nextId + p.1 : Nat) : ℚ)) :: p.2),
      Obj.get e "user_id" = num (user_id : ℚ) := by
  refine ⟨by simp, ?_⟩
  intro e he
  simp only [List.mem_map] at he
  obtain ⟨p, hp, rfl⟩ := he
  obtain ⟨_, hval⟩ := List.mem_enum hp
  rw [hval, List.getElem_map]
  rfl

/-- The store after an upload to the portfolio: unchanged, or with one new row of the
user for every file, which happens only when the user's rows and the files together are
at most 20. -/
theorem postPortfolio_store (accepts : Db → Obj → Bool) (db : Db) (body : JsVal)
    (files : List File) :
    (postPortfolio accepts db body files).2 = db ∨
    ∃ user_id : Int, ∃ created : List Obj,
      portfolioCount db user_id + files.length ≤ 20 ∧ created.length = files.length ∧
      (∀ e ∈ created, e.get "user_id" = num (user_id : ℚ)) ∧
      (postPortfolio accepts db body files).2.portfolio = db.portfolio ++ created := by
  unfold postPortfolio
  by_cases hm : multerArray 20 files = true
  swap
  · left; simp [hm]
  cases hu : (if (body.get "user_id").truthy then parseInt (body.get "user_id") else none) with
  | none => left; simp [hm, hu]
  | some user_id =>
    by_cases hk : files.length = 0
    · left; simp [hm, hu, hk]
    by_cases hr : inIntegerRange user_id = true
    swap
    · left; simp [hm, hu, hk, hr]
    cases hf : db.users.find? (fun u => numEq (u.get "id") (num (user_id : ℚ))) with
    | none => left; simp [hm, hu, hk, hr, hf]
    | some user =>
      by_cases he : strictEq (user.get "role") (str "executor") = true
      swap
      · left; simp [hm, hu, hk, hr, hf, he]
      by_cases hc : (db.portfolio.filter
          (fun e => numEq (e.get "user_id") (num (user_id : ℚ)))).length + files.length > 20
      · left; simp [hm, hu, hk, hr, hf, he, hc]
      by_cases ha : (files.map (fun file =>
          ([("user_id", num (user_id : ℚ)),
            ("image_path", str ("/uploads/portfolio/" ++ file.filename))] : Obj))).all
          (accepts db) = true
      swap
      · left
        simp only [hm, hu, hk, hr, hf, he, hc, ha]
        simp
      right
      refine ⟨user_id, _, ?_, (createdEntries_rows user_id db.nextPortfolioId files).1,
        (createdEntries_rows user_id db.nextPortfolioId files).2, ?_⟩
      · unfold portfolioCount
        omega
      · simp only [hm, hu, hk, hr, hf, he, hc, ha]
        simp

/-- An upload that passes every check of the handler. -/
theorem postPortfolio_created (accepts : Db → Obj → Bool) (db : Db) (body : JsVal)
    (files : List File) (executor : Int) (user : Obj)
    (hm : multerArray 20 files = true) (hk : files.length ≥ 1)
    (ht : (body.get "user_id").truthy = true)
    (hparse : parseInt (body.get "user_id") = some executor)
    (hr : inIntegerRange executor = true)
    (hf : db.users.find? (fun u => numEq (u.get "id") (num (executor : ℚ))) = some user)
    (he : strictEq (user.get "role") (str "executor") = true)
    (hfits : portfolioCount db executor + files.length ≤ 20)
    (hacc : ∀ file ∈ files, accepts db [("user_id", num (executor : ℚ)),
      ("image_path", str ("/uploads/portfolio/" ++ file.filename))] = true) :
    (postPortfolio accepts db body files).1.status = 201 ∧
    (postPortfolio accepts db body files).2.portfolio = db.portfolio ++
      ((files.map (fun file =>
        ([("user_id", num (executor : ℚ)),
          ("image_path", str ("/uploads/portfolio/" ++ file.filename))] : Obj))).enum.map
      (fun p => ("id", num ((db.nextPortfolioId + p.1 : Nat) : ℚ)) :: p.2)) := by
  have hk0 : ¬ files.length = 0 := by omega
  have hfits' : ¬ (db.portfolio.filter
      (fun e => numEq (e.get "user_id") (num (executor : ℚ)))).length + files.length > 20 := by
    unfold portfolioCount at hfits
    omega
  have ha : (files.map (fun file =>
      ([("user_id", num (executor : ℚ)),
        ("image_path", str ("/uploads/portfolio/" ++ file.filename))] : Obj))).all
      (accepts db) = true := by
    rw [List.all_eq_true]
    intro e he'
    obtain ⟨file, hfile, rfl⟩ := List.mem_map.mp he'
    exact hacc file hfile
  have hfits2 : ¬ 20 < (db.portfolio.filter
      (fun e => numEq (e.get "user_id") (num (executor : ℚ)))).length + files.length := hfits'
  constructor
  · simp [postPortfolio, hm, ht, hparse, hk0, hr, hf, he, hfits2, ha]
  · simp [postPortfolio, hm, ht, hparse, hk0, hr, hf, he, hfits2, ha]

/-- The rows of a user after rows of one user were added. -/
theorem portfolioCount_append (db db' : Db) (n : Int) (created : List Obj)
    (hall : ∀ e ∈ created, e.get "user_id" = num (n : ℚ))
    (hp : db'.portfolio = db.portfolio ++ created) (m : Int) :
    portfolioCount db' m = portfolioCount db m + (if n = m then created.length else 0) := by
  unfold portfolioCount
  rw [hp, List.filter_append, List.length_append]
  congr 1
  by_cases hnm : n = m
  · subst hnm
    rw [if_pos rfl, List.filter_eq_self.mpr]
    intro e he
    rw [hall e he]
    simp [numEq]
  · rw [if_neg hnm, List.length_eq_zero, List.filter_eq_nil_iff]
    intro e he
    rw [hall e he]
    simp [numEq, hnm]

/-- C27 fails as stated: more than 20 files never reach the handler.  For an executor
without portfolio rows, an upload of 21 images is refused by the upload middleware and
answered 500 by the global error handler, not 400; nothing is added. -/
theorem postPortfolio_too_many_files :
    portfolioCount (portfolioDb 0) 3 + (List.replicate 21 (sampleImage "work.png")).length > 20 ∧
    postPortfolio acceptAll (portfolioDb 0) (obj [("user_id", str "3")])
        (List.replicate 21 (sampleImage "work.png")) =
      (⟨500, obj [("error", str "服务器内部错误")]⟩, portfolioDb 0) :=
  ⟨by decide, rfl⟩

/-- C27, as the code has it: an upload to the portfolio leaves every user with at most
20 rows who had at most 20.  A set of files the upload middleware refuses (more than 20
files, a file that is not an image or is larger than 5 MB) is answered 500 and adds
nothing.  For an executor, an upload of at least one file that passes the middleware is
answered 400 and adds nothing when the executor's rows and the files exceed 20;
otherwise, the datastore accepting the rows, it is answered 201 and adds exactly one row
of that executor for every file. -/
theorem postPortfolio_cap (accepts : Db → Obj → Bool) (db : Db) (body : JsVal)
    (files : List File) (owner : Int) (hcap : portfolioCount db owner ≤ 20) :
    portfolioCount (postPortfolio accepts db body files).2 owner ≤ 20 ∧
    (multerArray 20 files = false →
      postPortfolio accepts db body files = (globalError, db)) ∧
    ∀ (executor : Int) (user : Obj), multerArray 20 files = true → files.length ≥ 1 →
      (body.get "user_id").truthy = true → parseInt (body.get "user_id") = some executor →
      inIntegerRange executor = true →
      db.users.find? (fun u => numEq (u.get "id") (num (executor : ℚ))) = some user →
      strictEq (user.get "role") (str "executor") = true →
      (portfolioCount db executor + files.length > 20 →
        postPortfolio accepts db body files =
          (⟨400, obj [("error", str "Максимум 20 изображений в портфолио")]⟩, db)) ∧
      (portfolioCount db executor + files.length ≤ 20 →
        (∀ file ∈ files, accepts db [("user_id", num (executor : ℚ)),
          ("image_path", str ("/uploads/portfolio/" ++ file.filename))] = true) →
        (postPortfolio accepts db body files).1.status = 201 ∧
        portfolioCount (postPortfolio accepts db body files).2 executor =
          portfolioCount db executor + files.length ∧
        ∃ created : List Obj, created.length = files.length ∧
          (∀ e ∈ created, e.get "user_id" = num (executor : ℚ)) ∧
          (postPortfolio accepts db body files).2.portfolio = db.portfolio ++ created) := by
  refine ⟨?_, ?_, ?_⟩
  · rcases postPortfolio_store accepts db body files with h | ⟨n, created, hle, hlen, hall, hp⟩
    · rw [h]; exact hcap
    · rw [portfolioCount_append db _ n created hall hp owner]
      by_cases hnm : n = owner
      · subst hnm
        rw [if_pos rfl, hlen]
        exact hle
      · rw [if_neg hnm]
        exact hcap
  · intro hm
    simp [postPortfolio, hm]
  · intro executor user hm hk ht hparse hr hf he
    have hk0 : ¬ files.length = 0 := by omega
    constructor
    · intro hover
      have hover' : (db.portfolio.filter
          (fun e => numEq (e.get "user_id") (num (executor : ℚ)))).length + files.length > 20 :=
        hover
      simp [postPortfolio, hm, ht, hparse, hk0, hr, hf, he, hover']
    · intro hfits hacc
      obtain ⟨hstatus, hp⟩ := postPortfolio_created accepts db body files executor user hm hk ht
        hparse hr hf he hfits hacc
      have hrows := createdEntries_rows executor db.nextPortfolioId files
      refine ⟨hstatus, ?_, _, hrows.1, hrows.2, hp⟩
      rw [portfolioCount_append db _ executor _ hrows.2 hp executor, if_pos rfl, hrows.1]

/-- C27 as amended, for the executor (user 3) with 19 rows: one more image is stored,
two are refused with 400. -/
theorem postPortfolio_cap_witness :
    portfolioCount (postPortfolio acceptAll (portfolioDb 19) (obj [("user_id", str "3")])
      [sampleImage "a.png"]).2 3 ≤ 20 ∧
    (multerArray 20 [sampleImage "a.png"] = false →
      postPortfolio acceptAll (portfolioDb 19) (obj [("user_id", str "3")])
        [sampleImage "a.png"] = (globalError, portfolioDb 19)) ∧
    ∀ (executor : Int) (user : Obj), multerArray 20 [sampleImage "a.png"] = true →
      [sampleImage "a.png"].length ≥ 1 →
      ((obj [("user_id", str "3")]).get "user_id").truthy = true →
      parseInt ((obj [("user_id", str "3")]).get "user_id") = some executor →
      inIntegerRange executor = true →
      (portfolioDb 19).users.find? (fun u => numEq (u.get "id") (num (executor : ℚ))) =
        some user →
      strictEq (user.get "role") (str "executor") = true →
      (portfolioCount (portfolioDb 19) executor + [sampleImage "a.png"].length > 20 →
        postPortfolio acceptAll (portfolioDb 19) (obj [("user_id", str "3")])
            [sampleImage "a.png"] =
          (⟨400, obj [("error", str "Максимум 20 изображений в портфолио")]⟩, portfolioDb 19)) ∧
      (portfolioCount (portfolioDb 19) executor + [sampleImage "a.png"].length ≤ 20 →
        (∀ file ∈ [sampleImage "a.png"], acceptAll (portfolioDb 19)
          [("user_id", num (executor : ℚ)),
            ("image_path", str ("/uploads/portfolio/" ++ file.filename))] = true) →
        (postPortfolio acceptAll (portfolioDb 19) (obj [("user_id", str "3")])
          [sampleImage "a.png"]).1.status = 201 ∧
        portfolioCount (postPortfolio acceptAll (portfolioDb 19) (obj [("user_id", str "3")])
            [sampleImage "a.png"]).2 executor =
          portfolioCount (portfolioDb 19) executor + [sampleImage "a.png"].length ∧
        ∃ created : List Obj, created.length = [sampleImage "a.png"].length ∧
          (∀ e ∈ created, e.get "user_id" = num (executor : ℚ)) ∧
          (postPortfolio acceptAll (portfolioDb 19) (obj [("user_id", str "3")])
            [sampleImage "a.png"]).2.portfolio = (portfolioDb 19).portfolio ++ created) :=
  postPortfolio_cap acceptAll (portfolioDb 19) (obj [("user_id", str "3")])
    [sampleImage "a.png"] 3 (by decide)

/-! ## Creating a custom request -/

/-- The create handler of custom requests in its outcomes: 201 with one new row, or
another status with the store unchanged. -/
theorem postCustomRequests_cases (accepts : Db → Obj → Bool) (db : Db) (body : JsVal)
    (files : List File) :
    ((multerArray 3 files = true ∧ (body.get "user_id").truthy = true ∧
        (∃ name, body.get "product_name" = str name ∧ (str (jsTrim name)).truthy = true) ∧
        ∃ values, requestData body files = some values ∧ accepts db values = true) ∧
      ∃ values, requestData body files = some values ∧
        postCustomRequests accepts db body files =
          (⟨201, obj (("id", num (db.nextCustomRequestId : ℚ)) :: values ++
              [("admin_notes", null)])⟩,
           { db with
             customRequests := db.customRequests ++
               [("id", num (db.nextCustomRequestId : ℚ)) :: values ++ [("admin_notes", null)]],
             nextCustomRequestId := db.nextCustomRequestId + 1 })) ∨
    (¬ (multerArray 3 files = true ∧ (body.get "user_id").truthy = true ∧
        (∃ name, body.get "product_name" = str name ∧ (str (jsTrim name)).truthy = true) ∧
        ∃ values, requestData body files = some values ∧ accepts db values = true) ∧
      (postCustomRequests accepts db body files).1.status ≠ 201 ∧
      (postCustomRequests accepts db body files).2 = db) := by
  by_cases hm : multerArray 3 files = true
  swap
  · right
    exact ⟨fun h => hm h.1, by simp [postCustomRequests, hm, globalError],
      by simp [postCustomRequests, hm]⟩
  by_cases hu : (body.get "user_id").truthy = true
  swap
  · right
    exact ⟨fun h => hu h.2.1, by simp [postCustomRequests, hm, hu],
      by simp [postCustomRequests, hm, hu]⟩
  by_cases hpn : (body.get "product_name").truthy = true
  swap
  · right
    refine ⟨?_, by simp [postCustomRequests, hm, hu, hpn], by simp [postCustomRequests, hm, hu, hpn]⟩
    rintro ⟨_, _, ⟨name, hname, htrim⟩, _⟩
    apply hpn
    rw [hname]
    cases hn : decide (name = "") with
    | true =>
      have : name = "" := by simpa using hn
      subst this
      exact absurd htrim (by decide)
    | false =>
      have : name ≠ "" := by simpa using hn
      simp [JsVal.truthy, this]
  cases hname : body.get "product_name" with
  | str name =>
    by_cases htrim : (str (jsTrim name)).truthy = true
    swap
    · right
      refine ⟨?_, by simp [postCustomRequests, hm, hu, hpn, hname, htrim],
        by simp [postCustomRequests, hm, hu, hpn, hname, htrim]⟩
      rintro ⟨_, _, ⟨name', hname', htrim'⟩, _⟩
      have : name = name' := JsVal.str.inj hname'
      subst this
      exact htrim htrim'
    cases hv : requestData body files with
    | none =>
      right
      refine ⟨?_, ?_, ?_⟩
      · rintro ⟨_, _, _, values, hvalues, _⟩
        simp at hvalues
      · rw [hname] at hpn
        simp [postCustomRequests, hm, hu, hpn, hname, htrim, hv]
      · rw [hname] at hpn
        simp [postCustomRequests, hm, hu, hpn, hname, htrim, hv]
    | some values =>
      by_cases ha : accepts db values = true
      · left
        refine ⟨⟨hm, hu, ⟨name, rfl, htrim⟩, values, rfl, ha⟩, values, rfl, ?_⟩
        rw [hname] at hpn
        simp [postCustomRequests, hm, hu, hpn, hname, htrim, hv, ha]
      · right
        refine ⟨?_, ?_, ?_⟩
        · rintro ⟨_, _, _, values', hvalues', ha'⟩
          have : values = values' := Option.some.inj hvalues'
          subst this
          exact ha ha'
        · rw [hname] at hpn
          simp [postCustomRequests, hm, hu, hpn, hname, htrim, hv, ha]
        · rw [hname] at hpn
          simp [postCustomRequests, hm, hu, hpn, hname, htrim, hv, ha]
  | undefined => simp [hname, JsVal.truthy] at hpn
  | null => simp [hname, JsVal.truthy] at hpn
  | nan => simp [hname, JsVal.truthy] at hpn
  | bool b =>
    right
    rw [hname] at hpn
    refine ⟨?_, by simp [postCustomRequests, hm, hu, hpn, hname],
      by simp [postCustomRequests, hm, hu, hpn, hname]⟩
    rintro ⟨_, _, ⟨name', hname', _⟩, _⟩
    cases hname'
  | num q =>
    right
    rw [hname] at hpn
    refine ⟨?_, by simp [postCustomRequests, hm, hu, hpn, hname],
      by simp [postCustomRequests, hm, hu, hpn, hname]⟩
    rintro ⟨_, _, ⟨name', hname', _⟩, _⟩
    cases hname'
  | arr xs =>
    right
    rw [hname] at hpn
    refine ⟨?_, by simp [postCustomRequests, hm, hu, hpn, hname],
      by simp [postCustomRequests, hm, hu, hpn, hname]⟩
    rintro ⟨_, _, ⟨name', hname', _⟩, _⟩
    cases hname'
  | obj kvs =>
    right
    rw [hname] at hpn
    refine ⟨?_, by simp [postCustomRequests, hm, hu, hpn, hname],
      by simp [postCustomRequests, hm, hu, hpn, hname]⟩
    rintro ⟨_, _, ⟨name', hname', _⟩, _⟩
    cases hname'

/-- The values of a new custom request: the status is 'в обработке', and the texts given
for the links and the heights are taken as they are. -/
theorem requestData_fields (body : JsVal) (files : List File) (values : Obj)
    (h : requestData body files = some values) :
    Obj.get values "status" = str "в обработке" ∧
    Obj.get values "model_links" = (body.get "model_links").or null ∧
    Obj.get values "required_heights" = (body.get "required_heights").or null := by
  unfold requestData at h
  split at h
  · simp only [Option.map_eq_some'] at h
    obtain ⟨additional, _, rfl⟩ := h
    exact ⟨rfl, rfl, rfl⟩
  · simp at h

/-- C23 fails as stated: the handler does not count the links.  A request with six
model links and no image is answered 201 and stored; only the images are bounded on the
server (three are accepted, four are answered 500 by the upload middleware and nothing
is stored). -/
theorem postCustomRequests_accepts_six_links :
    (JSON.parse (str "[\"a\",\"b\",\"c\",\"d\",\"e\",\"f\"]")).map
      (fun links => (elements links).length) = some 6 ∧
    (postCustomRequests acceptAll (sampleDb "создан заказ")
      (obj [("user_id", str "2"), ("product_name", str "Ваза"),
        ("model_links", str "[\"a\",\"b\",\"c\",\"d\",\"e\",\"f\"]"),
        ("required_heights", str "[]")]) []).1.status = 201 ∧
    (postCustomRequests acceptAll (sampleDb "создан заказ")
      (obj [("user_id", str "2"), ("product_name", str "Ваза"),
        ("model_links", str "[\"a\",\"b\",\"c\",\"d\",\"e\",\"f\"]"),
        ("required_heights", str "[]")]) []).2.customRequests =
      [[("id", num 1), ("user_id", num 2), ("product_name", str "Ваза"),
        ("additional_name", null), ("product_id", null),
        ("model_links", str "[\"a\",\"b\",\"c\",\"d\",\"e\",\"f\"]"),
        ("required_heights", str "[]"), ("images", null), ("status", str "в обработке"),
        ("admin_notes", null)]] ∧
    (postCustomRequests acceptAll (sampleDb "создан заказ")
      (obj [("user_id", str "2"), ("product_name", str "Ваза")])
      [sampleImage "a.png", sampleImage "b.png", sampleImage "c.png"]).1.status = 201 ∧
    postCustomRequests acceptAll (sampleDb "создан заказ")
      (obj [("user_id", str "2"), ("product_name", str "Ваза")])
      [sampleImage "a.png", sampleImage "b.png", sampleImage "c.png", sampleImage "d.png"] =
      (⟨500, obj [("error", str "服务器内部错误")]⟩, sampleDb "создан заказ") :=
  ⟨rfl, rfl, rfl, rfl, rfl⟩

/-- C23, as the code has it: `POST /api/custom-requests` answers 201 exactly when the
upload middleware lets the files through (at most three, images of at most 5 MB),
`user_id` is truthy, `product_name` is a string that is not blank, `additional_name` is
empty or a string, and the datastore accepts the values.  Then it stores one row, in
status 'в обработке', with the link and height texts as they were sent, however many
entries they hold; every other request stores nothing.  The bound of five is in the
form: `addArrayField` refuses to add a sixth link or height. -/
theorem postCustomRequests_accepts (accepts : Db → Obj → Bool) (db : Db) (body : JsVal)
    (files : List File) :
    ((postCustomRequests accepts db body files).1.status = 201 ↔
      (multerArray 3 files = true ∧ (body.get "user_id").truthy = true ∧
        (∃ name, body.get "product_name" = str name ∧ (str (jsTrim name)).truthy = true) ∧
        ∃ values, requestData body files = some values ∧ accepts db values = true)) ∧
    ((postCustomRequests accepts db body files).1.status = 201 →
      ∃ row, (postCustomRequests accepts db body files).2.customRequests =
          db.customRequests ++ [row] ∧
        row.get "status" = str "в обработке" ∧
        row.get "model_links" = (body.get "model_links").or null ∧
        row.get "required_heights" = (body.get "required_heights").or null) ∧
    ((postCustomRequests accepts db body files).1.status ≠ 201 →
      (postCustomRequests accepts db body files).2 = db) ∧
    ∀ formData : Obj,
      ((elements (formData.get "model_links")).length ≥ 5 →
        addArrayField formData "model_links" = .error "Максимум 5 ссылок на модели") ∧
      ((elements (formData.get "required_heights")).length ≥ 5 →
        addArrayField formData "required_heights" = .error "Максимум 5 размеров высоты") := by
  have hrow : ∀ (values : Obj) (k : String), k ≠ "id" → k ≠ "admin_notes" →
      Obj.get (("id", num (db.nextCustomRequestId : ℚ)) :: values ++ [("admin_notes", null)]) k =
        Obj.get values k := by
    intro values k h1 h2
    rw [List.cons_append]
    simp only [Obj.get, Ne.symm h1, if_false]
    exact Obj.get_append_single _ _ _ _ h2
  refine ⟨?_, ?_, ?_, ?_⟩
  · rcases postCustomRequests_cases accepts db body files with ⟨hc, values, _, hpost⟩ | ⟨hc, hs, _⟩
    · exact ⟨fun _ => hc, fun _ => by rw [hpost]⟩
    · exact ⟨fun h => absurd h hs, fun h => absurd h hc⟩
  · intro hstatus
    rcases postCustomRequests_cases accepts db body files with ⟨_, values, hv, hpost⟩ | ⟨_, hs, _⟩
    · obtain ⟨h1, h2, h3⟩ := requestData_fields body files values hv
      refine ⟨("id", num (db.nextCustomRequestId : ℚ)) :: values ++ [("admin_notes", null)],
        by rw [hpost], ?_, ?_, ?_⟩
      · rw [hrow values _ (by decide) (by decide)]; exact h1
      · rw [hrow values _ (by decide) (by decide)]; exact h2
      · rw [hrow values _ (by decide) (by decide)]; exact h3
    · exact absurd hstatus hs
  · intro hstatus
    rcases postCustomRequests_cases accepts db body files with ⟨_, values, _, hpost⟩ | ⟨_, _, hdb⟩
    · exact absurd (by rw [hpost]) hstatus
    · exact hdb
  · intro formData
    constructor
    · intro h
      simp [addArrayField, h]
    · intro h
      simp [addArrayField, h]

/-- C23 as amended, for a request of user 2 with three images. -/
theorem postCustomRequests_accepts_witness :
    ((postCustomRequests acceptAll (sampleDb "создан заказ")
        (obj [("user_id", str "2"), ("product_name", str "Ваза")])
        [sampleImage "a.png", sampleImage "b.png", sampleImage "c.png"]).1.status = 201 ↔
      (multerArray 3 [sampleImage "a.png", sampleImage "b.png", sampleImage "c.png"] = true ∧
        ((obj [("user_id", str "2"), ("product_name", str "Ваза")]).get "user_id").truthy = true ∧
        (∃ name, (obj [("user_id", str "2"), ("product_name", str "Ваза")]).get "product_name" =
          str name ∧ (str (jsTrim name)).truthy = true) ∧
        ∃ values, requestData (obj [("user_id", str "2"), ("product_name", str "Ваза")])
          [sampleImage "a.png", sampleImage "b.png", sampleImage "c.png"] = some values ∧
          acceptAll (sampleDb "создан заказ") values = true)) ∧
    ((postCustomRequests acceptAll (sampleDb "создан заказ")
        (obj [("user_id", str "2"), ("product_name", str "Ваза")])
        [sampleImage "a.png", sampleImage "b.png", sampleImage "c.png"]).1.status = 201 →
      ∃ row, (postCustomRequests acceptAll (sampleDb "создан заказ")
          (obj [("user_id", str "2"), ("product_name", str "Ваза")])
          [sampleImage "a.png", sampleImage "b.png", sampleImage "c.png"]).2.customRequests =
          (sampleDb "создан заказ").customRequests ++ [row] ∧
        row.get "status" = str "в обработке" ∧
        row.get "model_links" =
          ((obj [("user_id", str "2"), ("product_name", str "Ваза")]).get "model_links").or
            null ∧
        row.get "required_heights" =
          ((obj [("user_id", str "2"), ("product_name", str "Ваза")]).get
            "required_heights").or null) ∧
    ((postCustomRequests acceptAll (sampleDb "создан заказ")
        (obj [("user_id", str "2"), ("product_name", str "Ваза")])
        [sampleImage "a.png", sampleImage "b.png", sampleImage "c.png"]).1.status ≠ 201 →
      (postCustomRequests acceptAll (sampleDb "создан заказ")
        (obj [("user_id", str "2"), ("product_name", str "Ваза")])
        [sampleImage "a.png", sampleImage "b.png", sampleImage "c.png"]).2 =
        sampleDb "создан заказ") ∧
    ∀ formData : Obj,
      ((elements (formData.get "model_links")).length ≥ 5 →
        addArrayField formData "model_links" = .error "Максимум 5 ссылок на модели") ∧
      ((elements (formData.get "required_heights")).length ≥ 5 →
        addArrayField formData "required_heights" = .error "Максимум 5 размеров высоты") :=
  postCustomRequests_accepts acceptAll (sampleDb "создан заказ")
    (obj [("user_id", str "2"), ("product_name", str "Ваза")])
    [sampleImage "a.png", sampleImage "b.png", sampleImage "c.png"]

/-! ## The single administrator -/

/-- The role of a new user: `admin` exactly for the first. -/
theorem userRole_cases (isFirstUser : Bool) (role : JsVal) :
    (isFirstUser = true → userRole isFirstUser role = str "admin") ∧
    (isFirstUser = false →
      userRole isFirstUser role = str "buyer" ∨ userRole isFirstUser role = str "executor") := by
  constructor
  · intro h
    simp [userRole, h]
  · intro h
    unfold userRole
    simp only [h, Bool.false_eq_true, if_false]
    by_cases hb : role.isStr "buyer" = true
    · left
      cases role <;> simp_all [JsVal.isStr, JsVal.truthy]
    · by_cases hx : role.isStr "executor" = true
      · right
        cases role <;> simp_all [JsVal.isStr, JsVal.truthy]
      · left
        simp [hb, hx]

/-- The registration handler in its outcomes: 201 with one new user, who is the
administrator with id 1 when the store was empty and a buyer or executor otherwise, or
another status with the store unchanged. -/
theorem postRegister_cases (hash : String → String) (newId : Db → Nat)
    (createError : Db → Obj → Option CreateError) (db : Db) (body : JsVal) :
    ((postRegister hash newId createError db body).1.status = 201 ∧
      ∃ user : Obj, (postRegister hash newId createError db body).2 =
          { db with users := db.users ++ [user] } ∧
        (db.users = [] → user.get "role" = str "admin" ∧ user.get "id" = num 1) ∧
        (db.users ≠ [] → (user.get "role" = str "buyer" ∨ user.get "role" = str "executor") ∧
          user.get "id" = num (newId db : ℚ))) ∨
    ((postRegister hash newId createError db body).1.status ≠ 201 ∧
      (postRegister hash newId createError db body).2 = db) := by
  unfold postRegister
  by_cases h1 : (body.get "username").truthy = true
  swap
  · right; simp [h1]
  cases hname : body.get "username" with
  | str username =>
    rw [hname] at h1
    by_cases h2 : (str (jsTrim username)).truthy = true
    swap
    · right; simp [h1, h2]
    by_cases h3 : (!(body.get "password").truthy || shorterThanSix (body.get "password")) = true
    · right; simp [h1, h2, h3]
    by_cases h4 : utf16Length (jsTrim username) < 3 ∨ utf16Length (jsTrim username) > 50
    · right; simp [h1, h2, h3, h4]
    by_cases h5 : (db.users.find?
        (fun u => strictEq (u.get "username") (str (jsTrim username)))).isSome = true
    · right; simp [h1, h2, h3, h4, h5]
    cases hpw : body.get "password" with
    | str password =>
      rw [hpw] at h3
      cases hce : createError db (userData (decide (db.users.length = 0)) (jsTrim username)
          (hash password) (body.get "role")) with
      | none =>
        left
        simp only [h1, h2, h3, h4, h5, hce]
        refine ⟨by simp, _, by simp; rfl, ?_, ?_⟩
        · intro he
          have hlen : decide (db.users.length = 0) = true := by simp [he]
          simp only [hlen, if_true, Obj.get]
          exact ⟨by simpa using (userRole_cases true (body.get "role")).1 rfl, by simp⟩
        · intro hne
          have hlen : decide (db.users.length = 0) = false := by
            simpa using hne
          simp only [hlen, Bool.false_eq_true, if_false, Obj.get, if_true]
          exact ⟨by simpa using (userRole_cases false (body.get "role")).2 rfl, by simp⟩
      | some e =>
        right
        cases e <;> simp [h1, h2, h3, h4, h5, hce]
    | _ =>
      right
      rw [hpw] at h3
      simp [h1, h2, h3, h4, h5]
  | _ =>
    right
    rw [hname] at h1
    simp [h1]

/-- The deletion handler in its outcomes: the id 1 is refused with 403, the answer is
never 201, and the users are as before or without the rows of one id other than 1. -/
theorem deleteUser_cases (allows : Db → Int → Bool) (db : Db) (id : String) :
    (parseInt (str id) = some 1 →
      deleteUser allows db id =
        (⟨403, obj [("error", str "Невозможно удалить администратора")]⟩, db)) ∧
    (deleteUser allows db id).1.status ≠ 201 ∧
    ((deleteUser allows db id).2 = db ∨
      ∃ n : Int, n ≠ 1 ∧
        (deleteUser allows db id).2 =
          { db with users := db.users.filter (fun u => !numEq (u.get "id") (num (n : ℚ))) }) := by
  unfold deleteUser
  cases hp : parseInt (str id) with
  | none => exact ⟨fun h => by simp at h, by simp, Or.inl rfl⟩
  | some n =>
    by_cases hn : n = 1
    · subst hn
      exact ⟨fun _ => rfl, by simp, Or.inl rfl⟩
    · refine ⟨fun h => absurd (Option.some.inj h) hn, ?_, ?_⟩
      · split
        · simp
        · split
          · split <;> simp
          · simp
        · simp
      · split
        · exact Or.inl rfl
        · rename_i m hne heq
          have hm : m = n := (Option.some.inj heq).symm
          subst hm
          split
          · split
            · exact Or.inl rfl
            · exact Or.inr ⟨m, hn, rfl⟩
          · exact Or.inl rfl
        · exact Or.inl rfl

/-- A registration keeps the first user as the only administrator. -/
theorem singleAdmin_register (hash : String → String) (newId : Db → Nat)
    (createError : Db → Obj → Option CreateError) (db : Db) (body : JsVal)
    (h : SingleAdmin db) :
    SingleAdmin (postRegister hash newId createError db body).2 ∧
    (db.users ≠ [] ∨ (postRegister hash newId createError db body).1.status = 201 →
      (postRegister hash newId createError db body).2.users ≠ []) := by
  rcases postRegister_cases hash newId createError db body with
    ⟨hs, user, hdb, hfirst, hlater⟩ | ⟨hs, hdb⟩
  · rw [hdb]
    refine ⟨?_, fun _ => by simp⟩
    rcases h with he | ⟨admin, rest, hu, ha, hid, hrest⟩
    · right
      refine ⟨user, [], by simp [he], ?_, (hfirst he).2, by simp⟩
      simp [isAdmin, (hfirst he).1, strictEq]
    · right
      have hne : db.users ≠ [] := by rw [hu]; simp
      refine ⟨admin, rest ++ [user], by simp [hu], ha, hid, ?_⟩
      intro u hu'
      rcases List.mem_append.mp hu' with h1 | h1
      · exact hrest u h1
      · rw [List.mem_singleton.mp h1]
        rcases (hlater hne).1 with hr | hr <;> simp [isAdmin, hr, strictEq]
  · rw [hdb]
    refine ⟨h, ?_⟩
    rintro (hne | h201)
    · exact hne
    · exact absurd h201 hs

/-- A deletion keeps the first user as the only administrator. -/
theorem singleAdmin_delete (allows : Db → Int → Bool) (db : Db) (id : String)
    (h : SingleAdmin db) :
    SingleAdmin (deleteUser allows db id).2 ∧
    (db.users ≠ [] → (deleteUser allows db id).2.users ≠ []) := by
  rcases (deleteUser_cases allows db id).2.2 with hdb | ⟨n, hn, hdb⟩
  · rw [hdb]
    exact ⟨h, fun hne => hne⟩
  · rw [hdb]
    rcases h with he | ⟨admin, rest, hu, ha, hid, hrest⟩
    · exact ⟨Or.inl (by simp [he]), fun hne => absurd he hne⟩
    · have hkeep : (!numEq (admin.get "id") (num (n : ℚ))) = true := by
        rw [hid]
        have : ¬ ((1 : ℚ) = (n : ℚ)) := by
          intro h1
          apply hn
          exact_mod_cast h1.symm
        simp [numEq, this]
      have hfilter : List.filter (fun u => !numEq (u.get "id") (num (n : ℚ))) db.users =
          admin :: rest.filter (fun u => !numEq (u.get "id") (num (n : ℚ))) := by
        rw [hu, List.filter_cons, if_pos hkeep]
      refine ⟨Or.inr ⟨admin, _, hfilter, ha, hid, ?_⟩, fun _ => by simp [hfilter]⟩
      intro u hu'
      exact hrest u (List.mem_filter.mp hu').1

/-- Any sequence of registrations and deletions keeps the first user as the only
administrator; once there is a user, or a registration is answered 201, there is a user
at the end. -/
theorem singleAdmin_serveUsers (hash : String → String) (newId : Db → Nat)
    (createError : Db → Obj → Option CreateError) (allows : Db → Int → Bool)
    (calls : List UserCall) (db : Db) (h : SingleAdmin db) :
    SingleAdmin (serveUsers hash newId createError allows db calls).2 ∧
    (db.users ≠ [] ∨ (∃ r ∈ (serveUsers hash newId createError allows db calls).1,
        r.status = 201) →
      (serveUsers hash newId createError allows db calls).2.users ≠ []) := by
  induction calls generalizing db with
  | nil =>
    refine ⟨h, ?_⟩
    rintro (hne | ⟨r, hr, _⟩)
    · exact hne
    · simp [serveUsers] at hr
  | cons call rest ih =>
    have hstep : SingleAdmin (UserCall.serve hash newId createError allows db call).2 ∧
        (db.users ≠ [] ∨ (UserCall.serve hash newId createError allows db call).1.status = 201 →
          (UserCall.serve hash newId createError allows db call).2.users ≠ []) := by
      cases call with
      | register body => exact singleAdmin_register hash newId createError db body h
      | delete id =>
        refine ⟨(singleAdmin_delete allows db id h).1, ?_⟩
        rintro (hne | h201)
        · exact (singleAdmin_delete allows db id h).2 hne
        · exact absurd h201 (deleteUser_cases allows db id).2.1
    obtain ⟨hinv, hne⟩ := ih _ hstep.1
    refine ⟨hinv, ?_⟩
    rintro (h1 | ⟨r, hr, h201⟩)
    · exact hne (Or.inl (hstep.2 (Or.inl h1)))
    · simp only [serveUsers, List.mem_cons] at hr
      rcases hr with rfl | hr
      · exact hne (Or.inl (hstep.2 (Or.inr h201)))
      · exact hne (Or.inr ⟨r, hr, h201⟩)

/-- C26: after any sequence of registrations and deletions of users that starts from an
empty user store and in which a registration is answered 201, exactly one user is an
administrator, and it has id 1.  A registration that is answered 201 adds one user: with
role `admin` and id 1 when the store was empty, with role `buyer` or `executor`
otherwise, whatever role was requested.  A deletion whose id reads as 1 is answered 403
and leaves the store as it was. -/
theorem first_registrant_is_the_admin (hash : String → String) (newId : Db → Nat)
    (createError : Db → Obj → Option CreateError) (allows : Db → Int → Bool)
    (db : Db) (calls : List UserCall) (hempty : db.users = [])
    (hregistered : ∃ r ∈ (serveUsers hash newId createError allows db calls).1,
      r.status = 201) :
    (∃ admin, (serveUsers hash newId createError allows db calls).2.users.filter isAdmin =
        [admin] ∧ admin.get "id" = num 1) ∧
    (∀ (d : Db) (body : JsVal), (postRegister hash newId createError d body).1.status = 201 →
      ∃ user : Obj, (postRegister hash newId createError d body).2 =
          { d with users := d.users ++ [user] } ∧
        (d.users = [] → user.get "role" = str "admin" ∧ user.get "id" = num 1) ∧
        (d.users ≠ [] → user.get "role" = str "buyer" ∨ user.get "role" = str "executor")) ∧
    ∀ (d : Db) (id : String), parseInt (str id) = some 1 →
      deleteUser allows d id =
        (⟨403, obj [("error", str "Невозможно удалить администратора")]⟩, d) := by
  refine ⟨?_, ?_, ?_⟩
  · obtain ⟨hinv, hne⟩ := singleAdmin_serveUsers hash newId createError allows calls db
      (Or.inl hempty)
    rcases hinv with he | ⟨admin, rest, hu, ha, hid, hrest⟩
    · exact absurd he (hne (Or.inr hregistered))
    · refine ⟨admin, ?_, hid⟩
      rw [hu, List.filter_cons, if_pos ha, List.filter_eq_nil_iff.mpr]
      intro u hu'
      simp [hrest u hu']
  · intro d body hs
    rcases postRegister_cases hash newId createError d body with
      ⟨_, user, hdb, hfirst, hlater⟩ | ⟨hns, _⟩
    · exact ⟨user, hdb, hfirst, fun hne => (hlater hne).1⟩
    · exact absurd hs hns
  · intro d id h1
    exact (deleteUser_cases allows d id).1 h1

/-- C26 on an empty store: two registrations that ask for the role `admin`, then the
attempt to delete user 1. -/
theorem first_registrant_is_the_admin_witness :
    (∃ admin, (serveUsers (fun p => p) (fun d => d.users.length + 1) (fun _ _ => none)
        (fun _ _ => true) emptyDb
        [UserCall.register (obj [("username", str "Даниил"), ("password", str "секрет1"),
            ("role", str "admin")]),
          UserCall.register (obj [("username", str "Мария"), ("password", str "секрет2"),
            ("role", str "admin")]),
          UserCall.delete "1"]).2.users.filter isAdmin = [admin] ∧
      admin.get "id" = num 1) ∧
    (∀ (d : Db) (body : JsVal),
      (postRegister (fun p => p) (fun d => d.users.length + 1) (fun _ _ => none) d
        body).1.status = 201 →
      ∃ user : Obj,
        (postRegister (fun p => p) (fun d => d.users.length + 1) (fun _ _ => none) d body).2 =
          { d with users := d.users ++ [user] } ∧
        (d.users = [] → user.get "role" = str "admin" ∧ user.get "id" = num 1) ∧
        (d.users ≠ [] → user.get "role" = str "buyer" ∨ user.get "role" = str "executor")) ∧
    ∀ (d : Db) (id : String), parseInt (str id) = some 1 →
      deleteUser (fun _ _ => true) d id =
        (⟨403, obj [("error", str "Невозможно удалить администратора")]⟩, d) :=
  first_registrant_is_the_admin (fun p => p) (fun d => d.users.length + 1) (fun _ _ => none)
    (fun _ _ => true) emptyDb _ rfl ⟨_, List.mem_cons_self _ _, rfl⟩

end Marketplace
